import Mathlib

set_option maxHeartbeats 1000000

/-!
Verification of the Aspeed SMC/FMC flash controller and Aspeed I2C controller
device models (`hw/ssi/aspeed_smc.c`, `hw/i2c/aspeed_i2c.c`).

The C sources are shallowly embedded: 32-bit registers are natural numbers,
with an explicit `% 2^32` at every point where the C code's `uint32_t`
arithmetic can wrap; bit operations use `&&&`, `|||`, `^^^`, `<<<`, `>>>`
exactly where the C uses `&`, `|`, `^`, `<<`, `>>`.  External collaborators
(the generic I2C bus, the SSI bus and the DMA address spaces) are modelled
from their contracts, as the corresponding QEMU core files are not part of
this repository excerpt.
-/

namespace AspeedVerify

/-! ### SMC data model

From `hw/ssi/aspeed_smc.h` (declared in the repository's include tree, used
throughout `hw/ssi/aspeed_smc.c`): a segment is an address/size pair, where
`addr` is a `hwaddr` (64-bit) and `size` a `uint32_t`.  All address
arithmetic performed on segments in the embedded code stays far below
`2^64`, so 64-bit wrap-around is not modelled; 32-bit truncations are kept
explicit. -/

structure AspeedSegments where
  addr : Nat
  size : Nat
deriving Repr, DecidableEq

/-- The named default-segment tables of `aspeed_smc.c`; the C code compares
the `segments` pointer of a controller against particular tables
(`aspeed_segments_ast2500_spi1/2`, `aspeed_segments_ast2600_fmc`, ...), which
is modelled by this tag. -/
inductive SegTable
  | legacy | fmc | spi
  | ast2500_fmc | ast2500_spi1 | ast2500_spi2
  | ast2600_fmc | ast2600_spi1 | ast2600_spi2
deriving Repr, DecidableEq

def segTableEntries : SegTable → List AspeedSegments
  | .legacy => [⟨0x10000000, 32 * 1024 * 1024⟩]
  | .fmc => [⟨0x20000000, 64 * 1024 * 1024⟩, ⟨0x24000000, 32 * 1024 * 1024⟩,
             ⟨0x26000000, 32 * 1024 * 1024⟩, ⟨0x28000000, 32 * 1024 * 1024⟩,
             ⟨0x2A000000, 32 * 1024 * 1024⟩]
  | .spi => [⟨0x30000000, 64 * 1024 * 1024⟩]
  | .ast2500_fmc => [⟨0x20000000, 128 * 1024 * 1024⟩, ⟨0x28000000, 32 * 1024 * 1024⟩,
                     ⟨0x2A000000, 32 * 1024 * 1024⟩]
  | .ast2500_spi1 => [⟨0x30000000, 32 * 1024 * 1024⟩, ⟨0x32000000, 96 * 1024 * 1024⟩]
  | .ast2500_spi2 => [⟨0x38000000, 32 * 1024 * 1024⟩, ⟨0x3A000000, 96 * 1024 * 1024⟩]
  | .ast2600_fmc => [⟨0x0, 128 * 1024 * 1024⟩, ⟨0x0, 0⟩, ⟨0x0, 0⟩]
  | .ast2600_spi1 => [⟨0x0, 128 * 1024 * 1024⟩, ⟨0x0, 0⟩]
  | .ast2600_spi2 => [⟨0x0, 128 * 1024 * 1024⟩, ⟨0x0, 0⟩, ⟨0x0, 0⟩]

/-- Which pair of segment encode/decode functions a controller uses
(the `segment_to_reg`/`reg_to_segment` function pointers in C):
`smc2400` is `aspeed_smc_segment_to_reg`/`aspeed_smc_reg_to_segment`
(absolute 8 MiB units), `smc2600` is the `aspeed_2600_...` pair
(window offsets, 1 MiB units). -/
inductive SegOps
  | smc2400 | smc2600
deriving Repr, DecidableEq

/-- `AspeedSMCController`: the per-variant constant descriptor
(the `controllers[]` table of `aspeed_smc.c`). -/
structure AspeedSMCController where
  name : String
  r_conf : Nat
  r_ce_ctrl : Nat
  r_ctrl0 : Nat
  r_timings : Nat
  conf_enable_w0 : Nat
  max_slaves : Nat
  segments : SegTable
  flash_window_base : Nat
  flash_window_size : Nat
  has_dma : Bool
  dma_flash_mask : Nat := 0
  dma_dram_mask : Nat := 0
  nregs : Nat
  segOps : SegOps
deriving Repr, DecidableEq

/- Register word indices (byte offset / 4), from `aspeed_smc.c`. -/

def R_CONF : Nat := 0x00 / 4
def R_CE_CTRL : Nat := 0x04 / 4
def R_INTR_CTRL : Nat := 0x08 / 4
def INTR_CTRL_DMA_STATUS : Nat := 1 <<< 11
def INTR_CTRL_DMA_EN : Nat := 1 <<< 3
def R_CTRL0 : Nat := 0x10 / 4
def CTRL_CMD_SHIFT : Nat := 16
def CTRL_CMD_MASK : Nat := 0xff
def CTRL_DUMMY_HIGH_SHIFT : Nat := 14
def CTRL_AST2400_SPI_4BYTE : Nat := 1 <<< 13
def CE_CTRL_CLOCK_FREQ_SHIFT : Nat := 8
def CE_CTRL_CLOCK_FREQ_MASK : Nat := 0xf
def CE_CTRL_CLOCK_FREQ (div : Nat) : Nat :=
  (div &&& CE_CTRL_CLOCK_FREQ_MASK) <<< CE_CTRL_CLOCK_FREQ_SHIFT
def CTRL_DUMMY_LOW_SHIFT : Nat := 6
def CTRL_CE_STOP_ACTIVE : Nat := 1 <<< 2
def CTRL_IO_DUAL_ADDR_DATA : Nat := 1 <<< 28
def CTRL_READMODE : Nat := 0x0
def CTRL_FREADMODE : Nat := 0x1
def CTRL_WRITEMODE : Nat := 0x2
def CTRL_USERMODE : Nat := 0x3
def R_SEG_ADDR0 : Nat := 0x30 / 4
def SEG_END_SHIFT : Nat := 24
def SEG_END_MASK : Nat := 0xff
def SEG_START_SHIFT : Nat := 16
def SEG_START_MASK : Nat := 0xff
def R_DUMMY_DATA : Nat := 0x54 / 4
def R_DMA_CTRL : Nat := 0x80 / 4
def DMA_CTRL_DELAY_MASK : Nat := 0xf
def DMA_CTRL_DELAY_SHIFT : Nat := 8
def DMA_CTRL_FREQ_MASK : Nat := 0xf
def DMA_CTRL_FREQ_SHIFT : Nat := 4
def DMA_CTRL_CALIB : Nat := 1 <<< 3
def DMA_CTRL_CKSUM : Nat := 1 <<< 2
def DMA_CTRL_WRITE : Nat := 1 <<< 1
def DMA_CTRL_ENABLE : Nat := 1 <<< 0
def R_DMA_FLASH_ADDR : Nat := 0x84 / 4
def R_DMA_DRAM_ADDR : Nat := 0x88 / 4
def R_DMA_LEN : Nat := 0x8C / 4
def R_DMA_CHECKSUM : Nat := 0x90 / 4
def R_TIMINGS : Nat := 0x94 / 4
def R_SPI_CONF : Nat := 0x00 / 4
def SPI_CONF_ENABLE_W0 : Nat := 0
def R_SPI_CTRL0 : Nat := 0x4 / 4
def R_SPI_TIMINGS : Nat := 0x14 / 4
def ASPEED_SMC_R_SPI_MAX : Nat := 0x20 / 4
def ASPEED_SMC_R_SMC_MAX : Nat := 0x20 / 4
def ASPEED_SMC_R_MAX : Nat := 0x100 / 4
def CONF_ENABLE_W0 : Nat := 16
def CONF_FLASH_TYPE0 : Nat := 0
def CONF_FLASH_TYPE1 : Nat := 2
def CONF_FLASH_TYPE2 : Nat := 4
def CONF_FLASH_TYPE_SPI : Nat := 0x2
def SPI_OP_READ : Nat := 0x03
def SNOOP_OFF : Nat := 0xff
def SNOOP_START : Nat := 0x0
def AST2600_SEG_ADDR_MASK : Nat := 0x0ff00000

/-- `controllers[0]`: "aspeed.smc-ast2400". -/
def ctrl_smc2400 : AspeedSMCController :=
  { name := "aspeed.smc-ast2400", r_conf := R_CONF, r_ce_ctrl := R_CE_CTRL,
    r_ctrl0 := R_CTRL0, r_timings := R_TIMINGS, conf_enable_w0 := CONF_ENABLE_W0,
    max_slaves := 5, segments := .legacy,
    flash_window_base := 0x10000000, flash_window_size := 0x6000000,
    has_dma := false, nregs := ASPEED_SMC_R_SMC_MAX, segOps := .smc2400 }

/-- `controllers[1]`: "aspeed.fmc-ast2400". -/
def ctrl_fmc2400 : AspeedSMCController :=
  { name := "aspeed.fmc-ast2400", r_conf := R_CONF, r_ce_ctrl := R_CE_CTRL,
    r_ctrl0 := R_CTRL0, r_timings := R_TIMINGS, conf_enable_w0 := CONF_ENABLE_W0,
    max_slaves := 5, segments := .fmc,
    flash_window_base := 0x20000000, flash_window_size := 0x10000000,
    has_dma := true, dma_flash_mask := 0x0FFFFFFC, dma_dram_mask := 0x1FFFFFFC,
    nregs := ASPEED_SMC_R_MAX, segOps := .smc2400 }

/-- `controllers[2]`: "aspeed.spi1-ast2400". -/
def ctrl_spi2400 : AspeedSMCController :=
  { name := "aspeed.spi1-ast2400", r_conf := R_SPI_CONF, r_ce_ctrl := 0xff,
    r_ctrl0 := R_SPI_CTRL0, r_timings := R_SPI_TIMINGS,
    conf_enable_w0 := SPI_CONF_ENABLE_W0,
    max_slaves := 1, segments := .spi,
    flash_window_base := 0x30000000, flash_window_size := 0x10000000,
    has_dma := false, nregs := ASPEED_SMC_R_SPI_MAX, segOps := .smc2400 }

/-- `controllers[3]`: "aspeed.fmc-ast2500". -/
def ctrl_fmc2500 : AspeedSMCController :=
  { name := "aspeed.fmc-ast2500", r_conf := R_CONF, r_ce_ctrl := R_CE_CTRL,
    r_ctrl0 := R_CTRL0, r_timings := R_TIMINGS, conf_enable_w0 := CONF_ENABLE_W0,
    max_slaves := 3, segments := .ast2500_fmc,
    flash_window_base := 0x20000000, flash_window_size := 0x10000000,
    has_dma := true, dma_flash_mask := 0x0FFFFFFC, dma_dram_mask := 0x3FFFFFFC,
    nregs := ASPEED_SMC_R_MAX, segOps := .smc2400 }

/-- `controllers[4]`: "aspeed.spi1-ast2500". -/
def ctrl_spi1_2500 : AspeedSMCController :=
  { name := "aspeed.spi1-ast2500", r_conf := R_CONF, r_ce_ctrl := R_CE_CTRL,
    r_ctrl0 := R_CTRL0, r_timings := R_TIMINGS, conf_enable_w0 := CONF_ENABLE_W0,
    max_slaves := 2, segments := .ast2500_spi1,
    flash_window_base := 0x30000000, flash_window_size := 0x8000000,
    has_dma := false, nregs := ASPEED_SMC_R_MAX, segOps := .smc2400 }

/-- `controllers[5]`: "aspeed.spi2-ast2500". -/
def ctrl_spi2_2500 : AspeedSMCController :=
  { name := "aspeed.spi2-ast2500", r_conf := R_CONF, r_ce_ctrl := R_CE_CTRL,
    r_ctrl0 := R_CTRL0, r_timings := R_TIMINGS, conf_enable_w0 := CONF_ENABLE_W0,
    max_slaves := 2, segments := .ast2500_spi2,
    flash_window_base := 0x38000000, flash_window_size := 0x8000000,
    has_dma := false, nregs := ASPEED_SMC_R_MAX, segOps := .smc2400 }

/-- `controllers[6]`: "aspeed.fmc-ast2600". -/
def ctrl_fmc2600 : AspeedSMCController :=
  { name := "aspeed.fmc-ast2600", r_conf := R_CONF, r_ce_ctrl := R_CE_CTRL,
    r_ctrl0 := R_CTRL0, r_timings := R_TIMINGS, conf_enable_w0 := CONF_ENABLE_W0,
    max_slaves := 3, segments := .ast2600_fmc,
    flash_window_base := 0x20000000, flash_window_size := 0x10000000,
    has_dma := true, nregs := ASPEED_SMC_R_MAX, segOps := .smc2600 }

/-- `controllers[7]`: "aspeed.spi1-ast2600". -/
def ctrl_spi1_2600 : AspeedSMCController :=
  { name := "aspeed.spi1-ast2600", r_conf := R_CONF, r_ce_ctrl := R_CE_CTRL,
    r_ctrl0 := R_CTRL0, r_timings := R_TIMINGS, conf_enable_w0 := CONF_ENABLE_W0,
    max_slaves := 2, segments := .ast2600_spi1,
    flash_window_base := 0x30000000, flash_window_size := 0x10000000,
    has_dma := false, nregs := ASPEED_SMC_R_MAX, segOps := .smc2600 }

/-- `controllers[8]`: "aspeed.spi2-ast2600". -/
def ctrl_spi2_2600 : AspeedSMCController :=
  { name := "aspeed.spi2-ast2600", r_conf := R_CONF, r_ce_ctrl := R_CE_CTRL,
    r_ctrl0 := R_CTRL0, r_timings := R_TIMINGS, conf_enable_w0 := CONF_ENABLE_W0,
    max_slaves := 3, segments := .ast2600_spi2,
    flash_window_base := 0x50000000, flash_window_size := 0x10000000,
    has_dma := false, nregs := ASPEED_SMC_R_MAX, segOps := .smc2600 }

/-- The `controllers[]` table of `aspeed_smc.c` (all nine variants). -/
def controllers : List AspeedSMCController :=
  [ctrl_smc2400, ctrl_fmc2400, ctrl_spi2400, ctrl_fmc2500, ctrl_spi1_2500,
   ctrl_spi2_2500, ctrl_fmc2600, ctrl_spi1_2600, ctrl_spi2_2600]

/-! ### Segment register encoding (`aspeed_smc_segment_to_reg` and friends) -/

/-- `aspeed_smc_segment_to_reg` (AST2400/AST2500): 8 MiB units, absolute
addresses.  `reg |= ((seg->addr >> 23) & SEG_START_MASK) << SEG_START_SHIFT;
reg |= (((seg->addr + seg->size) >> 23) & SEG_END_MASK) << SEG_END_SHIFT`. -/
def aspeed_smc_segment_to_reg (seg : AspeedSegments) : Nat :=
  (((seg.addr >>> 23) &&& SEG_START_MASK) <<< SEG_START_SHIFT) |||
    ((((seg.addr + seg.size) >>> 23) &&& SEG_END_MASK) <<< SEG_END_SHIFT)

/-- `aspeed_smc_reg_to_segment` (AST2400/AST2500).  `seg->size` is a
`uint32_t`, so the subtraction `(end << 23) - seg->addr` wraps modulo
`2^32`; the embedding writes this two's-complement wrap explicitly. -/
def aspeed_smc_reg_to_segment (reg : Nat) : AspeedSegments :=
  let addr := ((reg >>> SEG_START_SHIFT) &&& SEG_START_MASK) <<< 23
  { addr := addr,
    size := ((((reg >>> SEG_END_SHIFT) &&& SEG_END_MASK) <<< 23) + 2 ^ 32 - addr) % 2 ^ 32 }

/-- `aspeed_2600_smc_segment_to_reg` (AST2600): 1 MiB units, offsets in the
window.  Disabled segments (`size == 0`) encode as a nil register. -/
def aspeed_2600_smc_segment_to_reg (seg : AspeedSegments) : Nat :=
  if seg.size = 0 then 0
  else ((seg.addr &&& AST2600_SEG_ADDR_MASK) >>> 16) |||
    ((seg.addr + seg.size - 1) &&& AST2600_SEG_ADDR_MASK)

/-- `aspeed_2600_smc_reg_to_segment`.  `reg` is a `uint32_t`, so `reg << 16`
wraps modulo `2^32`; `start_offset`, `end_offset` and the resulting `size`
are `uint32_t` values and the size subtraction wraps modulo `2^32`. -/
def aspeed_2600_smc_reg_to_segment (fwb reg : Nat) : AspeedSegments :=
  let start_offset := ((reg <<< 16) % 2 ^ 32) &&& AST2600_SEG_ADDR_MASK
  let end_offset := reg &&& AST2600_SEG_ADDR_MASK
  { addr := fwb + start_offset,
    size := (end_offset + 1048576 + 2 ^ 32 - start_offset) % 2 ^ 32 }

/-- Dispatch through the `segment_to_reg` function pointer of the
controller descriptor. -/
def segment_to_reg (c : AspeedSMCController) (seg : AspeedSegments) : Nat :=
  match c.segOps with
  | .smc2400 => aspeed_smc_segment_to_reg seg
  | .smc2600 => aspeed_2600_smc_segment_to_reg seg

/-- Dispatch through the `reg_to_segment` function pointer of the
controller descriptor. -/
def reg_to_segment (c : AspeedSMCController) (reg : Nat) : AspeedSegments :=
  match c.segOps with
  | .smc2400 => aspeed_smc_reg_to_segment reg
  | .smc2600 => aspeed_2600_smc_reg_to_segment c.flash_window_base reg

/-- The encoding granularity of a variant: 8 MiB for the AST2400/AST2500
absolute encoding, 1 MiB for the AST2600 offset encoding. -/
def segUnit (c : AspeedSMCController) : Nat :=
  match c.segOps with
  | .smc2400 => 8 * 1024 * 1024
  | .smc2600 => 1024 * 1024

/-! ### SMC device state -/

/-- Pointwise update of a function-represented array. -/
def updf {α : Type} (f : Nat → α) (i : Nat) (v : α) : Nat → α :=
  fun j => if j = i then v else f j

/-- Pointwise update of the register backing store. -/
def upd (f : Nat → Nat) (i v : Nat) : Nat → Nat := updf f i v

/-- The memory-region attributes of one per-CS flash sub-region
(`fl->mmio`): its address inside the flash-window container, its size, and
its enabled flag (`memory_region_set_address` / `_set_size` /
`_set_enabled`). -/
structure FlashRegion where
  mmio_addr : Nat
  mmio_size : Nat
  enabled : Bool
deriving Repr, DecidableEq

/-- `AspeedSMCState`: the mutable state of one SMC controller instance.
`regs` is the register backing store (`uint32_t regs[]`, word-indexed).
`spiLog` records the bytes pushed to the SSI bus by `ssi_transfer` (the SPI
bus is an external collaborator; only the outgoing bytes matter to the
embedded write paths).  `gerrors` counts the guest-error log records
emitted by the segment-update path (`qemu_log_mask(LOG_GUEST_ERROR, ...)`
inside `aspeed_smc_flash_set_segment`); log records of the other paths are
not tracked.  `irq` is the level of the controller (DMA) interrupt line,
`cs_lines i` the level of chip-select line `i` (true = deasserted). -/
structure AspeedSMCState where
  ctrl : AspeedSMCController
  num_cs : Nat
  inject_failure : Bool
  sdram_base : Nat
  regs : Nat → Nat
  flashes : Nat → FlashRegion
  cs_lines : Nat → Bool
  snoop_index : Nat
  snoop_dummies : Nat
  irq : Bool
  spiLog : List Nat
  gerrors : Nat

/-- `aspeed_smc_flash_overlap`: true iff the candidate segment overlaps the
segment of some other chip-select (the C caller uses it only for its log
side effect). -/
def aspeed_smc_flash_overlap (c : AspeedSMCController) (regs : Nat → Nat)
    (new : AspeedSegments) (cs : Nat) : Bool :=
  (List.range c.max_slaves).any (fun i =>
    if i = cs then false
    else
      let seg := reg_to_segment c (regs (R_SEG_ADDR0 + i))
      decide (new.addr + new.size > seg.addr ∧ new.addr < seg.addr + seg.size))

/-- `aspeed_smc_flash_set_segment`.  Mirrors the C control flow: decode the
candidate, snap the CS0 start address, (dead) snap the AST2500-SPI end
address — note the C guard compares `cs` with `max_slaves` itself, one past
the last valid index, so it can never hold for the `cs` values the MMIO
dispatch produces —, reject a candidate that lies entirely outside the
flash window, then log-only checks, then commit the sub-region move and the
(re-encoded) register value. -/
def aspeed_smc_flash_set_segment (st : AspeedSMCState) (cs : Nat) (new0 : Nat) :
    AspeedSMCState :=
  let c := st.ctrl
  let seg0 := reg_to_segment c new0
  let snap0 := cs = 0 ∧ seg0.addr ≠ c.flash_window_base
  let g1 : Nat := if snap0 then 1 else 0
  let seg1 := if snap0 then { seg0 with addr := c.flash_window_base } else seg0
  let new1 := if snap0 then segment_to_reg c { seg0 with addr := c.flash_window_base }
    else new0
  let defSeg := (segTableEntries c.segments).getD cs ⟨0, 0⟩
  let endRO := (c.segments = SegTable.ast2500_spi1 ∨ c.segments = SegTable.ast2500_spi2) ∧
    cs = c.max_slaves ∧ seg1.addr + seg1.size ≠ defSeg.addr + defSeg.size
  let g2 : Nat := if endRO then 1 else 0
  let seg2 := if endRO then { seg1 with size := defSeg.addr + defSeg.size - seg1.addr }
    else seg1
  let new2 := if endRO then segment_to_reg c { seg1 with size := defSeg.addr + defSeg.size - seg1.addr }
    else new1
  if seg2.addr + seg2.size ≤ c.flash_window_base ∨
      seg2.addr > c.flash_window_base + c.flash_window_size then
    { st with gerrors := st.gerrors + g1 + g2 + 1 }
  else
    let g3 : Nat := if seg2.size ≠ 0 ∧ seg2.addr % seg2.size ≠ 0 then 1 else 0
    let g4 : Nat := if aspeed_smc_flash_overlap c st.regs seg2 cs then 1 else 0
    { st with
      flashes := updf st.flashes cs
        { mmio_addr := (seg2.addr + 2 ^ 64 - c.flash_window_base) % 2 ^ 64,
          mmio_size := seg2.size, enabled := true },
      regs := upd st.regs (R_SEG_ADDR0 + cs) new2,
      gerrors := st.gerrors + g1 + g2 + g3 + g4 }

/-- `ssi_transfer`.  Modelled from the spec: the SPI bus collaborator
transfers one byte at a time; the embedding records the outgoing byte.  The
returned byte is not used by any embedded write path. -/
def ssi_transfer (st : AspeedSMCState) (b : Nat) : AspeedSMCState :=
  { st with spiLog := st.spiLog ++ [b] }

def aspeed_smc_flash_mode (st : AspeedSMCState) (id : Nat) : Nat :=
  st.regs (st.ctrl.r_ctrl0 + id) &&& 3

def aspeed_smc_is_writable (st : AspeedSMCState) (id : Nat) : Bool :=
  decide (st.regs st.ctrl.r_conf &&& (1 <<< (st.ctrl.conf_enable_w0 + id)) ≠ 0)

def aspeed_smc_flash_cmd (st : AspeedSMCState) (id : Nat) : Nat :=
  let cmd := (st.regs (st.ctrl.r_ctrl0 + id) >>> CTRL_CMD_SHIFT) &&& CTRL_CMD_MASK
  if aspeed_smc_flash_mode st id = CTRL_READMODE then SPI_OP_READ else cmd

def aspeed_smc_flash_is_4byte (st : AspeedSMCState) (id : Nat) : Bool :=
  if st.ctrl.segments = SegTable.spi then
    decide (st.regs st.ctrl.r_ctrl0 &&& CTRL_AST2400_SPI_4BYTE ≠ 0)
  else
    decide (st.regs st.ctrl.r_ce_ctrl &&& (1 <<< id) ≠ 0)

def aspeed_smc_is_ce_stop_active (st : AspeedSMCState) (id : Nat) : Bool :=
  decide (st.regs (st.ctrl.r_ctrl0 + id) &&& CTRL_CE_STOP_ACTIVE ≠ 0)

def aspeed_smc_flash_select (st : AspeedSMCState) (id : Nat) : AspeedSMCState :=
  let v := st.regs (st.ctrl.r_ctrl0 + id) &&& (0xffffffff ^^^ CTRL_CE_STOP_ACTIVE)
  let st := { st with regs := upd st.regs (st.ctrl.r_ctrl0 + id) v }
  { st with cs_lines := updf st.cs_lines id (aspeed_smc_is_ce_stop_active st id) }

def aspeed_smc_flash_unselect (st : AspeedSMCState) (id : Nat) : AspeedSMCState :=
  let v := st.regs (st.ctrl.r_ctrl0 + id) ||| CTRL_CE_STOP_ACTIVE
  let st := { st with regs := upd st.regs (st.ctrl.r_ctrl0 + id) v }
  { st with cs_lines := updf st.cs_lines id (aspeed_smc_is_ce_stop_active st id) }

/-- `aspeed_smc_check_segment_addr`: reduce an in-window offset modulo the
CS segment size (log-only on wrap). -/
def aspeed_smc_check_segment_addr (st : AspeedSMCState) (id : Nat) (addr : Nat) : Nat :=
  let seg := reg_to_segment st.ctrl (st.regs (R_SEG_ADDR0 + id))
  if addr % seg.size ≠ addr then addr % seg.size else addr

def aspeed_smc_flash_dummies (st : AspeedSMCState) (id : Nat) : Nat :=
  let r_ctrl0 := st.regs (st.ctrl.r_ctrl0 + id)
  let dummy_high := (r_ctrl0 >>> CTRL_DUMMY_HIGH_SHIFT) &&& 0x1
  let dummy_low := (r_ctrl0 >>> CTRL_DUMMY_LOW_SHIFT) &&& 0x3
  let dummies := ((dummy_high <<< 2) ||| dummy_low) * 8
  if r_ctrl0 &&& CTRL_IO_DUAL_ADDR_DATA ≠ 0 then dummies / 2 else dummies

/-- Emit `n` transfers of the same byte (the dummy-byte loops). -/
def transferRepeat (st : AspeedSMCState) (b : Nat) : Nat → AspeedSMCState
  | 0 => st
  | n + 1 => transferRepeat (ssi_transfer st b) b n

/-- `aspeed_smc_flash_setup`: command byte, 3- or 4-byte address, then (in
fast-read mode) the dummy bytes. -/
def aspeed_smc_flash_setup (st : AspeedSMCState) (id : Nat) (addr : Nat) : AspeedSMCState :=
  let cmd := aspeed_smc_flash_cmd st id
  let addr := aspeed_smc_check_segment_addr st id addr
  let st := ssi_transfer st cmd
  let st := if aspeed_smc_flash_is_4byte st id then
    ssi_transfer st ((addr >>> 24) &&& 0xff) else st
  let st := ssi_transfer st ((addr >>> 16) &&& 0xff)
  let st := ssi_transfer st ((addr >>> 8) &&& 0xff)
  let st := ssi_transfer st (addr &&& 0xff)
  if aspeed_smc_flash_mode st id = CTRL_FREADMODE then
    transferRepeat st (st.regs R_DUMMY_DATA &&& 0xff) (aspeed_smc_flash_dummies st id)
  else st

/-- `aspeed_smc_num_dummies`: dummy-byte count for a flash opcode (−1 for
unrecognized opcodes). -/
def aspeed_smc_num_dummies (command : Nat) : Int :=
  if command = 0x3 ∨ command = 0x2 ∨ command = 0xa2 ∨ command = 0x32 ∨
      command = 0x13 ∨ command = 0x12 ∨ command = 0x34 then 0
  else if command = 0xb ∨ command = 0x3b ∨ command = 0x6b ∨
      command = 0x3c ∨ command = 0x6c then 1
  else if command = 0xbb ∨ command = 0x0c ∨ command = 0xbc then 2
  else if command = 0xeb ∨ command = 0xec then 4
  else -1

/-- Drain loop of `aspeed_smc_do_snoop`:
`for (; s->snoop_dummies; s->snoop_dummies--) ssi_transfer(DUMMY_DATA)`. -/
def snoopDrain (st : AspeedSMCState) : Nat → AspeedSMCState
  | 0 => st
  | n + 1 => snoopDrain (ssi_transfer st (st.regs R_DUMMY_DATA &&& 0xff)) n

/-- `aspeed_smc_do_snoop`.  Returns the new state and whether the current
guest transfer must be ignored (dummy cycles were faked in its place). -/
def aspeed_smc_do_snoop (st : AspeedSMCState) (id : Nat) (data : Nat) (size : Nat) :
    AspeedSMCState × Bool :=
  let addr_width := if aspeed_smc_flash_is_4byte st id then 4 else 3
  if st.snoop_index = SNOOP_OFF then (st, false)
  else if st.snoop_index = SNOOP_START then
    let cmd := data &&& 0xff
    let ndummies := aspeed_smc_num_dummies cmd
    if ndummies ≤ 0 then ({ st with snoop_index := SNOOP_OFF }, false)
    else
      let st := { st with snoop_dummies := (ndummies * 8).toNat }
      ({ st with snoop_index := st.snoop_index + size }, false)
  else if st.snoop_index ≥ addr_width + 1 then
    let st1 := snoopDrain st st.snoop_dummies
    let st2 := { st1 with snoop_dummies := 0 }
    if st2.snoop_dummies = 0 then ({ st2 with snoop_index := SNOOP_OFF }, true)
    else ({ st2 with snoop_index := st2.snoop_index + size }, true)
  else ({ st with snoop_index := st.snoop_index + size }, false)

/-- The byte-push loop of `aspeed_smc_flash_write`:
`for (i = 0; i < size; i++) ssi_transfer(s->spi, (data >> (8 * i)) & 0xff)`. -/
def pushBytesAux (data : Nat) : Nat → Nat → AspeedSMCState → AspeedSMCState
  | _, 0, st => st
  | i, n + 1, st => pushBytesAux data (i + 1) n (ssi_transfer st ((data >>> (8 * i)) &&& 0xff))

def pushBytes (st : AspeedSMCState) (data size : Nat) : AspeedSMCState :=
  pushBytesAux data 0 size st

/-- `aspeed_smc_flash_write`: a guest store of `size` bytes of `data` into
the flash sub-region of chip-select `id` at offset `addr`. -/
def aspeed_smc_flash_write (st : AspeedSMCState) (id : Nat) (addr data size : Nat) :
    AspeedSMCState :=
  if ¬ aspeed_smc_is_writable st id then st
  else if aspeed_smc_flash_mode st id = CTRL_USERMODE then
    match aspeed_smc_do_snoop st id data size with
    | (st1, true) => st1
    | (st1, false) => pushBytes st1 data size
  else if aspeed_smc_flash_mode st id = CTRL_WRITEMODE then
    let st := aspeed_smc_flash_select st id
    let st := aspeed_smc_flash_setup st id addr
    let st := pushBytes st data size
    aspeed_smc_flash_unselect st id
  else st

def aspeed_smc_flash_update_cs (st : AspeedSMCState) (id : Nat) : AspeedSMCState :=
  let st := { st with snoop_index :=
    if aspeed_smc_is_ce_stop_active st id then SNOOP_OFF else SNOOP_START }
  { st with cs_lines := updf st.cs_lines id (aspeed_smc_is_ce_stop_active st id) }

/-! ### SMC DMA engine -/

/-- The two DMA address spaces, modelled from the spec's collaborator
contract: `load_u32_le(as, addr) → (word, result)` becomes an optional
word (`none` = transaction error), `store_u32_le` a success predicate. -/
structure DMAEnv where
  flashRead : Nat → Option Nat
  dramRead : Nat → Option Nat
  flashWriteOk : Nat → Bool
  dramWriteOk : Nat → Bool

def hclk_divisors : List Nat := [15, 7, 14, 6, 13, 5, 12, 4, 11, 3, 10, 2, 9, 1, 8, 0]

def aspeed_smc_hclk_divisor (hclk_mask : Nat) : Nat :=
  match hclk_divisors.findIdx? (fun d => d = hclk_mask) with
  | some i => i + 1
  | none => 0

/-- `aspeed_smc_dma_calibration`. -/
def aspeed_smc_dma_calibration (st : AspeedSMCState) : AspeedSMCState :=
  let delay := (st.regs R_DMA_CTRL >>> DMA_CTRL_DELAY_SHIFT) &&& DMA_CTRL_DELAY_MASK
  let hclk_mask := (st.regs R_DMA_CTRL >>> DMA_CTRL_FREQ_SHIFT) &&& DMA_CTRL_FREQ_MASK
  let hclk_div := aspeed_smc_hclk_divisor hclk_mask
  let st := if hclk_div ≠ 0 ∧ hclk_div < 6 then
      let hclk_shift := (hclk_div - 1) <<< 2
      let v := (st.regs st.ctrl.r_timings &&& (0xffffffff ^^^ (0xf <<< hclk_shift))) |||
        (delay <<< hclk_shift)
      { st with regs := upd st.regs st.ctrl.r_timings v }
    else st
  let v0 := (st.regs st.ctrl.r_ctrl0 &&&
    (0xffffffff ^^^ (CE_CTRL_CLOCK_FREQ_MASK <<< CE_CTRL_CLOCK_FREQ_SHIFT))) |||
    CE_CTRL_CLOCK_FREQ hclk_div
  { st with regs := upd st.regs st.ctrl.r_ctrl0 v0 }

/-- `aspeed_smc_inject_read_failure`: whether the configured
frequency/delay pair is aggressive enough to fail.  The `default` arm of
the C switch is unreachable (the divisor table is a permutation of
`0..15`, so the divisor is always in `1..16`). -/
def aspeed_smc_inject_read_failure (st : AspeedSMCState) : Bool :=
  let delay := (st.regs R_DMA_CTRL >>> DMA_CTRL_DELAY_SHIFT) &&& DMA_CTRL_DELAY_MASK
  let hclk_div := aspeed_smc_hclk_divisor
    ((st.regs R_DMA_CTRL >>> DMA_CTRL_FREQ_SHIFT) &&& DMA_CTRL_FREQ_MASK)
  if hclk_div = 1 then true
  else if hclk_div = 2 then decide ((delay &&& 0x7) < 2)
  else if hclk_div = 3 then decide ((delay &&& 0x7) < 1)
  else false

/-- The checksum loop of `aspeed_smc_dma_checksum`, with explicit fuel.
Returns `none` when the fuel runs out (the C loop would keep running),
otherwise the final state and whether the loop was aborted by a flash read
error (in which case the registers keep their partial state). -/
def dmaChecksumLoop (env : DMAEnv) : Nat → AspeedSMCState → Option (AspeedSMCState × Bool)
  | 0, st => if st.regs R_DMA_LEN = 0 then some (st, false) else none
  | fuel + 1, st =>
    if st.regs R_DMA_LEN = 0 then some (st, false)
    else match env.flashRead (st.regs R_DMA_FLASH_ADDR) with
      | none => some (st, true)
      | some data0 =>
        let data := data0 % 2 ^ 32
        let regs1 := upd st.regs R_DMA_CHECKSUM ((st.regs R_DMA_CHECKSUM + data) % 2 ^ 32)
        let regs2 := upd regs1 R_DMA_FLASH_ADDR ((st.regs R_DMA_FLASH_ADDR + 4) % 2 ^ 32)
        let regs3 := upd regs2 R_DMA_LEN ((st.regs R_DMA_LEN + 2 ^ 32 - 4) % 2 ^ 32)
        dmaChecksumLoop env fuel { st with regs := regs3 }

/-- `aspeed_smc_dma_checksum`. -/
def aspeed_smc_dma_checksum (env : DMAEnv) (st : AspeedSMCState) : Option AspeedSMCState :=
  if st.regs R_DMA_CTRL &&& DMA_CTRL_WRITE ≠ 0 then some st
  else
    let st := if st.regs R_DMA_CTRL &&& DMA_CTRL_CALIB ≠ 0 then
      aspeed_smc_dma_calibration st else st
    match dmaChecksumLoop env (st.regs R_DMA_LEN) st with
    | none => none
    | some (st, aborted) =>
      if aborted then some st
      else if st.inject_failure ∧ aspeed_smc_inject_read_failure st then
        some { st with regs := upd st.regs R_DMA_CHECKSUM 0xbadc0de }
      else some st

/-- One iteration's transfers of the copy loop of `aspeed_smc_dma_rw`:
read the source word and write it to the destination; `none` on any
MemTx error (the C code logs and returns, freezing the registers). -/
def dmaRwStep (env : DMAEnv) (st : AspeedSMCState) : Option Nat :=
  if st.regs R_DMA_CTRL &&& DMA_CTRL_WRITE ≠ 0 then
    match env.dramRead (st.regs R_DMA_DRAM_ADDR) with
    | none => none
    | some d => if env.flashWriteOk (st.regs R_DMA_FLASH_ADDR) then some d else none
  else
    match env.flashRead (st.regs R_DMA_FLASH_ADDR) with
    | none => none
    | some d => if env.dramWriteOk (st.regs R_DMA_DRAM_ADDR) then some d else none

/-- The copy loop of `aspeed_smc_dma_rw`, with explicit fuel. -/
def dmaRwLoop (env : DMAEnv) : Nat → AspeedSMCState → Option (AspeedSMCState × Bool)
  | 0, st => if st.regs R_DMA_LEN = 0 then some (st, false) else none
  | fuel + 1, st =>
    if st.regs R_DMA_LEN = 0 then some (st, false)
    else
      match dmaRwStep env st with
      | none => some (st, true)
      | some data0 =>
        let data := data0 % 2 ^ 32
        let regs1 := upd st.regs R_DMA_FLASH_ADDR ((st.regs R_DMA_FLASH_ADDR + 4) % 2 ^ 32)
        let regs2 := upd regs1 R_DMA_DRAM_ADDR ((st.regs R_DMA_DRAM_ADDR + 4) % 2 ^ 32)
        let regs3 := upd regs2 R_DMA_LEN ((st.regs R_DMA_LEN + 2 ^ 32 - 4) % 2 ^ 32)
        let regs4 := upd regs3 R_DMA_CHECKSUM ((st.regs R_DMA_CHECKSUM + data) % 2 ^ 32)
        dmaRwLoop env fuel { st with regs := regs4 }

/-- `aspeed_smc_dma_rw`. -/
def aspeed_smc_dma_rw (env : DMAEnv) (st : AspeedSMCState) : Option AspeedSMCState :=
  match dmaRwLoop env (st.regs R_DMA_LEN) st with
  | none => none
  | some (st, _) => some st

/-- `aspeed_smc_dma_stop`. -/
def aspeed_smc_dma_stop (st : AspeedSMCState) : AspeedSMCState :=
  let v := st.regs R_INTR_CTRL &&& (0xffffffff ^^^ INTR_CTRL_DMA_STATUS)
  let st := { st with regs := upd st.regs R_INTR_CTRL v }
  let st := { st with regs := upd st.regs R_DMA_CHECKSUM 0 }
  { st with irq := false }

/-- `aspeed_smc_dma_in_progress`. -/
def aspeed_smc_dma_in_progress (st : AspeedSMCState) : Bool :=
  decide (st.regs R_DMA_CTRL &&& DMA_CTRL_ENABLE ≠ 0 ∧
    st.regs R_INTR_CTRL &&& INTR_CTRL_DMA_STATUS = 0)

/-- `aspeed_smc_dma_done`. -/
def aspeed_smc_dma_done (st : AspeedSMCState) : AspeedSMCState :=
  let v := st.regs R_INTR_CTRL ||| INTR_CTRL_DMA_STATUS
  let st := { st with regs := upd st.regs R_INTR_CTRL v }
  if st.regs R_INTR_CTRL &&& INTR_CTRL_DMA_EN ≠ 0 then { st with irq := true } else st

/-- `aspeed_smc_dma_ctrl`. -/
def aspeed_smc_dma_ctrl (env : DMAEnv) (st : AspeedSMCState) (dma_ctrl : Nat) :
    Option AspeedSMCState :=
  if dma_ctrl &&& DMA_CTRL_ENABLE = 0 then
    some (aspeed_smc_dma_stop { st with regs := upd st.regs R_DMA_CTRL dma_ctrl })
  else if aspeed_smc_dma_in_progress st then some st
  else
    let st := { st with regs := upd st.regs R_DMA_CTRL dma_ctrl }
    match (if st.regs R_DMA_CTRL &&& DMA_CTRL_CKSUM ≠ 0 then
        aspeed_smc_dma_checksum env st
      else aspeed_smc_dma_rw env st) with
    | none => none
    | some st => some (aspeed_smc_dma_done st)

/-! ### SMC register write dispatch and reset -/

/-- `aspeed_smc_write`.  `value = (uint32_t)data`; `addr >>= 2`.  Returns
`none` exactly when the dispatched DMA operation would not terminate. -/
def aspeed_smc_write (env : DMAEnv) (st : AspeedSMCState) (addr0 data : Nat) :
    Option AspeedSMCState :=
  let value := data % 2 ^ 32
  let addr := addr0 >>> 2
  let c := st.ctrl
  if addr = c.r_conf ∨ addr = c.r_timings ∨ addr = c.r_ce_ctrl then
    some { st with regs := upd st.regs addr value }
  else if c.r_ctrl0 ≤ addr ∧ addr < c.r_ctrl0 + st.num_cs then
    let cs := addr - c.r_ctrl0
    some (aspeed_smc_flash_update_cs { st with regs := upd st.regs addr value } cs)
  else if R_SEG_ADDR0 ≤ addr ∧ addr < R_SEG_ADDR0 + c.max_slaves then
    let cs := addr - R_SEG_ADDR0
    if value ≠ st.regs (R_SEG_ADDR0 + cs) then
      some (aspeed_smc_flash_set_segment st cs value)
    else some st
  else if addr = R_DUMMY_DATA then
    some { st with regs := upd st.regs addr (value &&& 0xff) }
  else if addr = R_INTR_CTRL then
    some { st with regs := upd st.regs addr value }
  else if c.has_dma ∧ addr = R_DMA_CTRL then
    aspeed_smc_dma_ctrl env st value
  else if c.has_dma ∧ addr = R_DMA_DRAM_ADDR then
    let v := (st.sdram_base ||| (value &&& c.dma_dram_mask)) % 2 ^ 32
    some { st with regs := upd st.regs addr v }
  else if c.has_dma ∧ addr = R_DMA_FLASH_ADDR then
    let v := (c.flash_window_base ||| (value &&& c.dma_flash_mask)) % 2 ^ 32
    some { st with regs := upd st.regs addr v }
  else if c.has_dma ∧ addr = R_DMA_LEN then
    some { st with regs := upd st.regs addr (value &&& 0x01FFFFFC) }
  else some st

/-- The unselect loop of `aspeed_smc_reset`:
`for (i = 0; i < s->num_cs; ++i) s->regs[s->r_ctrl0 + i] |= CTRL_CE_STOP_ACTIVE`. -/
def setStopBits (r_ctrl0 : Nat) : Nat → (Nat → Nat) → (Nat → Nat)
  | 0, regs => regs
  | i + 1, regs =>
    let regs := setStopBits r_ctrl0 i regs
    upd regs (r_ctrl0 + i) (regs (r_ctrl0 + i) ||| CTRL_CE_STOP_ACTIVE)

def raiseCsLines : Nat → (Nat → Bool) → (Nat → Bool)
  | 0, ls => ls
  | i + 1, ls => updf (raiseCsLines i ls) i true

/-- The default-segment loop of `aspeed_smc_reset`. -/
def setDefaultSegs (c : AspeedSMCController) : Nat → (Nat → Nat) → (Nat → Nat)
  | 0, regs => regs
  | i + 1, regs =>
    let regs := setDefaultSegs c i regs
    upd regs (R_SEG_ADDR0 + i)
      (segment_to_reg c ((segTableEntries c.segments).getD i ⟨0, 0⟩))

/-- `aspeed_smc_reset`. -/
def aspeed_smc_reset (st : AspeedSMCState) : AspeedSMCState :=
  let c := st.ctrl
  let st := { st with regs := fun _ => 0 }
  let st := { st with regs := setStopBits c.r_ctrl0 st.num_cs st.regs,
                      cs_lines := raiseCsLines st.num_cs st.cs_lines }
  let st := { st with regs := setDefaultSegs c c.max_slaves st.regs }
  let st := if c.segments = SegTable.ast2600_fmc then
      let v := ((st.regs c.r_conf ||| (CONF_FLASH_TYPE_SPI <<< CONF_FLASH_TYPE0)) |||
        (CONF_FLASH_TYPE_SPI <<< CONF_FLASH_TYPE1)) |||
        (CONF_FLASH_TYPE_SPI <<< CONF_FLASH_TYPE2)
      { st with regs := upd st.regs c.r_conf v }
    else st
  let st := if c.segments = SegTable.ast2500_fmc then
      let v := (st.regs c.r_conf ||| (CONF_FLASH_TYPE_SPI <<< CONF_FLASH_TYPE0)) |||
        (CONF_FLASH_TYPE_SPI <<< CONF_FLASH_TYPE1)
      { st with regs := upd st.regs c.r_conf v }
    else st
  let st := if c.segments = SegTable.fmc then
      let v := st.regs c.r_conf ||| (CONF_FLASH_TYPE_SPI <<< CONF_FLASH_TYPE0)
      { st with regs := upd st.regs c.r_conf v }
    else st
  { st with snoop_index := SNOOP_OFF, snoop_dummies := 0 }

/-- Cumulative default-segment sizes: the realize-time offset of sub-region
`i` inside the flash-window container. -/
def segSizesPrefix (c : AspeedSMCController) (i : Nat) : Nat :=
  List.foldl (fun a s => a + s.size) 0 ((segTableEntries c.segments).take i)

def flashesInit (c : AspeedSMCController) : Nat → FlashRegion :=
  fun i => { mmio_addr := segSizesPrefix c i,
             mmio_size := ((segTableEntries c.segments).getD i ⟨0, 0⟩).size,
             enabled := true }

/-- The state of a freshly realized and reset controller instance
(`aspeed_smc_realize` clamps `num_cs` to `max_slaves`, then the device
reset runs). -/
def smcInitialState (c : AspeedSMCController) (num_cs : Nat) (inj : Bool)
    (sdram_base : Nat) : AspeedSMCState :=
  aspeed_smc_reset
    { ctrl := c,
      num_cs := if num_cs > c.max_slaves then c.max_slaves else num_cs,
      inject_failure := inj,
      sdram_base := sdram_base,
      regs := fun _ => 0,
      flashes := flashesInit c,
      cs_lines := fun _ => false,
      snoop_index := 0, snoop_dummies := 0, irq := false,
      spiLog := [], gerrors := 0 }

/-- States of a controller instance reachable from realize + reset through
MMIO register writes, flash-window writes and further resets. -/
inductive SMCReachable (c : AspeedSMCController) : AspeedSMCState → Prop
  | init : ∀ num_cs inj sb, SMCReachable c (smcInitialState c num_cs inj sb)
  | reset : ∀ st, SMCReachable c st → SMCReachable c (aspeed_smc_reset st)
  | write : ∀ st env addr data st', SMCReachable c st →
      aspeed_smc_write env st addr data = some st' → SMCReachable c st'
  | fwrite : ∀ st id addr data size, SMCReachable c st → id < c.max_slaves →
      SMCReachable c (aspeed_smc_flash_write st id addr data size)

/-- Numeric sanity facts about every controller descriptor, used to show
that register updates outside the segment-register range cannot alias it
(register word indices: SEG_ADDR range is `12..12+max_slaves ≤ 17`,
DMA_LEN is 35). -/
def ctrlSane (c : AspeedSMCController) : Prop :=
  0 < c.max_slaves ∧ c.max_slaves ≤ 5 ∧
  c.r_conf < 12 ∧ c.r_ctrl0 + c.max_slaves ≤ 12 ∧
  (c.r_timings = 37 ∨ c.r_timings = 5) ∧ (c.r_ce_ctrl = 1 ∨ c.r_ce_ctrl = 255)

instance ctrlSane_dec (c : AspeedSMCController) : Decidable (ctrlSane c) := by
  unfold ctrlSane
  infer_instance

/-- The negation of the window check of `aspeed_smc_flash_set_segment`
(lines 512-519): the decoded segment is not entirely outside the flash
window.  This is the property the check actually enforces. -/
def segGood (c : AspeedSMCController) (r : Nat) : Prop :=
  (reg_to_segment c r).addr ≤ c.flash_window_base + c.flash_window_size ∧
  c.flash_window_base < (reg_to_segment c r).addr + (reg_to_segment c r).size

instance segGood_dec (c : AspeedSMCController) (r : Nat) : Decidable (segGood c r) := by
  unfold segGood
  infer_instance

/-- A DMA address-space oracle on which every transaction fails. -/
def envNone : DMAEnv :=
  { flashRead := fun _ => none, dramRead := fun _ => none,
    flashWriteOk := fun _ => false, dramWriteOk := fun _ => false }

/-- A freshly realized "aspeed.fmc-ast2400" instance with all 5 slaves. -/
def stFmc2400 : AspeedSMCState := smcInitialState ctrl_fmc2400 5 false 0

/-- A freshly realized "aspeed.spi1-ast2500" instance with both slaves. -/
def st2500spi1 : AspeedSMCState := smcInitialState ctrl_spi1_2500 2 false 0

/-- The spec's user-mode snoop scenario on the AST2400 FMC: CS0 writable,
CTRL0 in User Mode, the snoop tracker at `SNOOP_START` (chip select just
asserted), `DUMMY_DATA = 0x5A`, 3-byte addressing (CE control clear). -/
def stSnoopUser : AspeedSMCState :=
  { ctrl := ctrl_fmc2400, num_cs := 1, inject_failure := false, sdram_base := 0,
    regs := upd (upd (upd (fun _ => 0) R_DUMMY_DATA 0x5A)
      ctrl_fmc2400.r_conf (1 <<< ctrl_fmc2400.conf_enable_w0))
      ctrl_fmc2400.r_ctrl0 CTRL_USERMODE,
    flashes := flashesInit ctrl_fmc2400, cs_lines := fun _ => false,
    snoop_index := SNOOP_START, snoop_dummies := 0, irq := false,
    spiLog := [], gerrors := 0 }

/-- A sequence of single-byte guest writes to the CS0 flash sub-region. -/
def writeBytes (st : AspeedSMCState) (bs : List Nat) : AspeedSMCState :=
  bs.foldl (fun s b => aspeed_smc_flash_write s 0 0 b 1) st

/-- Recursive sum of the first `n` values of a word sequence. -/
def sumWords (F : Nat → Nat) : Nat → Nat
  | 0 => 0
  | n + 1 => F 0 + sumWords (fun i => F (i + 1)) n

/-- A DMA address-space oracle whose flash reads all return the word 7. -/
def env7 : DMAEnv :=
  { flashRead := fun _ => some 7, dramRead := fun _ => none,
    flashWriteOk := fun _ => false, dramWriteOk := fun _ => false }

/-- The fresh AST2400 FMC instance with `DMA_LEN` programmed to 8. -/
def stDma : AspeedSMCState :=
  { stFmc2400 with regs := upd stFmc2400.regs R_DMA_LEN 8 }

/-- `stDma` with a DMA checksum operation already in progress
(`DMA_CTRL.ENABLE` set, `INTR_CTRL.DMA_STATUS` still clear). -/
def stProg : AspeedSMCState :=
  { stDma with regs := upd stDma.regs R_DMA_CTRL 1 }

/-! ### Aspeed I2C controller (`aspeed_i2c.c`) -/

/- Register byte offsets and bit constants of `aspeed_i2c.c`. -/

def I2CD_FUN_CTRL_REG : Nat := 0x00
def I2CD_AC_TIMING_REG1 : Nat := 0x04
def I2CD_AC_TIMING_REG2 : Nat := 0x08
def I2CD_INTR_CTRL_REG : Nat := 0x0c
def I2CD_INTR_STS_REG : Nat := 0x10
def I2CD_CMD_REG : Nat := 0x14
def I2CD_DEV_ADDR_REG : Nat := 0x18
def I2CD_POOL_CTRL_REG : Nat := 0x1c
def I2CD_BYTE_BUF_REG : Nat := 0x20

def I2CD_MASTER_EN : Nat := 1
def I2CD_SLAVE_EN : Nat := 1 <<< 1

def I2CD_INTR_ABNORMAL : Nat := 1 <<< 5
def I2CD_INTR_NORMAL_STOP : Nat := 1 <<< 4
def I2CD_INTR_RX_DONE : Nat := 1 <<< 2
def I2CD_INTR_TX_NAK : Nat := 1 <<< 1
def I2CD_INTR_TX_ACK : Nat := 1 <<< 0

def I2CD_TX_STATE_SHIFT : Nat := 19
def I2CD_TX_STATE_MASK : Nat := 0xf
def I2CD_IDLE : Nat := 0x0
def I2CD_MACTIVE : Nat := 0x8
def I2CD_MSTART : Nat := 0x9
def I2CD_MSTARTR : Nat := 0xa
def I2CD_MSTOP : Nat := 0xb
def I2CD_MTXD : Nat := 0xc
def I2CD_MRXD : Nat := 0xe

def I2CD_RX_BUFF_ENABLE : Nat := 1 <<< 7
def I2CD_TX_BUFF_ENABLE : Nat := 1 <<< 6
def I2CD_M_STOP_CMD : Nat := 1 <<< 5
def I2CD_M_S_RX_CMD_LAST : Nat := 1 <<< 4
def I2CD_M_RX_CMD : Nat := 1 <<< 3
def I2CD_M_TX_CMD : Nat := 1 <<< 1
def I2CD_M_START_CMD : Nat := 1

/-- One I2C bus device (`AspeedI2CBus` of `aspeed_i2c.h`, register fields
only; the `I2CBus *` collaborator state lives in `AspeedI2CState`). -/
structure AspeedI2CBusState where
  ctrl : Nat
  timing0 : Nat
  timing1 : Nat
  intr_ctrl : Nat
  intr_status : Nat
  cmd : Nat
  buf : Nat
  pool_ctrl : Nat
deriving Repr, DecidableEq

/-- The per-variant `AspeedI2CClass` pool-base dispatch tag. -/
inductive I2CPool
  | p2400
  | p2500
  | p2600
deriving Repr, DecidableEq

/-- `AspeedI2CClass`: the per-variant constants. `sharedIrq` models
`bus_get_irq`: the 2400/2500 classes return the controller IRQ for every
bus, the 2600 class a per-bus IRQ. -/
structure AspeedI2CClassDesc where
  num_busses : Nat
  reg_size : Nat
  pool_size : Nat
  pool_base : Nat
  sharedIrq : Bool
  pool : I2CPool
deriving Repr, DecidableEq

def aic2400 : AspeedI2CClassDesc :=
  { num_busses := 14, reg_size := 0x40, pool_size := 0x800, pool_base := 0x800,
    sharedIrq := true, pool := .p2400 }

def aic2500 : AspeedI2CClassDesc :=
  { num_busses := 14, reg_size := 0x40, pool_size := 0x200, pool_base := 0x100,
    sharedIrq := true, pool := .p2500 }

def aic2600 : AspeedI2CClassDesc :=
  { num_busses := 16, reg_size := 0x80, pool_size := 0x200, pool_base := 0xC00,
    sharedIrq := false, pool := .p2600 }

/-- The I2C core-bus collaborator (`i2c_start_transfer` / `i2c_send` /
`i2c_recv` / `i2c_nack` / `i2c_end_transfer` / `i2c_bus_busy` of the i2c
core, which is not part of the staged sources).  Modelled from the spec's
contract as an oracle: `startOk addr isRecv` says whether a slave
acknowledges the address, `recvByte k` is the k-th byte a slave returns,
`sendOk k b` whether the k-th sent byte is acknowledged.  The mutable part
of the collaborator (bus busy flag, transfer counters) lives in
`AspeedI2CState`. -/
structure I2CSlaveEnv where
  startOk : Nat → Bool → Bool
  recvByte : Nat → Nat
  sendOk : Nat → Nat → Bool

/-- `AspeedI2CState`: controller-level interrupt status, the 14/16 bus
devices, the shared pool buffer, and the collaborator state per bus
(`busBusy` = `i2c_bus_busy`, counters for the oracle).  `irqLines i` is
the level of IRQ line `i` (line 0 is the shared controller IRQ on
2400/2500). -/
structure AspeedI2CState where
  intr_status : Nat
  busses : Nat → AspeedI2CBusState
  pool : Nat → Nat
  busBusy : Nat → Bool
  recvCount : Nat → Nat
  sendCount : Nat → Nat
  irqLines : Nat → Bool

/-- `aic->bus_get_irq`: which IRQ line a bus raises. -/
def busIrqIndex (aic : AspeedI2CClassDesc) (i : Nat) : Nat :=
  if aic.sharedIrq then 0 else i

/-- `aic->bus_pool_base`: index of a bus's pool page in the shared pool. -/
def bus_pool_base (aic : AspeedI2CClassDesc) (b : AspeedI2CBusState) (i : Nat) : Nat :=
  match aic.pool with
  | .p2400 => ((b.ctrl >>> 20) &&& 0x7) + ((b.pool_ctrl &&& 0x3f) <<< 2)
  | .p2500 => i * 0x10
  | .p2600 => i * 0x20

def aspeed_i2c_bus_is_master (b : AspeedI2CBusState) : Bool :=
  decide (b.ctrl &&& I2CD_MASTER_EN ≠ 0)

def aspeed_i2c_bus_is_enabled (b : AspeedI2CBusState) : Bool :=
  decide (b.ctrl &&& (I2CD_MASTER_EN ||| I2CD_SLAVE_EN) ≠ 0)

/-- `i2c_start_transfer`: ask the slave oracle; on success the core bus
becomes busy.  Returns `true` on failure (address not acknowledged). -/
def i2c_start_transfer (env : I2CSlaveEnv) (s : AspeedI2CState) (i addr : Nat)
    (isRecv : Bool) : AspeedI2CState × Bool :=
  if env.startOk addr isRecv then
    ({ s with busBusy := updf s.busBusy i true }, false)
  else (s, true)

/-- `i2c_send`: returns `true` on NAK. -/
def i2c_send (env : I2CSlaveEnv) (s : AspeedI2CState) (i b : Nat) :
    AspeedI2CState × Bool :=
  (({ s with sendCount := updf s.sendCount i (s.sendCount i + 1) }),
    !(env.sendOk (s.sendCount i) (b &&& 0xff)))

/-- `i2c_recv`: the oracle returns the next byte. -/
def i2c_recv (env : I2CSlaveEnv) (s : AspeedI2CState) (i : Nat) :
    AspeedI2CState × Nat :=
  ({ s with recvCount := updf s.recvCount i (s.recvCount i + 1) },
    env.recvByte (s.recvCount i) &&& 0xff)

def i2c_end_transfer (s : AspeedI2CState) (i : Nat) : AspeedI2CState :=
  { s with busBusy := updf s.busBusy i false }

def i2c_bus_busy (s : AspeedI2CState) (i : Nat) : Bool := s.busBusy i

def aspeed_i2c_get_state (b : AspeedI2CBusState) : Nat :=
  (b.cmd >>> I2CD_TX_STATE_SHIFT) &&& I2CD_TX_STATE_MASK

def aspeed_i2c_set_state (b : AspeedI2CBusState) (v : Nat) : AspeedI2CBusState :=
  { b with cmd := (b.cmd &&& (0xffffffff ^^^ (I2CD_TX_STATE_MASK <<< I2CD_TX_STATE_SHIFT)))
    ||| ((v &&& I2CD_TX_STATE_MASK) <<< I2CD_TX_STATE_SHIFT) }

def setBusState (s : AspeedI2CState) (i v : Nat) : AspeedI2CState :=
  { s with busses := updf s.busses i (aspeed_i2c_set_state (s.busses i) v) }

def orStatus (s : AspeedI2CState) (i m : Nat) : AspeedI2CState :=
  let b1 := { s.busses i with intr_status := (s.busses i).intr_status ||| m }
  { s with busses := updf s.busses i b1 }

def clearCmdBits (s : AspeedI2CState) (i m : Nat) : AspeedI2CState :=
  let b1 := { s.busses i with cmd := (s.busses i).cmd &&& (0xffffffff ^^^ m) }
  { s with busses := updf s.busses i b1 }

/-- `aspeed_i2c_bus_raise_interrupt`: mask the bus status by its enable
mask; when anything survives, set the bus's bit in the controller status
and raise the bus's IRQ line. -/
def aspeed_i2c_bus_raise_interrupt (aic : AspeedI2CClassDesc) (s : AspeedI2CState)
    (i : Nat) : AspeedI2CState :=
  let b := s.busses i
  let b1 := { b with intr_status := b.intr_status &&& b.intr_ctrl }
  let s1 := { s with busses := updf s.busses i b1 }
  if b1.intr_status ≠ 0 then
    { s1 with intr_status := s1.intr_status ||| (1 <<< i),
              irqLines := updf s1.irqLines (busIrqIndex aic i) true }
  else s1

/-- The pool transmit loop of `aspeed_i2c_bus_send` (break on NAK). -/
def sendPoolAux (env : I2CSlaveEnv) (i base : Nat) :
    Nat → Nat → AspeedI2CState → AspeedI2CState × Bool
  | _, 0, s => (s, false)
  | k, n + 1, s =>
    match i2c_send env s i (s.pool (base + k)) with
    | (s1, true) => (s1, true)
    | (s1, false) => sendPoolAux env i base (k + 1) n s1

/-- `aspeed_i2c_bus_send`. -/
def aspeed_i2c_bus_send (aic : AspeedI2CClassDesc) (env : I2CSlaveEnv)
    (s : AspeedI2CState) (i : Nat) : AspeedI2CState × Bool :=
  let b := s.busses i
  if b.cmd &&& I2CD_TX_BUFF_ENABLE ≠ 0 then
    let count := ((b.pool_ctrl >>> 8) &&& 0xff) + 1
    let r := sendPoolAux env i (bus_pool_base aic b i) 0 count s
    (clearCmdBits r.1 i I2CD_TX_BUFF_ENABLE, r.2)
  else i2c_send env s i b.buf

/-- The pool receive loop of `aspeed_i2c_bus_recv`. -/
def recvPoolAux (env : I2CSlaveEnv) (i base : Nat) :
    Nat → Nat → AspeedI2CState → AspeedI2CState
  | _, 0, s => s
  | k, n + 1, s =>
    let r := i2c_recv env s i
    recvPoolAux env i base (k + 1) n { r.1 with pool := updf r.1.pool (base + k) r.2 }

/-- `aspeed_i2c_bus_recv`. -/
def aspeed_i2c_bus_recv (aic : AspeedI2CClassDesc) (env : I2CSlaveEnv)
    (s : AspeedI2CState) (i : Nat) : AspeedI2CState :=
  let b := s.busses i
  if b.cmd &&& I2CD_RX_BUFF_ENABLE ≠ 0 then
    let size := ((b.pool_ctrl >>> 16) &&& 0xff) + 1
    let s1 := recvPoolAux env i (bus_pool_base aic b i) 0 size s
    let b1 := s1.busses i
    let v := ((b1.pool_ctrl &&& (0xffffffff ^^^ (0xff <<< 24))) |||
      ((size &&& 0xff) <<< 24))
    let b2 := { b1 with pool_ctrl := v, cmd := b1.cmd &&& (0xffffffff ^^^ I2CD_RX_BUFF_ENABLE) }
    { s1 with busses := updf s1.busses i b2 }
  else
    let r := i2c_recv env s i
    let b1 := r.1.busses i
    let b2 := { b1 with buf := (r.2 &&& 0xff) <<< 8 }
    { r.1 with busses := updf r.1.busses i b2 }

/-- `aspeed_i2c_handle_rx_cmd`: receive one byte (or a pool burst), latch
INTR_RX_DONE, NACK on a last-byte command, and consume the RX command
bits. -/
def aspeed_i2c_handle_rx_cmd (aic : AspeedI2CClassDesc) (env : I2CSlaveEnv)
    (s : AspeedI2CState) (i : Nat) : AspeedI2CState :=
  let s := setBusState s i I2CD_MRXD
  let s := aspeed_i2c_bus_recv aic env s i
  let s := orStatus s i I2CD_INTR_RX_DONE
  let s := clearCmdBits s i (I2CD_M_RX_CMD ||| I2CD_M_S_RX_CMD_LAST)
  setBusState s i I2CD_MACTIVE

/-- The TX phase of `aspeed_i2c_bus_handle_cmd`. -/
def i2cTxPhase (aic : AspeedI2CClassDesc) (env : I2CSlaveEnv)
    (s : AspeedI2CState) (i : Nat) : AspeedI2CState :=
  if (s.busses i).cmd &&& I2CD_M_TX_CMD ≠ 0 then
    let s1 := setBusState s i I2CD_MTXD
    let r := aspeed_i2c_bus_send aic env s1 i
    let s2 := if r.2 then i2c_end_transfer (orStatus r.1 i I2CD_INTR_TX_NAK) i
      else orStatus r.1 i I2CD_INTR_TX_ACK
    setBusState (clearCmdBits s2 i I2CD_M_TX_CMD) i I2CD_MACTIVE
  else s

/-- The RX phase of `aspeed_i2c_bus_handle_cmd` (gated on a pending RX
command with `INTR_RX_DONE` not yet latched). -/
def i2cRxPhase (aic : AspeedI2CClassDesc) (env : I2CSlaveEnv)
    (s : AspeedI2CState) (i : Nat) : AspeedI2CState :=
  if (s.busses i).cmd &&& (I2CD_M_RX_CMD ||| I2CD_M_S_RX_CMD_LAST) ≠ 0 ∧
      (s.busses i).intr_status &&& I2CD_INTR_RX_DONE = 0 then
    aspeed_i2c_handle_rx_cmd aic env s i
  else s

/-- The STOP phase of `aspeed_i2c_bus_handle_cmd`. -/
def i2cStopPhase (s : AspeedI2CState) (i : Nat) : AspeedI2CState :=
  if (s.busses i).cmd &&& I2CD_M_STOP_CMD ≠ 0 then
    let s1 :=
      if aspeed_i2c_get_state (s.busses i) &&& I2CD_MACTIVE = 0 then
        orStatus s i I2CD_INTR_ABNORMAL
      else
        orStatus (i2c_end_transfer (setBusState s i I2CD_MSTOP) i) i
          I2CD_INTR_NORMAL_STOP
    setBusState (clearCmdBits s1 i I2CD_M_STOP_CMD) i I2CD_IDLE
  else s

/-- The TX, RX and STOP phases of `aspeed_i2c_bus_handle_cmd` (everything
after the START phase's early `return`). -/
def i2cCmdPhases (aic : AspeedI2CClassDesc) (env : I2CSlaveEnv)
    (s : AspeedI2CState) (i : Nat) : AspeedI2CState :=
  i2cStopPhase (i2cRxPhase aic env (i2cTxPhase aic env s i) i) i

/-- `aspeed_i2c_bus_handle_cmd`. -/
def aspeed_i2c_bus_handle_cmd (aic : AspeedI2CClassDesc) (env : I2CSlaveEnv)
    (s : AspeedI2CState) (i : Nat) (value : Nat) : AspeedI2CState :=
  let b0 := s.busses i
  let bc := { b0 with cmd := (b0.cmd &&& (0xffffffff ^^^ 0xFFFF)) ||| (value &&& 0xFFFF) }
  let s := { s with busses := updf s.busses i bc }
  if (s.busses i).cmd &&& I2CD_M_START_CMD ≠ 0 then
    let hs := if aspeed_i2c_get_state (s.busses i) &&& I2CD_MACTIVE ≠ 0 then
      I2CD_MSTARTR else I2CD_MSTART
    let s := setBusState s i hs
    let data := if (s.busses i).cmd &&& I2CD_TX_BUFF_ENABLE ≠ 0 then
      s.pool (bus_pool_base aic (s.busses i) i) else (s.busses i).buf
    let r := i2c_start_transfer env s i ((data >>> 1) &&& 0x7f)
      (decide (data &&& 1 ≠ 0))
    let s := if r.2 then orStatus r.1 i I2CD_INTR_TX_NAK
      else orStatus r.1 i I2CD_INTR_TX_ACK
    let s := clearCmdBits s i (I2CD_M_START_CMD ||| I2CD_M_TX_CMD)
    if ¬ i2c_bus_busy s i then s
    else i2cCmdPhases aic env (setBusState s i I2CD_MACTIVE) i
  else i2cCmdPhases aic env s i

/-- `aspeed_i2c_bus_write`: the per-bus MMIO register write dispatch. -/
def aspeed_i2c_bus_write (aic : AspeedI2CClassDesc) (env : I2CSlaveEnv)
    (s : AspeedI2CState) (i : Nat) (offset value : Nat) : AspeedI2CState :=
  if offset = I2CD_FUN_CTRL_REG then
    if value &&& I2CD_SLAVE_EN ≠ 0 then s
    else
      let b1 := { s.busses i with ctrl := value &&& 0x0071C3FF }
      { s with busses := updf s.busses i b1 }
  else if offset = I2CD_AC_TIMING_REG1 then
    let b1 := { s.busses i with timing0 := value &&& 0xFFFFF0F }
    { s with busses := updf s.busses i b1 }
  else if offset = I2CD_AC_TIMING_REG2 then
    let b1 := { s.busses i with timing1 := value &&& 0x7 }
    { s with busses := updf s.busses i b1 }
  else if offset = I2CD_INTR_CTRL_REG then
    let b1 := { s.busses i with intr_ctrl := value &&& 0x7FFF }
    { s with busses := updf s.busses i b1 }
  else if offset = I2CD_INTR_STS_REG then
    let b := s.busses i
    let handle_rx := b.intr_status &&& I2CD_INTR_RX_DONE ≠ 0 ∧
      value &&& I2CD_INTR_RX_DONE ≠ 0
    let b1 := { b with intr_status := b.intr_status &&& (0xffffffff ^^^ (value &&& 0x7FFF)) }
    let s1 := { s with busses := updf s.busses i b1 }
    let s2 := if b1.intr_status = 0 then
        { s1 with intr_status := s1.intr_status &&& (0xffffffff ^^^ (1 <<< i)),
                  irqLines := updf s1.irqLines (busIrqIndex aic i) false }
      else s1
    if handle_rx ∧ (s2.busses i).cmd &&& (I2CD_M_RX_CMD ||| I2CD_M_S_RX_CMD_LAST) ≠ 0 then
      aspeed_i2c_bus_raise_interrupt aic (aspeed_i2c_handle_rx_cmd aic env s2 i) i
    else s2
  else if offset = I2CD_DEV_ADDR_REG then s
  else if offset = I2CD_POOL_CTRL_REG then
    let b1 := { s.busses i with pool_ctrl := ((s.busses i).pool_ctrl &&& (0xffffffff ^^^ 0xffffff)) ||| (value &&& 0xffffff) }
    { s with busses := updf s.busses i b1 }
  else if offset = I2CD_BYTE_BUF_REG then
    let b1 := { s.busses i with buf := value &&& 0xff }
    { s with busses := updf s.busses i b1 }
  else if offset = I2CD_CMD_REG then
    if ¬ aspeed_i2c_bus_is_enabled (s.busses i) then s
    else if ¬ aspeed_i2c_bus_is_master (s.busses i) then s
    else aspeed_i2c_bus_raise_interrupt aic
      (aspeed_i2c_bus_handle_cmd aic env s i value) i
  else s

/-- The per-bus loop of `aspeed_i2c_reset`. -/
def i2cResetBusses : Nat → AspeedI2CState → AspeedI2CState
  | 0, s => s
  | i + 1, s =>
    let s := i2cResetBusses i s
    let b1 := { s.busses i with intr_ctrl := 0, intr_status := 0, cmd := 0, buf := 0 }
    { s with busses := updf s.busses i b1, busBusy := updf s.busBusy i false }

/-- `aspeed_i2c_reset`. -/
def aspeed_i2c_reset (aic : AspeedI2CClassDesc) (s : AspeedI2CState) :
    AspeedI2CState :=
  i2cResetBusses aic.num_busses { s with intr_status := 0 }

/-- The all-zero bus device. -/
def i2cBusZero : AspeedI2CBusState :=
  { ctrl := 0, timing0 := 0, timing1 := 0, intr_ctrl := 0, intr_status := 0,
    cmd := 0, buf := 0, pool_ctrl := 0 }

/-- A freshly realized and reset I2C controller. -/
def i2cInitialState (aic : AspeedI2CClassDesc) : AspeedI2CState :=
  aspeed_i2c_reset aic
    { intr_status := 0, busses := fun _ => i2cBusZero, pool := fun _ => 0,
      busBusy := fun _ => false, recvCount := fun _ => 0, sendCount := fun _ => 0,
      irqLines := fun _ => false }

/-- A slave oracle that acknowledges every address, returns the bytes
0xDE, 0xAD, 0xBE, ... in sequence and acknowledges every sent byte. -/
def env9 : I2CSlaveEnv :=
  { startOk := fun _ _ => true,
    recvByte := fun k => if k = 0 then 0xDE else if k = 1 then 0xAD else 0xBE,
    sendOk := fun _ _ => true }

/-- The interrupt-aggregation invariant of claim C4 (amended): bus `j`'s
bit in the controller-level status is set exactly when bus `j` has pending
status bits, and the pending bits are always within the bus's enable mask
(because `aspeed_i2c_bus_raise_interrupt` discards masked-off bits with
`bus->intr_status &= bus->intr_ctrl`). -/
def I2CInv (aic : AspeedI2CClassDesc) (s : AspeedI2CState) : Prop :=
  ∀ j, j < aic.num_busses →
    (Nat.testBit s.intr_status j = true ↔ (s.busses j).intr_status ≠ 0) ∧
    (s.busses j).intr_status &&& (s.busses j).intr_ctrl = (s.busses j).intr_status

instance I2CInv_dec (aic : AspeedI2CClassDesc) (s : AspeedI2CState) :
    Decidable (I2CInv aic s) := by
  unfold I2CInv
  infer_instance

/-- How one bus-local operation (the command phases, a receive, ...)
relates the state before and after: the controller-level status and IRQ
lines are untouched, other buses are untouched, the bus's enable mask is
untouched, and the bus's status only accumulates bits. -/
def LocalMono (s s' : AspeedI2CState) (i : Nat) : Prop :=
  s'.intr_status = s.intr_status ∧
  s'.irqLines = s.irqLines ∧
  (∀ j, j ≠ i → s'.busses j = s.busses j) ∧
  (s'.busses i).intr_ctrl = (s.busses i).intr_ctrl ∧
  ∃ m, (s'.busses i).intr_status = (s.busses i).intr_status ||| m

/-- The C4/C9 scenario prefix on bus 0 of a fresh AST2400 I2C controller:
enable the master, unmask all interrupts, point BYTE_BUF at slave address
1 (read), and issue M_START_CMD|M_RX_CMD — receives the first byte. -/
def i2cScenario1 : AspeedI2CState :=
  aspeed_i2c_bus_write aic2400 env9
    (aspeed_i2c_bus_write aic2400 env9
      (aspeed_i2c_bus_write aic2400 env9
        (aspeed_i2c_bus_write aic2400 env9 (i2cInitialState aic2400)
          0 I2CD_FUN_CTRL_REG 1)
        0 I2CD_INTR_CTRL_REG 0x7FFF)
      0 I2CD_BYTE_BUF_REG 0x03)
    0 I2CD_CMD_REG 0x9

/-- The amended C9 scenario: after the first byte (0xDE) has been received,
software re-arms the receive with a CMD write of M_RX_CMD alone; the RX
phase is skipped because INTR_RX_DONE is still latched, so the command bit
stays pending in `cmd`, ready for the W1C re-trigger. -/
def i2cScenario2 : AspeedI2CState :=
  aspeed_i2c_bus_write aic2400 env9 i2cScenario1 0 I2CD_CMD_REG 0x8

/-! ## Theorems -/

/-! ### Bitwise bridging lemmas

Helper lemmas that turn the masking idioms of the C code into plain
modular arithmetic, so that `omega` can reason about them. -/

theorem and_shifted_mask (x m s : Nat) :
    x &&& (m <<< s) = ((x >>> s) &&& m) <<< s := by
  apply Nat.eq_of_testBit_eq
  intro j
  simp only [Nat.testBit_and, Nat.testBit_shiftLeft, Nat.testBit_shiftRight]
  by_cases h : s ≤ j
  · have hj : s + (j - s) = j := by omega
    simp [ge_iff_le, h, hj, Bool.and_comm, Bool.and_left_comm]
  · simp [ge_iff_le, h]

theorem and_ff (x : Nat) : x &&& 0xff = x % 256 := by
  have h : (0xff : Nat) = 2 ^ 8 - 1 := by norm_num
  rw [h, Nat.and_pow_two_sub_one_eq_mod]

theorem and_three (x : Nat) : x &&& 3 = x % 4 := by
  have h : (3 : Nat) = 2 ^ 2 - 1 := by norm_num
  rw [h, Nat.and_pow_two_sub_one_eq_mod]

theorem and_one (x : Nat) : x &&& 1 = x % 2 := by
  have h : (1 : Nat) = 2 ^ 1 - 1 := by norm_num
  rw [h, Nat.and_pow_two_sub_one_eq_mod]

theorem and_7fff (x : Nat) : x &&& 0x7fff = x % 32768 := by
  have h : (0x7fff : Nat) = 2 ^ 15 - 1 := by norm_num
  rw [h, Nat.and_pow_two_sub_one_eq_mod]

theorem and_ffff (x : Nat) : x &&& 0xffff = x % 65536 := by
  have h : (0xffff : Nat) = 2 ^ 16 - 1 := by norm_num
  rw [h, Nat.and_pow_two_sub_one_eq_mod]

theorem and_mask2600 (x : Nat) :
    x &&& 0x0ff00000 = (x / 1048576 % 256) * 1048576 := by
  have h : (0x0ff00000 : Nat) = 0xff <<< 20 := by decide
  rw [h, and_shifted_mask, and_ff, Nat.shiftRight_eq_div_pow, Nat.shiftLeft_eq]

theorem shl16 (x : Nat) : x <<< 16 = x * 65536 := by
  rw [Nat.shiftLeft_eq]

theorem shl20 (x : Nat) : x <<< 20 = x * 1048576 := by
  rw [Nat.shiftLeft_eq]

theorem shl23 (x : Nat) : x <<< 23 = x * 8388608 := by
  rw [Nat.shiftLeft_eq]

theorem shl24 (x : Nat) : x <<< 24 = x * 16777216 := by
  rw [Nat.shiftLeft_eq]

theorem shr16 (x : Nat) : x >>> 16 = x / 65536 := by
  rw [Nat.shiftRight_eq_div_pow]

theorem shr23 (x : Nat) : x >>> 23 = x / 8388608 := by
  rw [Nat.shiftRight_eq_div_pow]

theorem shr24 (x : Nat) : x >>> 24 = x / 16777216 := by
  rw [Nat.shiftRight_eq_div_pow]

theorem lor_as_add_16_24 (a b : Nat) (ha : a ≤ 0xff) :
    a <<< 16 ||| b <<< 24 = a * 65536 + b * 16777216 := by
  have h1 : a <<< 16 < 2 ^ 24 := by
    rw [shl16]; omega
  have h2 : b <<< 24 = 2 ^ 24 * b := by
    rw [shl24]; ring
  calc a <<< 16 ||| b <<< 24 = b <<< 24 ||| a <<< 16 := Nat.lor_comm _ _
    _ = 2 ^ 24 * b ||| a <<< 16 := by rw [h2]
    _ = 2 ^ 24 * b + a <<< 16 := (Nat.mul_add_lt_is_or h1 b).symm
    _ = a * 65536 + b * 16777216 := by rw [shl16]; ring

theorem lor_as_add_low_20 (a b : Nat) (ha : a < 1048576) (hb : b % 1048576 = 0) :
    a ||| b = b + a := by
  have h1 : a < 2 ^ 20 := by omega
  have h2 : b = 2 ^ 20 * (b / 1048576) := by omega
  calc a ||| b = b ||| a := Nat.lor_comm _ _
    _ = 2 ^ 20 * (b / 1048576) ||| a := by rw [← h2]
    _ = 2 ^ 20 * (b / 1048576) + a := (Nat.mul_add_lt_is_or h1 _).symm
    _ = b + a := by rw [← h2]

theorem lor_as_add_16_24' (a b : Nat) :
    (a % 256) <<< 16 ||| b <<< 24 = a % 256 * 65536 + b * 16777216 :=
  lor_as_add_16_24 _ _ (by omega)

/-! ### Claim C2: segment round-trip -/

theorem reg_to_segment_abs (c : AspeedSMCController) (h : c.segOps = .smc2400) :
    reg_to_segment c = aspeed_smc_reg_to_segment := by
  funext r
  unfold reg_to_segment
  rw [h]

theorem segment_to_reg_abs (c : AspeedSMCController) (h : c.segOps = .smc2400) :
    segment_to_reg c = aspeed_smc_segment_to_reg := by
  funext s
  unfold segment_to_reg
  rw [h]

theorem reg_to_segment_off (c : AspeedSMCController) (h : c.segOps = .smc2600) :
    reg_to_segment c = aspeed_2600_smc_reg_to_segment c.flash_window_base := by
  funext r
  unfold reg_to_segment
  rw [h]

theorem segment_to_reg_off (c : AspeedSMCController) (h : c.segOps = .smc2600) :
    segment_to_reg c = aspeed_2600_smc_segment_to_reg := by
  funext s
  unfold segment_to_reg
  rw [h]

/-- Round trip for the AST2400/AST2500 absolute encoding, for a segment
whose base is 8 MiB-aligned, whose size is a multiple of 8 MiB, and whose
end stays strictly below 2 GiB (the range of the 8-bit register fields). -/
theorem roundtrip_abs (seg : AspeedSegments)
    (halign : seg.addr % 8388608 = 0)
    (hszm : seg.size % 8388608 = 0)
    (hend : seg.addr + seg.size < 2147483648) :
    aspeed_smc_reg_to_segment (aspeed_smc_segment_to_reg seg) = seg := by
  obtain ⟨A, S⟩ := seg
  simp only at halign hszm hend
  have e1 : aspeed_smc_segment_to_reg ⟨A, S⟩ =
      A / 8388608 % 256 * 65536 + (A + S) / 8388608 % 256 * 16777216 := by
    simp only [aspeed_smc_segment_to_reg, SEG_START_MASK, SEG_START_SHIFT,
      SEG_END_MASK, SEG_END_SHIFT, shr23, and_ff, lor_as_add_16_24']
  rw [e1]
  simp only [aspeed_smc_reg_to_segment, SEG_START_MASK, SEG_START_SHIFT,
    SEG_END_MASK, SEG_END_SHIFT, shr16, shr24, and_ff, shl23,
    AspeedSegments.mk.injEq]
  constructor
  · omega
  · omega

/-- Round trip for the AST2600 offset encoding, for a window base that is a
multiple of 256 MiB and a segment that is 1 MiB-aligned with a positive
1 MiB-multiple size, lying within 256 MiB above the base. -/
theorem roundtrip_off (fwb : Nat)
    (hfwb : fwb % 268435456 = 0) (hfwbB : fwb ≤ 34359738368)
    (seg : AspeedSegments)
    (hbase : fwb ≤ seg.addr)
    (halign : seg.addr % 1048576 = 0)
    (hsz : 0 < seg.size)
    (hszm : seg.size % 1048576 = 0)
    (hend : seg.addr + seg.size ≤ fwb + 268435456) :
    aspeed_2600_smc_reg_to_segment fwb (aspeed_2600_smc_segment_to_reg seg) = seg := by
  obtain ⟨A, S⟩ := seg
  simp only at hbase halign hsz hszm hend
  have e1 : aspeed_2600_smc_segment_to_reg ⟨A, S⟩ =
      (A + S - 1) / 1048576 % 256 * 1048576 + A / 1048576 % 256 * 1048576 / 65536 := by
    simp only [aspeed_2600_smc_segment_to_reg, AST2600_SEG_ADDR_MASK]
    rw [if_neg (by omega), and_mask2600, and_mask2600, shr16, lor_as_add_low_20]
    · omega
    · omega
  rw [e1]
  simp only [aspeed_2600_smc_reg_to_segment, AST2600_SEG_ADDR_MASK, shl16,
    and_mask2600, AspeedSegments.mk.injEq]
  constructor
  · omega
  · omega

/-- C2, counterexample: on the "aspeed.fmc-ast2400" variant the segment
`{0x20000001, 8 MiB}` has its base inside the flash window and a size that
is a positive multiple of the 8 MiB unit, yet decoding its encoding does
not give it back (the encoder drops the low 23 address bits). -/
theorem C2_counterexample :
    ctrl_fmc2400 ∈ controllers ∧
    ctrl_fmc2400.flash_window_base ≤ 0x20000001 ∧
    0x20000001 < ctrl_fmc2400.flash_window_base + ctrl_fmc2400.flash_window_size ∧
    0 < 0x800000 ∧ 0x800000 % segUnit ctrl_fmc2400 = 0 ∧
    reg_to_segment ctrl_fmc2400 (segment_to_reg ctrl_fmc2400 ⟨0x20000001, 0x800000⟩) ≠
      (⟨0x20000001, 0x800000⟩ : AspeedSegments) := by
  refine ⟨by decide, by decide, by decide, by decide, by decide, ?_⟩
  decide

/-- C2 (amended): for every controller variant, `decode(encode(s)) = s`
for every segment `s` whose base lies within the flash window **and is
aligned to the variant unit**, and whose size is a positive multiple of the
variant unit, with the segment end inside the variant's encoding range:
strictly below 2 GiB for the AST2400/AST2500 absolute encoding (the 8-bit
start/end fields cover `[0, 2^31)` in 8 MiB units), and at most 256 MiB
above the window base for the AST2600 offset encoding.  The alignment
amendment is forced: the encoders drop the low 23 (resp. 20) address bits,
see the counterexample. -/
theorem C2_segment_roundtrip (c : AspeedSMCController) (hc : c ∈ controllers)
    (seg : AspeedSegments)
    (hbase : c.flash_window_base ≤ seg.addr)
    (hbaseW : seg.addr < c.flash_window_base + c.flash_window_size)
    (halign : seg.addr % segUnit c = 0)
    (hsz : 0 < seg.size)
    (hszm : seg.size % segUnit c = 0)
    (hend : (c.segOps = SegOps.smc2400 → seg.addr + seg.size < 2 ^ 31) ∧
      (c.segOps = SegOps.smc2600 →
        seg.addr + seg.size ≤ c.flash_window_base + 2 ^ 28)) :
    reg_to_segment c (segment_to_reg c seg) = seg := by
  simp only [controllers, List.mem_cons, List.not_mem_nil, or_false] at hc
  rcases hc with rfl | rfl | rfl | rfl | rfl | rfl | rfl | rfl | rfl
  · rw [reg_to_segment_abs _ rfl, segment_to_reg_abs _ rfl]
    exact roundtrip_abs seg halign hszm (by have h := hend.1 rfl; omega)
  · rw [reg_to_segment_abs _ rfl, segment_to_reg_abs _ rfl]
    exact roundtrip_abs seg halign hszm (by have h := hend.1 rfl; omega)
  · rw [reg_to_segment_abs _ rfl, segment_to_reg_abs _ rfl]
    exact roundtrip_abs seg halign hszm (by have h := hend.1 rfl; omega)
  · rw [reg_to_segment_abs _ rfl, segment_to_reg_abs _ rfl]
    exact roundtrip_abs seg halign hszm (by have h := hend.1 rfl; omega)
  · rw [reg_to_segment_abs _ rfl, segment_to_reg_abs _ rfl]
    exact roundtrip_abs seg halign hszm (by have h := hend.1 rfl; omega)
  · rw [reg_to_segment_abs _ rfl, segment_to_reg_abs _ rfl]
    exact roundtrip_abs seg halign hszm (by have h := hend.1 rfl; omega)
  · rw [reg_to_segment_off _ rfl, segment_to_reg_off _ rfl]
    exact roundtrip_off _ (by decide) (by decide) seg hbase halign hsz hszm
      (by have h := hend.2 rfl; simp only [ctrl_fmc2600] at h ⊢; omega)
  · rw [reg_to_segment_off _ rfl, segment_to_reg_off _ rfl]
    exact roundtrip_off _ (by decide) (by decide) seg hbase halign hsz hszm
      (by have h := hend.2 rfl; simp only [ctrl_spi1_2600] at h ⊢; omega)
  · rw [reg_to_segment_off _ rfl, segment_to_reg_off _ rfl]
    exact roundtrip_off _ (by decide) (by decide) seg hbase halign hsz hszm
      (by have h := hend.2 rfl; simp only [ctrl_spi2_2600] at h ⊢; omega)

/-! ### Frame lemmas: the shape of each operation's effect -/

theorem upd_at (f : Nat → Nat) (i v : Nat) : upd f i v i = v := by
  simp [upd, updf]

theorem upd_ne (f : Nat → Nat) (i v j : Nat) (h : j ≠ i) : upd f i v j = f j := by
  simp [upd, updf, h]

theorem updf_at {α : Type} (f : Nat → α) (i : Nat) (v : α) : updf f i v i = v := by
  simp [updf]

theorem updf_ne {α : Type} (f : Nat → α) (i : Nat) (v : α) (j : Nat) (h : j ≠ i) :
    updf f i v j = f j := by
  simp [updf, h]

/-- `snoopDrain` only appends `n` copies of the dummy byte to the SPI log. -/
theorem snoopDrain_spec : ∀ (n : Nat) (st : AspeedSMCState),
    snoopDrain st n =
      { st with spiLog := st.spiLog ++ List.replicate n (st.regs R_DUMMY_DATA &&& 0xff) }
  | 0, st => by simp [snoopDrain]
  | n + 1, st => by
    rw [snoopDrain, snoopDrain_spec n]
    simp [ssi_transfer, List.replicate_succ]

/-- `transferRepeat` only appends `n` copies of `b` to the SPI log. -/
theorem transferRepeat_spec (b : Nat) : ∀ (n : Nat) (st : AspeedSMCState),
    transferRepeat st b n = { st with spiLog := st.spiLog ++ List.replicate n b }
  | 0, st => by simp [transferRepeat]
  | n + 1, st => by
    rw [transferRepeat, transferRepeat_spec b n]
    simp [ssi_transfer, List.replicate_succ]

/-- `pushBytesAux` only appends the `n` bytes of `data` starting at byte
index `i` to the SPI log. -/
theorem pushBytesAux_spec (data : Nat) : ∀ (n i : Nat) (st : AspeedSMCState),
    pushBytesAux data i n st =
      { st with spiLog := st.spiLog ++
          (List.range n).map (fun k => (data >>> (8 * (i + k))) &&& 0xff) }
  | 0, i, st => by simp [pushBytesAux]
  | n + 1, i, st => by
    rw [pushBytesAux, pushBytesAux_spec data n]
    have hf : (fun k => (data >>> (8 * (i + 1 + k))) &&& 0xff)
        = fun k => (data >>> (8 * (i + (k + 1)))) &&& 0xff := by
      funext k
      have h8 : i + 1 + k = i + (k + 1) := by omega
      rw [h8]
    simp only [ssi_transfer, hf, List.range_succ_eq_map, List.map_cons, List.map_map]
    simp [Function.comp_def, List.append_assoc]

/-- `aspeed_smc_do_snoop` changes only the snoop tracker and the SPI log. -/
theorem do_snoop_shape (st : AspeedSMCState) (id data size : Nat) :
    ∃ l si sd, (aspeed_smc_do_snoop st id data size).1 =
      { st with spiLog := l, snoop_index := si, snoop_dummies := sd } := by
  unfold aspeed_smc_do_snoop
  by_cases h1 : st.snoop_index = SNOOP_OFF
  · refine ⟨st.spiLog, st.snoop_index, st.snoop_dummies, ?_⟩
    rw [if_pos h1]
  by_cases h2 : st.snoop_index = SNOOP_START
  · by_cases h3 : aspeed_smc_num_dummies (data &&& 0xff) ≤ 0
    · refine ⟨st.spiLog, SNOOP_OFF, st.snoop_dummies, ?_⟩
      rw [if_neg h1, if_pos h2, if_pos h3]
    · refine ⟨st.spiLog, st.snoop_index + size,
        (aspeed_smc_num_dummies (data &&& 0xff) * 8).toNat, ?_⟩
      rw [if_neg h1, if_pos h2, if_neg h3]
  by_cases h4 : st.snoop_index ≥ (if aspeed_smc_flash_is_4byte st id then 4 else 3) + 1
  · refine ⟨st.spiLog ++ List.replicate st.snoop_dummies (st.regs R_DUMMY_DATA &&& 0xff),
      SNOOP_OFF, 0, ?_⟩
    rw [if_neg h1, if_neg h2, if_pos h4, snoopDrain_spec]
    rfl
  · refine ⟨st.spiLog, st.snoop_index + size, st.snoop_dummies, ?_⟩
    rw [if_neg h1, if_neg h2, if_neg h4]

/-- `aspeed_smc_flash_setup` changes only the SPI log. -/
theorem flash_setup_shape (st : AspeedSMCState) (id addr : Nat) :
    ∃ l, aspeed_smc_flash_setup st id addr = { st with spiLog := l } := by
  unfold aspeed_smc_flash_setup
  simp only [ssi_transfer]
  split <;> split <;>
    first
    | (rw [transferRepeat_spec]; exact ⟨_, rfl⟩)
    | exact ⟨_, rfl⟩

/-- `aspeed_smc_flash_select` clears `CE_STOP_ACTIVE` of `CTRL0+id` and
drives the CS line; nothing else changes. -/
theorem flash_select_shape (st : AspeedSMCState) (id : Nat) :
    ∃ b, aspeed_smc_flash_select st id =
      { st with
        regs := upd st.regs (st.ctrl.r_ctrl0 + id)
          (st.regs (st.ctrl.r_ctrl0 + id) &&& (0xffffffff ^^^ CTRL_CE_STOP_ACTIVE)),
        cs_lines := updf st.cs_lines id b } :=
  ⟨_, rfl⟩

/-- `aspeed_smc_flash_unselect` sets `CE_STOP_ACTIVE` of `CTRL0+id` and
drives the CS line; nothing else changes. -/
theorem flash_unselect_shape (st : AspeedSMCState) (id : Nat) :
    ∃ b, aspeed_smc_flash_unselect st id =
      { st with
        regs := upd st.regs (st.ctrl.r_ctrl0 + id)
          (st.regs (st.ctrl.r_ctrl0 + id) ||| CTRL_CE_STOP_ACTIVE),
        cs_lines := updf st.cs_lines id b } :=
  ⟨_, rfl⟩

/-- `aspeed_smc_flash_write` changes only the SPI log, the snoop tracker,
the chip-select lines and (for write mode) the `CE_STOP_ACTIVE` bit of
`CTRL0 + id`; every register other than `r_ctrl0 + id` keeps its value. -/
theorem flash_write_shape (st : AspeedSMCState) (id addr data size : Nat) :
    ∃ l si sd regs cl,
      aspeed_smc_flash_write st id addr data size =
        { st with spiLog := l, snoop_index := si, snoop_dummies := sd,
                  regs := regs, cs_lines := cl } ∧
      ∀ j, j ≠ st.ctrl.r_ctrl0 + id → regs j = st.regs j := by
  unfold aspeed_smc_flash_write
  split
  · exact ⟨st.spiLog, st.snoop_index, st.snoop_dummies, st.regs, st.cs_lines,
      rfl, fun j _ => rfl⟩
  split
  · obtain ⟨l, si, sd, hshape⟩ := do_snoop_shape st id data size
    rcases h : aspeed_smc_do_snoop st id data size with ⟨st1, ig⟩
    rw [h] at hshape
    simp only at hshape
    cases ig
    · subst hshape
      simp only [pushBytes]
      rw [pushBytesAux_spec]
      exact ⟨_, si, sd, st.regs, st.cs_lines, rfl, fun j _ => rfl⟩
    · subst hshape
      exact ⟨l, si, sd, st.regs, st.cs_lines, rfl, fun j _ => rfl⟩
  split
  · dsimp only
    obtain ⟨bsel, hsel⟩ := flash_select_shape st id
    rw [hsel]
    obtain ⟨l1, hsetup⟩ := flash_setup_shape
      { st with
        regs := upd st.regs (st.ctrl.r_ctrl0 + id)
          (st.regs (st.ctrl.r_ctrl0 + id) &&& (0xffffffff ^^^ CTRL_CE_STOP_ACTIVE)),
        cs_lines := updf st.cs_lines id bsel } id addr
    rw [hsetup]
    simp only [pushBytes]
    rw [pushBytesAux_spec]
    dsimp only
    obtain ⟨buns, huns⟩ := flash_unselect_shape
      { st with
        regs := upd st.regs (st.ctrl.r_ctrl0 + id)
          (st.regs (st.ctrl.r_ctrl0 + id) &&& (0xffffffff ^^^ CTRL_CE_STOP_ACTIVE)),
        cs_lines := updf st.cs_lines id bsel,
        spiLog := l1 ++ (List.range size).map (fun k => (data >>> (8 * (0 + k))) &&& 0xff) } id
    rw [huns]
    dsimp only
    refine ⟨_, st.snoop_index, st.snoop_dummies, _, _, rfl, ?_⟩
    intro j hj
    rw [upd_ne _ _ _ _ hj, upd_ne _ _ _ _ hj]
  · exact ⟨st.spiLog, st.snoop_index, st.snoop_dummies, st.regs, st.cs_lines,
      rfl, fun j _ => rfl⟩

theorem controllers_sane : ∀ c ∈ controllers, ctrlSane c := by decide

theorem dma_stop_spec (st : AspeedSMCState) :
    aspeed_smc_dma_stop st =
      { st with
        regs := upd (upd st.regs R_INTR_CTRL
          (st.regs R_INTR_CTRL &&& (0xffffffff ^^^ INTR_CTRL_DMA_STATUS))) R_DMA_CHECKSUM 0,
        irq := false } := rfl

theorem dma_done_shape (st : AspeedSMCState) :
    ∃ b, aspeed_smc_dma_done st =
      { st with
        regs := upd st.regs R_INTR_CTRL (st.regs R_INTR_CTRL ||| INTR_CTRL_DMA_STATUS),
        irq := b } := by
  unfold aspeed_smc_dma_done
  dsimp only
  split
  · exact ⟨true, rfl⟩
  · exact ⟨st.irq, rfl⟩

/-- `aspeed_smc_dma_calibration` touches only `r_timings` and `r_ctrl0`. -/
theorem dma_calibration_shape (st : AspeedSMCState) :
    ∃ regs, aspeed_smc_dma_calibration st = { st with regs := regs } ∧
      ∀ j, j ≠ st.ctrl.r_timings → j ≠ st.ctrl.r_ctrl0 → regs j = st.regs j := by
  unfold aspeed_smc_dma_calibration
  dsimp only
  split
  · refine ⟨_, rfl, ?_⟩
    intro j h1 h2
    try dsimp only
    rw [upd_ne _ _ _ _ h2, upd_ne _ _ _ _ h1]
  · refine ⟨_, rfl, ?_⟩
    intro j h1 h2
    try dsimp only
    rw [upd_ne _ _ _ _ h2]

/-- The DMA checksum loop: structural fields are preserved, registers other
than CHECKSUM/FLASH_ADDR/LEN are untouched, and LEN stays a multiple of 4. -/
theorem dmaChecksumLoop_fields (env : DMAEnv) : ∀ (fuel : Nat) (st : AspeedSMCState)
    (r : AspeedSMCState × Bool), dmaChecksumLoop env fuel st = some r →
    r.1.ctrl = st.ctrl ∧ r.1.num_cs = st.num_cs ∧ r.1.inject_failure = st.inject_failure ∧
    r.1.sdram_base = st.sdram_base ∧ r.1.flashes = st.flashes ∧ r.1.irq = st.irq ∧
    r.1.snoop_index = st.snoop_index ∧ r.1.gerrors = st.gerrors ∧
    (∀ j, j ≠ R_DMA_CHECKSUM → j ≠ R_DMA_FLASH_ADDR → j ≠ R_DMA_LEN →
      r.1.regs j = st.regs j) ∧
    (st.regs R_DMA_LEN % 4 = 0 → r.1.regs R_DMA_LEN % 4 = 0)
  | 0, st, r => by
    intro h
    unfold dmaChecksumLoop at h
    split at h
    · cases h
      exact ⟨rfl, rfl, rfl, rfl, rfl, rfl, rfl, rfl, fun _ _ _ _ => rfl, fun h => h⟩
    · cases h
  | fuel + 1, st, r => by
    intro h
    rw [dmaChecksumLoop] at h
    split at h
    · cases h
      exact ⟨rfl, rfl, rfl, rfl, rfl, rfl, rfl, rfl, fun _ _ _ _ => rfl, fun h => h⟩
    · split at h
      · cases h
        exact ⟨rfl, rfl, rfl, rfl, rfl, rfl, rfl, rfl, fun _ _ _ _ => rfl, fun h => h⟩
      · have ih := dmaChecksumLoop_fields env fuel _ _ h
        obtain ⟨i1, i2, i3, i4, i5, i6, i7, i8, i9, i10⟩ := ih
        refine ⟨i1, i2, i3, i4, i5, i6, i7, i8, ?_, ?_⟩
        · intro j h1 h2 h3
          rw [i9 j h1 h2 h3]
          simp only
          rw [upd_ne _ _ _ _ h3, upd_ne _ _ _ _ h2, upd_ne _ _ _ _ h1]
        · intro hlen
          apply i10
          simp only
          rw [upd_at]
          omega

/-- The DMA copy loop: same frame as the checksum loop, with DRAM_ADDR
also written. -/
theorem dmaRwLoop_fields (env : DMAEnv) : ∀ (fuel : Nat) (st : AspeedSMCState)
    (r : AspeedSMCState × Bool), dmaRwLoop env fuel st = some r →
    r.1.ctrl = st.ctrl ∧ r.1.num_cs = st.num_cs ∧ r.1.inject_failure = st.inject_failure ∧
    r.1.sdram_base = st.sdram_base ∧ r.1.flashes = st.flashes ∧ r.1.irq = st.irq ∧
    r.1.snoop_index = st.snoop_index ∧ r.1.gerrors = st.gerrors ∧
    (∀ j, j ≠ R_DMA_CHECKSUM → j ≠ R_DMA_FLASH_ADDR → j ≠ R_DMA_DRAM_ADDR →
      j ≠ R_DMA_LEN → r.1.regs j = st.regs j) ∧
    (st.regs R_DMA_LEN % 4 = 0 → r.1.regs R_DMA_LEN % 4 = 0)
  | 0, st, r => by
    intro h
    unfold dmaRwLoop at h
    split at h
    · cases h
      exact ⟨rfl, rfl, rfl, rfl, rfl, rfl, rfl, rfl, fun _ _ _ _ _ => rfl, fun h => h⟩
    · cases h
  | fuel + 1, st, r => by
    intro h
    rw [dmaRwLoop] at h
    split at h
    · cases h
      exact ⟨rfl, rfl, rfl, rfl, rfl, rfl, rfl, rfl, fun _ _ _ _ _ => rfl, fun h => h⟩
    · split at h
      · cases h
        exact ⟨rfl, rfl, rfl, rfl, rfl, rfl, rfl, rfl, fun _ _ _ _ _ => rfl, fun h => h⟩
      · have ih := dmaRwLoop_fields env fuel _ _ h
        obtain ⟨i1, i2, i3, i4, i5, i6, i7, i8, i9, i10⟩ := ih
        refine ⟨i1, i2, i3, i4, i5, i6, i7, i8, ?_, ?_⟩
        · intro j h1 h2 h3 h4
          rw [i9 j h1 h2 h3 h4]
          simp only
          rw [upd_ne _ _ _ _ h1, upd_ne _ _ _ _ h4, upd_ne _ _ _ _ h3, upd_ne _ _ _ _ h2]
        · intro hlen
          apply i10
          simp only
          rw [upd_ne, upd_at]
          · omega
          · decide

/-- `aspeed_smc_dma_checksum`: frame over the whole operation. -/
theorem dma_checksum_fields (env : DMAEnv) (st st' : AspeedSMCState)
    (h : aspeed_smc_dma_checksum env st = some st') :
    st'.ctrl = st.ctrl ∧ st'.num_cs = st.num_cs ∧ st'.inject_failure = st.inject_failure ∧
    st'.sdram_base = st.sdram_base ∧ st'.flashes = st.flashes ∧ st'.irq = st.irq ∧
    st'.snoop_index = st.snoop_index ∧ st'.gerrors = st.gerrors ∧
    (∀ j, j ≠ R_DMA_CHECKSUM → j ≠ R_DMA_FLASH_ADDR → j ≠ R_DMA_LEN →
      j ≠ st.ctrl.r_timings → j ≠ st.ctrl.r_ctrl0 → st'.regs j = st.regs j) ∧
    (st.ctrl.r_timings ≠ R_DMA_LEN → st.ctrl.r_ctrl0 ≠ R_DMA_LEN →
      st.regs R_DMA_LEN % 4 = 0 → st'.regs R_DMA_LEN % 4 = 0) := by
  obtain ⟨cregs, hcal, hcregs⟩ := dma_calibration_shape st
  unfold aspeed_smc_dma_checksum at h
  split at h
  · cases h
    exact ⟨rfl, rfl, rfl, rfl, rfl, rfl, rfl, rfl, fun _ _ _ _ _ _ => rfl,
      fun _ _ hl => hl⟩
  · rw [hcal] at h
    by_cases hc : st.regs R_DMA_CTRL &&& DMA_CTRL_CALIB ≠ 0
    · rw [if_pos hc] at h
      simp only [] at h
      split at h
      · cases h
      · rename_i st1 aborted hloop
        obtain ⟨i1, i2, i3, i4, i5, i6, i7, i8, i9, i10⟩ :=
          dmaChecksumLoop_fields env _ _ _ hloop
        have hreg1 : ∀ j, j ≠ R_DMA_CHECKSUM → j ≠ R_DMA_FLASH_ADDR → j ≠ R_DMA_LEN →
            j ≠ st.ctrl.r_timings → j ≠ st.ctrl.r_ctrl0 → st1.regs j = st.regs j := by
          intro j h1 h2 h3 h4 h5
          exact (i9 j h1 h2 h3).trans (hcregs j h4 h5)
        have hlen1 : st.ctrl.r_timings ≠ R_DMA_LEN → st.ctrl.r_ctrl0 ≠ R_DMA_LEN →
            st.regs R_DMA_LEN % 4 = 0 → st1.regs R_DMA_LEN % 4 = 0 := by
          intro ht hc0 hl
          apply i10
          show cregs R_DMA_LEN % 4 = 0
          rw [hcregs _ (Ne.symm ht) (Ne.symm hc0)]
          exact hl
        split at h
        · cases h
          exact ⟨i1, i2, i3, i4, i5, i6, i7, i8, hreg1, hlen1⟩
        · split at h
          · cases h
            refine ⟨i1, i2, i3, i4, i5, i6, i7, i8, ?_, ?_⟩
            · intro j h1 h2 h3 h4 h5
              show upd st1.regs R_DMA_CHECKSUM 0xbadc0de j = st.regs j
              rw [upd_ne _ _ _ _ h1]
              exact hreg1 j h1 h2 h3 h4 h5
            · intro ht hc0 hl
              show upd st1.regs R_DMA_CHECKSUM 0xbadc0de R_DMA_LEN % 4 = 0
              rw [upd_ne]
              · exact hlen1 ht hc0 hl
              · decide
          · cases h
            exact ⟨i1, i2, i3, i4, i5, i6, i7, i8, hreg1, hlen1⟩
    · rw [if_neg hc] at h
      simp only [] at h
      split at h
      · cases h
      · rename_i st1 aborted hloop
        obtain ⟨i1, i2, i3, i4, i5, i6, i7, i8, i9, i10⟩ :=
          dmaChecksumLoop_fields env _ _ _ hloop
        have hreg1 : ∀ j, j ≠ R_DMA_CHECKSUM → j ≠ R_DMA_FLASH_ADDR → j ≠ R_DMA_LEN →
            st1.regs j = st.regs j := i9
        split at h
        · cases h
          exact ⟨i1, i2, i3, i4, i5, i6, i7, i8,
            fun j h1 h2 h3 _ _ => hreg1 j h1 h2 h3, fun _ _ => i10⟩
        · split at h
          · cases h
            refine ⟨i1, i2, i3, i4, i5, i6, i7, i8, ?_, ?_⟩
            · intro j h1 h2 h3 _ _
              show upd st1.regs R_DMA_CHECKSUM 0xbadc0de j = st.regs j
              rw [upd_ne _ _ _ _ h1]
              exact hreg1 j h1 h2 h3
            · intro _ _ hl
              show upd st1.regs R_DMA_CHECKSUM 0xbadc0de R_DMA_LEN % 4 = 0
              rw [upd_ne]
              · exact i10 hl
              · decide
          · cases h
            exact ⟨i1, i2, i3, i4, i5, i6, i7, i8,
              fun j h1 h2 h3 _ _ => hreg1 j h1 h2 h3, fun _ _ => i10⟩

/-- `aspeed_smc_dma_rw`: frame over the whole operation. -/
theorem dma_rw_fields (env : DMAEnv) (st st' : AspeedSMCState)
    (h : aspeed_smc_dma_rw env st = some st') :
    st'.ctrl = st.ctrl ∧ st'.num_cs = st.num_cs ∧ st'.inject_failure = st.inject_failure ∧
    st'.sdram_base = st.sdram_base ∧ st'.flashes = st.flashes ∧ st'.irq = st.irq ∧
    st'.snoop_index = st.snoop_index ∧ st'.gerrors = st.gerrors ∧
    (∀ j, j ≠ R_DMA_CHECKSUM → j ≠ R_DMA_FLASH_ADDR → j ≠ R_DMA_DRAM_ADDR →
      j ≠ R_DMA_LEN → st'.regs j = st.regs j) ∧
    (st.regs R_DMA_LEN % 4 = 0 → st'.regs R_DMA_LEN % 4 = 0) := by
  unfold aspeed_smc_dma_rw at h
  split at h
  · cases h
  · rename_i st1 aborted hloop
    cases h
    exact dmaRwLoop_fields env _ _ _ hloop

/-- `aspeed_smc_dma_ctrl`: frame over the whole dispatch. -/
theorem dma_ctrl_fields (env : DMAEnv) (st : AspeedSMCState) (v : Nat)
    (st' : AspeedSMCState) (h : aspeed_smc_dma_ctrl env st v = some st') :
    st'.ctrl = st.ctrl ∧ st'.num_cs = st.num_cs ∧ st'.inject_failure = st.inject_failure ∧
    st'.sdram_base = st.sdram_base ∧ st'.flashes = st.flashes ∧
    st'.snoop_index = st.snoop_index ∧ st'.gerrors = st.gerrors ∧
    (∀ j, j ≠ R_INTR_CTRL → j ≠ R_DMA_CTRL → j ≠ R_DMA_CHECKSUM → j ≠ R_DMA_FLASH_ADDR →
      j ≠ R_DMA_DRAM_ADDR → j ≠ R_DMA_LEN → j ≠ st.ctrl.r_timings → j ≠ st.ctrl.r_ctrl0 →
      st'.regs j = st.regs j) ∧
    (st.ctrl.r_timings ≠ R_DMA_LEN → st.ctrl.r_ctrl0 ≠ R_DMA_LEN →
      st.regs R_DMA_LEN % 4 = 0 → st'.regs R_DMA_LEN % 4 = 0) := by
  have n1 : R_DMA_LEN ≠ R_DMA_CHECKSUM := by decide
  have n2 : R_DMA_LEN ≠ R_INTR_CTRL := by decide
  have n3 : R_DMA_LEN ≠ R_DMA_CTRL := by decide
  unfold aspeed_smc_dma_ctrl at h
  split at h
  · cases h
    rw [dma_stop_spec]
    refine ⟨rfl, rfl, rfl, rfl, rfl, rfl, rfl, ?_, ?_⟩
    · intro j h1 h2 h3 _ _ _ _ _
      show upd (upd (upd st.regs R_DMA_CTRL v) R_INTR_CTRL _) R_DMA_CHECKSUM 0 j =
        st.regs j
      rw [upd_ne _ _ _ _ h3, upd_ne _ _ _ _ h1, upd_ne _ _ _ _ h2]
    · intro _ _ hl
      show upd (upd (upd st.regs R_DMA_CTRL v) R_INTR_CTRL
        ((upd st.regs R_DMA_CTRL v) R_INTR_CTRL &&& (0xffffffff ^^^ INTR_CTRL_DMA_STATUS)))
        R_DMA_CHECKSUM 0 R_DMA_LEN % 4 = 0
      rw [upd_ne _ _ _ _ n1, upd_ne _ _ _ _ n2, upd_ne _ _ _ _ n3]
      exact hl
  · split at h
    · cases h
      exact ⟨rfl, rfl, rfl, rfl, rfl, rfl, rfl, fun _ _ _ _ _ _ _ _ _ => rfl,
        fun _ _ hl => hl⟩
    · simp only [upd_at] at h
      by_cases hk : v &&& DMA_CTRL_CKSUM ≠ 0
      · rw [if_pos hk] at h
        split at h
        · cases h
        · rename_i stm hmid
          cases h
          obtain ⟨bdone, hdone⟩ := dma_done_shape stm
          rw [hdone]
          obtain ⟨i1, i2, i3, i4, i5, _, i7, i8, i9, i10⟩ :=
            dma_checksum_fields env _ _ hmid
          refine ⟨i1, i2, i3, i4, i5, i7, i8, ?_, ?_⟩
          · intro j h1 h2 h3 h4 h5 h6 h7 h8
            show upd stm.regs R_INTR_CTRL (stm.regs R_INTR_CTRL ||| INTR_CTRL_DMA_STATUS) j = st.regs j
            rw [upd_ne _ _ _ _ h1]
            have e := i9 j h3 h4 h6 h7 h8
            rw [e]
            show upd st.regs R_DMA_CTRL v j = st.regs j
            rw [upd_ne _ _ _ _ h2]
          · intro ht hc0 hl
            show upd stm.regs R_INTR_CTRL (stm.regs R_INTR_CTRL ||| INTR_CTRL_DMA_STATUS) R_DMA_LEN % 4 = 0
            rw [upd_ne _ _ _ _ n2]
            apply i10 ht hc0
            show upd st.regs R_DMA_CTRL v R_DMA_LEN % 4 = 0
            rw [upd_ne _ _ _ _ n3]
            exact hl
      · rw [if_neg hk] at h
        split at h
        · cases h
        · rename_i stm hmid
          cases h
          obtain ⟨bdone, hdone⟩ := dma_done_shape stm
          rw [hdone]
          obtain ⟨i1, i2, i3, i4, i5, _, i7, i8, i9, i10⟩ :=
            dma_rw_fields env _ _ hmid
          refine ⟨i1, i2, i3, i4, i5, i7, i8, ?_, ?_⟩
          · intro j h1 h2 h3 h4 h5 h6 _ _
            show upd stm.regs R_INTR_CTRL (stm.regs R_INTR_CTRL ||| INTR_CTRL_DMA_STATUS) j = st.regs j
            rw [upd_ne _ _ _ _ h1]
            have e := i9 j h3 h4 h5 h6
            rw [e]
            show upd st.regs R_DMA_CTRL v j = st.regs j
            rw [upd_ne _ _ _ _ h2]
          · intro _ _ hl
            show upd stm.regs R_INTR_CTRL (stm.regs R_INTR_CTRL ||| INTR_CTRL_DMA_STATUS) R_DMA_LEN % 4 = 0
            rw [upd_ne _ _ _ _ n2]
            apply i10
            show upd st.regs R_DMA_CTRL v R_DMA_LEN % 4 = 0
            rw [upd_ne _ _ _ _ n3]
            exact hl

/-- The checksum loop terminates within `DMA_LEN / 4` iterations whenever
`DMA_LEN` is a multiple of 4. -/
theorem dmaChecksumLoop_total (env : DMAEnv) : ∀ (fuel : Nat) (st : AspeedSMCState),
    st.regs R_DMA_LEN % 4 = 0 → st.regs R_DMA_LEN / 4 ≤ fuel →
    (dmaChecksumLoop env fuel st).isSome
  | 0, st => by
    intro h4 hf
    unfold dmaChecksumLoop
    have h0 : st.regs R_DMA_LEN = 0 := by omega
    rw [if_pos h0]
    rfl
  | fuel + 1, st => by
    intro h4 hf
    rw [dmaChecksumLoop]
    by_cases h0 : st.regs R_DMA_LEN = 0
    · rw [if_pos h0]
      rfl
    · rw [if_neg h0]
      cases hr : env.flashRead (st.regs R_DMA_FLASH_ADDR) with
      | none => rfl
      | some d =>
        apply dmaChecksumLoop_total env fuel <;>
          (dsimp only
           rw [upd_at]
           omega)

/-- The copy loop terminates within `DMA_LEN / 4` iterations whenever
`DMA_LEN` is a multiple of 4. -/
theorem dmaRwLoop_total (env : DMAEnv) : ∀ (fuel : Nat) (st : AspeedSMCState),
    st.regs R_DMA_LEN % 4 = 0 → st.regs R_DMA_LEN / 4 ≤ fuel →
    (dmaRwLoop env fuel st).isSome
  | 0, st => by
    intro h4 hf
    unfold dmaRwLoop
    have h0 : st.regs R_DMA_LEN = 0 := by omega
    rw [if_pos h0]
    rfl
  | fuel + 1, st => by
    intro h4 hf
    rw [dmaRwLoop]
    by_cases h0 : st.regs R_DMA_LEN = 0
    · rw [if_pos h0]
      rfl
    · rw [if_neg h0]
      cases hr : dmaRwStep env st with
      | none => rfl
      | some d =>
        have hne : R_DMA_LEN ≠ R_DMA_CHECKSUM := by decide
        apply dmaRwLoop_total env fuel <;>
          (dsimp only
           rw [upd_ne _ _ _ _ hne, upd_at]
           omega)

/-- `aspeed_smc_flash_set_segment` only writes register `SEG_ADDR0 + cs`
(and the gerror counter, the sub-region attributes). -/
theorem set_segment_fields (st : AspeedSMCState) (cs v : Nat) :
    (aspeed_smc_flash_set_segment st cs v).ctrl = st.ctrl ∧
    (aspeed_smc_flash_set_segment st cs v).num_cs = st.num_cs ∧
    (aspeed_smc_flash_set_segment st cs v).inject_failure = st.inject_failure ∧
    (aspeed_smc_flash_set_segment st cs v).sdram_base = st.sdram_base ∧
    (aspeed_smc_flash_set_segment st cs v).snoop_index = st.snoop_index ∧
    (aspeed_smc_flash_set_segment st cs v).irq = st.irq ∧
    ∀ j, j ≠ R_SEG_ADDR0 + cs →
      (aspeed_smc_flash_set_segment st cs v).regs j = st.regs j := by
  unfold aspeed_smc_flash_set_segment
  dsimp only
  repeat' split
  all_goals first
    | exact ⟨rfl, rfl, rfl, rfl, rfl, rfl, fun _ _ => rfl⟩
    | (refine ⟨rfl, rfl, rfl, rfl, rfl, rfl, ?_⟩
       intro j hj
       exact upd_ne _ _ _ _ hj)

/-- `setStopBits` leaves indices outside `r_ctrl0..r_ctrl0+n` alone. -/
theorem setStopBits_ne : ∀ (n r0 : Nat) (regs : Nat → Nat) (j : Nat),
    (∀ i, i < n → r0 + i ≠ j) → setStopBits r0 n regs j = regs j
  | 0, _, _, _, _ => rfl
  | n + 1, r0, regs, j, h => by
    unfold setStopBits
    dsimp only
    rw [upd_ne _ _ _ _ (Ne.symm (h n (Nat.lt_succ_self n)))]
    exact setStopBits_ne n r0 regs j (fun i hi => h i (by omega))

/-- `setDefaultSegs` leaves indices outside the segment range alone. -/
theorem setDefaultSegs_ne : ∀ (n : Nat) (c : AspeedSMCController) (regs : Nat → Nat)
    (j : Nat), (∀ i, i < n → R_SEG_ADDR0 + i ≠ j) → setDefaultSegs c n regs j = regs j
  | 0, _, _, _, _ => rfl
  | n + 1, c, regs, j, h => by
    unfold setDefaultSegs
    dsimp only
    rw [upd_ne _ _ _ _ (Ne.symm (h n (Nat.lt_succ_self n)))]
    exact setDefaultSegs_ne n c regs j (fun i hi => h i (by omega))

/-- `setDefaultSegs` writes the encoded default segment at each index. -/
theorem setDefaultSegs_at : ∀ (n : Nat) (c : AspeedSMCController) (regs : Nat → Nat)
    (i : Nat), i < n → setDefaultSegs c n regs (R_SEG_ADDR0 + i) =
      segment_to_reg c ((segTableEntries c.segments).getD i ⟨0, 0⟩)
  | 0, _, _, _, h => absurd h (Nat.not_lt_zero _)
  | n + 1, c, regs, i, h => by
    unfold setDefaultSegs
    dsimp only
    by_cases he : i = n
    · subst he
      rw [upd_at]
    · rw [upd_ne _ _ _ _ (by omega)]
      exact setDefaultSegs_at n c regs i (by omega)

/-- Away from the CONF register, the post-reset register file is the default
segments over the stop bits over zero; the strap branches only touch CONF. -/
theorem reset_regs_eq (st : AspeedSMCState) (j : Nat) (hj : st.ctrl.r_conf ≠ j) :
    (aspeed_smc_reset st).regs j =
      setDefaultSegs st.ctrl st.ctrl.max_slaves
        (setStopBits st.ctrl.r_ctrl0 st.num_cs (fun _ => 0)) j := by
  unfold aspeed_smc_reset
  dsimp only
  split <;> split <;> split <;>
    (dsimp only
     repeat rw [upd_ne _ _ _ _ (Ne.symm hj)]
     try rfl)

/-- After reset, each segment register holds the encoded default segment. -/
theorem reset_regs_seg (st : AspeedSMCState) (hs : ctrlSane st.ctrl)
    (i : Nat) (hi : i < st.ctrl.max_slaves) :
    (aspeed_smc_reset st).regs (R_SEG_ADDR0 + i) =
      segment_to_reg st.ctrl ((segTableEntries st.ctrl.segments).getD i ⟨0, 0⟩) := by
  obtain ⟨s1, s2, s3, s4, s5, s6⟩ := hs
  have hseg : R_SEG_ADDR0 = 12 := rfl
  have hconf : st.ctrl.r_conf ≠ R_SEG_ADDR0 + i := by omega
  rw [reset_regs_eq st _ hconf, setDefaultSegs_at _ _ _ _ hi]

/-- After reset, registers outside the CONF/CTRL0/SEG_ADDR footprint are 0. -/
theorem reset_regs_other (st : AspeedSMCState) (j : Nat)
    (hj1 : st.ctrl.r_conf ≠ j)
    (hj2 : ∀ i, i < st.num_cs → st.ctrl.r_ctrl0 + i ≠ j)
    (hj3 : ∀ i, i < st.ctrl.max_slaves → R_SEG_ADDR0 + i ≠ j) :
    (aspeed_smc_reset st).regs j = 0 := by
  rw [reset_regs_eq st j hj1, setDefaultSegs_ne _ _ _ _ hj3, setStopBits_ne _ _ _ _ hj2]

/-- `aspeed_smc_flash_update_cs` only touches `snoop_index` and the CS
lines. -/
theorem update_cs_fields (st : AspeedSMCState) (id : Nat) :
    (aspeed_smc_flash_update_cs st id).ctrl = st.ctrl ∧
    (aspeed_smc_flash_update_cs st id).num_cs = st.num_cs ∧
    (aspeed_smc_flash_update_cs st id).regs = st.regs :=
  ⟨rfl, rfl, rfl⟩

/-- `aspeed_smc_reset` preserves the configuration fields. -/
theorem reset_fields (st : AspeedSMCState) :
    (aspeed_smc_reset st).ctrl = st.ctrl ∧
    (aspeed_smc_reset st).num_cs = st.num_cs ∧
    (aspeed_smc_reset st).inject_failure = st.inject_failure ∧
    (aspeed_smc_reset st).sdram_base = st.sdram_base := by
  unfold aspeed_smc_reset
  dsimp only
  split <;> split <;> split <;> exact ⟨rfl, rfl, rfl, rfl⟩

/-- The `DMA_LENGTH(x)` mask keeps the two low address bits clear. -/
theorem and_len_mask (x : Nat) : (x &&& 0x01FFFFFC) % 4 = 0 := by
  rw [← and_three, Nat.and_assoc]
  have h : (0x01FFFFFC : Nat) &&& 3 = 0 := by decide
  rw [h, Nat.and_zero]

/-- One MMIO register write preserves the controller identity, `num_cs`,
and `DMA_LEN ≡ 0 (mod 4)`. -/
theorem smc_write_lenInv (env : DMAEnv) (st : AspeedSMCState) (addr data : Nat)
    (st' : AspeedSMCState) (h : aspeed_smc_write env st addr data = some st')
    (hs : ctrlSane st.ctrl) (hnum : st.num_cs ≤ st.ctrl.max_slaves)
    (hl : st.regs R_DMA_LEN % 4 = 0) :
    st'.ctrl = st.ctrl ∧ st'.num_cs = st.num_cs ∧ st'.regs R_DMA_LEN % 4 = 0 := by
  obtain ⟨s1, s2, s3, s4, s5, s6⟩ := hs
  have hR : R_DMA_LEN = 35 := rfl
  have hseg : R_SEG_ADDR0 = 12 := rfl
  unfold aspeed_smc_write at h
  simp only [] at h
  split at h
  · rename_i hcond
    cases h
    refine ⟨rfl, rfl, ?_⟩
    have hne : R_DMA_LEN ≠ addr >>> 2 := by
      rcases hcond with h1 | h1 | h1 <;> omega
    dsimp only
    rw [upd_ne _ _ _ _ hne]
    exact hl
  split at h
  · rename_i hcond
    cases h
    obtain ⟨u1, u2, u3⟩ := update_cs_fields
      { st with regs := upd st.regs (addr >>> 2) (data % 2 ^ 32) }
      (addr >>> 2 - st.ctrl.r_ctrl0)
    refine ⟨u1, u2, ?_⟩
    rw [u3]
    have hne : R_DMA_LEN ≠ addr >>> 2 := by omega
    dsimp only
    rw [upd_ne _ _ _ _ hne]
    exact hl
  split at h
  · rename_i hcond
    split at h
    · cases h
      obtain ⟨f1, f2, _, _, _, _, fregs⟩ :=
        set_segment_fields st (addr >>> 2 - R_SEG_ADDR0) (data % 2 ^ 32)
      refine ⟨f1, f2, ?_⟩
      have hne : R_DMA_LEN ≠ R_SEG_ADDR0 + (addr >>> 2 - R_SEG_ADDR0) := by omega
      rw [fregs _ hne]
      exact hl
    · cases h
      exact ⟨rfl, rfl, hl⟩
  split at h
  · rename_i hcond
    cases h
    refine ⟨rfl, rfl, ?_⟩
    have hne : R_DMA_LEN ≠ addr >>> 2 := by rw [hcond]; decide
    dsimp only
    rw [upd_ne _ _ _ _ hne]
    exact hl
  split at h
  · rename_i hcond
    cases h
    refine ⟨rfl, rfl, ?_⟩
    have hne : R_DMA_LEN ≠ addr >>> 2 := by rw [hcond]; decide
    dsimp only
    rw [upd_ne _ _ _ _ hne]
    exact hl
  split at h
  · rename_i hcond
    obtain ⟨d1, d2, _, _, _, _, _, _, d10⟩ := dma_ctrl_fields env st (data % 2 ^ 32) st' h
    refine ⟨d1, d2, ?_⟩
    refine d10 ?_ ?_ hl
    · rcases s5 with h5 | h5 <;> omega
    · omega
  split at h
  · rename_i hcond
    cases h
    refine ⟨rfl, rfl, ?_⟩
    have hne : R_DMA_LEN ≠ addr >>> 2 := by rw [hcond.2]; decide
    dsimp only
    rw [upd_ne _ _ _ _ hne]
    exact hl
  split at h
  · rename_i hcond
    cases h
    refine ⟨rfl, rfl, ?_⟩
    have hne : R_DMA_LEN ≠ addr >>> 2 := by rw [hcond.2]; decide
    dsimp only
    rw [upd_ne _ _ _ _ hne]
    exact hl
  split at h
  · rename_i hcond
    cases h
    refine ⟨rfl, rfl, ?_⟩
    dsimp only
    rw [hcond.2, upd_at]
    exact and_len_mask _
  · cases h
    exact ⟨rfl, rfl, hl⟩

/-- In every reachable state the controller identity is fixed, `num_cs`
stays within `max_slaves`, and `DMA_LEN` is a multiple of 4. -/
theorem smc_reachable_lenInv (c : AspeedSMCController) (hc : ctrlSane c)
    (st : AspeedSMCState) (h : SMCReachable c st) :
    st.ctrl = c ∧ st.num_cs ≤ c.max_slaves ∧ st.regs R_DMA_LEN % 4 = 0 := by
  obtain ⟨s1, s2, s3, s4, s5, s6⟩ := hc
  have hR : R_DMA_LEN = 35 := rfl
  have hseg : R_SEG_ADDR0 = 12 := rfl
  induction h with
  | init num_cs inj sb =>
    unfold smcInitialState
    refine ⟨(reset_fields _).1, ?_, ?_⟩
    · rw [(reset_fields _).2.1]
      dsimp only
      split <;> omega
    · rw [reset_regs_other]
      · intro hx
        dsimp only at hx
        omega
      · intro i hi
        dsimp only at hi ⊢
        split at hi <;> omega
      · intro i hi
        dsimp only at hi ⊢
        omega
  | reset st hst ih =>
    obtain ⟨ic, inum, _⟩ := ih
    refine ⟨(reset_fields st).1.trans ic, ?_, ?_⟩
    · rw [(reset_fields st).2.1]
      exact inum
    · rw [reset_regs_other]
      · rw [ic]
        intro hx
        omega
      · rw [ic]
        intro i hi
        omega
      · rw [ic]
        intro i hi
        omega
  | write st env addr data st' hst hw ih =>
    obtain ⟨ic, inum, ilen⟩ := ih
    have hs' : ctrlSane st.ctrl := by
      rw [ic]
      exact ⟨s1, s2, s3, s4, s5, s6⟩
    have hnum' : st.num_cs ≤ st.ctrl.max_slaves := by
      rw [ic]
      exact inum
    obtain ⟨e1, e2, e3⟩ := smc_write_lenInv env st addr data st' hw hs' hnum' ilen
    refine ⟨e1.trans ic, ?_, e3⟩
    rw [e2]
    exact inum
  | fwrite st id addr data size hst hid ih =>
    obtain ⟨ic, inum, ilen⟩ := ih
    obtain ⟨l, si, sd, regs, cl, heq, hregs⟩ := flash_write_shape st id addr data size
    rw [heq]
    refine ⟨ic, inum, ?_⟩
    dsimp only
    rw [hregs R_DMA_LEN ?hne]
    · exact ilen
    case hne =>
      rw [ic]
      omega

/-- A write to byte offset 0x8C (R_DMA_LEN) on a DMA-capable controller
stores `value & 0x01FFFFFC`. -/
theorem smc_write_len_store (env : DMAEnv) (st : AspeedSMCState) (data : Nat)
    (st' : AspeedSMCState) (hs : ctrlSane st.ctrl)
    (hnum : st.num_cs ≤ st.ctrl.max_slaves) (hdma : st.ctrl.has_dma = true)
    (h : aspeed_smc_write env st 0x8C data = some st') :
    st'.regs R_DMA_LEN = (data % 2 ^ 32) &&& 0x01FFFFFC := by
  obtain ⟨s1, s2, s3, s4, s5, s6⟩ := hs
  have hR : R_DMA_LEN = 35 := rfl
  have hseg : R_SEG_ADDR0 = 12 := rfl
  have hD : R_DUMMY_DATA = 21 := rfl
  have hI : R_INTR_CTRL = 2 := rfl
  have hC : R_DMA_CTRL = 32 := rfl
  have hDA : R_DMA_DRAM_ADDR = 34 := rfl
  have hFA : R_DMA_FLASH_ADDR = 33 := rfl
  unfold aspeed_smc_write at h
  simp only [] at h
  split at h
  · rename_i hcond
    exfalso
    rcases hcond with h1 | h1 | h1 <;> omega
  split at h
  · rename_i hcond
    exfalso
    omega
  split at h
  · rename_i hcond
    exfalso
    omega
  split at h
  · rename_i hcond
    exfalso
    omega
  split at h
  · rename_i hcond
    exfalso
    omega
  split at h
  · rename_i hcond
    exfalso
    obtain ⟨_, h2⟩ := hcond
    omega
  split at h
  · rename_i hcond
    exfalso
    obtain ⟨_, h2⟩ := hcond
    omega
  split at h
  · rename_i hcond
    exfalso
    obtain ⟨_, h2⟩ := hcond
    omega
  split at h
  · cases h
    dsimp only
    have he : (0x8C >>> 2 : Nat) = R_DMA_LEN := by decide
    rw [he, upd_at]
  · rename_i hcond
    exfalso
    exact hcond ⟨hdma, by decide⟩

/-- C10: in every reachable SMC state `regs[R_DMA_LEN]` is a multiple of 4
(the DMA_LEN write path masks the value with 0x01FFFFFC and the DMA loops
subtract 4), so the checksum loop and the copy loop terminate within
`DMA_LEN / 4` iterations from every reachable starting state. -/
theorem C10_dma_len_invariant (c : AspeedSMCController) (hc : c ∈ controllers)
    (st : AspeedSMCState) (h : SMCReachable c st) :
    st.regs R_DMA_LEN % 4 = 0 ∧
    (∀ env, (dmaChecksumLoop env (st.regs R_DMA_LEN / 4) st).isSome) ∧
    (∀ env, (dmaRwLoop env (st.regs R_DMA_LEN / 4) st).isSome) ∧
    (∀ env data st', c.has_dma = true →
      aspeed_smc_write env st 0x8C data = some st' →
      st'.regs R_DMA_LEN = (data % 2 ^ 32) &&& 0x01FFFFFC) := by
  have hs : ctrlSane c := controllers_sane c hc
  obtain ⟨ic, inum, ilen⟩ := smc_reachable_lenInv c hs st h
  refine ⟨ilen, fun env => dmaChecksumLoop_total env _ st ilen (Nat.le_refl _),
    fun env => dmaRwLoop_total env _ st ilen (Nat.le_refl _),
    fun env data st' hdma hw => ?_⟩
  refine smc_write_len_store env st data st' ?_ ?_ ?_ hw
  · rw [ic]
    exact hs
  · rw [ic]
    exact inum
  · rw [ic]
    exact hdma

/-- Witness for `C10_dma_len_invariant`: the freshly realized AST2400 FMC
controller. -/
theorem C10_dma_len_invariant_witness :
    (smcInitialState ctrl_fmc2400 2 false 0).regs R_DMA_LEN % 4 = 0 ∧
    (∀ env, (dmaChecksumLoop env
      ((smcInitialState ctrl_fmc2400 2 false 0).regs R_DMA_LEN / 4)
      (smcInitialState ctrl_fmc2400 2 false 0)).isSome) ∧
    (∀ env, (dmaRwLoop env
      ((smcInitialState ctrl_fmc2400 2 false 0).regs R_DMA_LEN / 4)
      (smcInitialState ctrl_fmc2400 2 false 0)).isSome) ∧
    (∀ env data st', ctrl_fmc2400.has_dma = true →
      aspeed_smc_write env (smcInitialState ctrl_fmc2400 2 false 0) 0x8C data = some st' →
      st'.regs R_DMA_LEN = (data % 2 ^ 32) &&& 0x01FFFFFC) :=
  C10_dma_len_invariant ctrl_fmc2400 (by decide)
    (smcInitialState ctrl_fmc2400 2 false 0) (SMCReachable.init 2 false 0)

/-- An `if` whose condition has a false middle conjunct takes its else
branch (used for the dead AST2500-SPI end-snap guard, whose middle
conjunct `cs = max_slaves` never holds at a call site). -/
theorem if_and_mid_false {α : Sort u} {A B C : Prop} [Decidable (A ∧ B ∧ C)]
    (h : ¬B) (x y : α) : (if A ∧ B ∧ C then x else y) = y :=
  if_neg (fun hh => h hh.2.1)

/-- Decoding the absolute encoding of `⟨A, S⟩` recovers the 8 MiB-aligned
base `A` (for any size), as long as `A` fits the 8-bit start field. -/
theorem decode_encode_base_abs (A S : Nat) (h23 : A % 8388608 = 0)
    (hlt : A < 2147483648) :
    (aspeed_smc_reg_to_segment (aspeed_smc_segment_to_reg ⟨A, S⟩)).addr = A := by
  have e1 : aspeed_smc_segment_to_reg ⟨A, S⟩ =
      A / 8388608 % 256 * 65536 + (A + S) / 8388608 % 256 * 16777216 := by
    simp only [aspeed_smc_segment_to_reg, SEG_START_MASK, SEG_START_SHIFT,
      SEG_END_MASK, SEG_END_SHIFT, shr23, and_ff, lor_as_add_16_24']
  rw [e1]
  simp only [aspeed_smc_reg_to_segment, SEG_START_MASK, SEG_START_SHIFT,
    SEG_END_MASK, SEG_END_SHIFT, shr16, shr24, and_ff, shl23]
  omega

/-- Any decoded AST2400/AST2500 segment size is a multiple of 8 MiB, is
below 2^32, and is never exactly 2 GiB (the end and start fields differ by
at most 255 units in either direction). -/
theorem abs_decoded_size (v : Nat) :
    (aspeed_smc_reg_to_segment v).size % 8388608 = 0 ∧
    (aspeed_smc_reg_to_segment v).size ≠ 2147483648 ∧
    (aspeed_smc_reg_to_segment v).size < 4294967296 := by
  simp only [aspeed_smc_reg_to_segment, SEG_START_MASK, SEG_START_SHIFT,
    SEG_END_MASK, SEG_END_SHIFT, shr16, shr24, and_ff, shl23]
  omega

/-- Re-encoding a base-snapped candidate with a nonzero decoded size gives
a register whose decoded size is again nonzero (absolute encoding). -/
theorem snap_good_abs (F S : Nat) (hF : F % 8388608 = 0) (hFlt : F < 2147483648)
    (hS : S % 8388608 = 0) (hSlt : S < 4294967296) (hSne : S ≠ 2147483648)
    (hS0 : S ≠ 0) :
    0 < (aspeed_smc_reg_to_segment (aspeed_smc_segment_to_reg ⟨F, S⟩)).size := by
  have e1 : aspeed_smc_segment_to_reg ⟨F, S⟩ =
      F / 8388608 * 65536 + (F / 8388608 + S / 8388608) % 256 * 16777216 := by
    simp only [aspeed_smc_segment_to_reg, SEG_START_MASK, SEG_START_SHIFT,
      SEG_END_MASK, SEG_END_SHIFT, shr23, and_ff, lor_as_add_16_24']
    omega
  rw [e1]
  simp only [aspeed_smc_reg_to_segment, SEG_START_MASK, SEG_START_SHIFT,
    SEG_END_MASK, SEG_END_SHIFT, shr16, shr24, and_ff, shl23]
  have d0 : (F / 8388608 * 65536 + (F / 8388608 + S / 8388608) % 256 * 16777216) /
      16777216 = (F / 8388608 + S / 8388608) % 256 := by omega
  have d1 : (F / 8388608 * 65536 + (F / 8388608 + S / 8388608) % 256 * 16777216) /
      16777216 % 256 = (F / 8388608 + S / 8388608) % 256 := by
    rw [d0]
    omega
  have d2 : (F / 8388608 * 65536 + (F / 8388608 + S / 8388608) % 256 * 16777216) /
      65536 % 256 = F / 8388608 := by omega
  rw [d1, d2]
  omega

/-- Decoding the offset encoding of `⟨fwb, S⟩` recovers the window base
(for a base clear of the AST2600 mask bits, as all three 2600 window bases
are). -/
theorem decode_encode_base_off (fwb S : Nat) (hm : fwb &&& 0x0FF00000 = 0) :
    (aspeed_2600_smc_reg_to_segment fwb (aspeed_2600_smc_segment_to_reg ⟨fwb, S⟩)).addr
      = fwb := by
  by_cases h0 : S = 0
  · subst h0
    have e : aspeed_2600_smc_segment_to_reg ⟨fwb, 0⟩ = 0 := by
      unfold aspeed_2600_smc_segment_to_reg
      dsimp only
      rw [if_pos rfl]
    rw [e]
    unfold aspeed_2600_smc_reg_to_segment
    dsimp only
    rw [Nat.zero_shiftLeft, Nat.zero_mod, Nat.zero_and]
    omega
  · simp only [aspeed_2600_smc_segment_to_reg, aspeed_2600_smc_reg_to_segment,
      AST2600_SEG_ADDR_MASK, if_neg h0]
    rw [hm, Nat.zero_shiftRight, Nat.zero_or]
    simp only [shl16, and_mask2600]
    omega

/-- Re-encoding a base-snapped candidate with a nonzero size gives a
register whose decoded size is nonzero (offset encoding). -/
theorem snap_good_off (fwb S : Nat) (hm : fwb &&& 0x0FF00000 = 0) (hS0 : S ≠ 0) :
    0 < (aspeed_2600_smc_reg_to_segment fwb
      (aspeed_2600_smc_segment_to_reg ⟨fwb, S⟩)).size := by
  simp only [aspeed_2600_smc_segment_to_reg, aspeed_2600_smc_reg_to_segment,
    AST2600_SEG_ADDR_MASK, if_neg hS0]
  rw [hm, Nat.zero_shiftRight, Nat.zero_or]
  simp only [shl16, and_mask2600]
  omega

/-- For every controller, decoding the encoding of `⟨flash_window_base, S⟩`
yields a segment based exactly at `flash_window_base`. -/
theorem decode_encode_base (c : AspeedSMCController) (hc : c ∈ controllers) (S : Nat) :
    (reg_to_segment c (segment_to_reg c ⟨c.flash_window_base, S⟩)).addr =
      c.flash_window_base := by
  simp only [controllers, List.mem_cons, List.not_mem_nil, or_false] at hc
  rcases hc with rfl | rfl | rfl | rfl | rfl | rfl | rfl | rfl | rfl <;>
    [skip; skip; skip; skip; skip; skip;
     (rw [reg_to_segment_off _ rfl, segment_to_reg_off _ rfl]);
     (rw [reg_to_segment_off _ rfl, segment_to_reg_off _ rfl]);
     (rw [reg_to_segment_off _ rfl, segment_to_reg_off _ rfl])]
  case _ =>
    rw [reg_to_segment_abs _ rfl, segment_to_reg_abs _ rfl]
    exact decode_encode_base_abs _ _ (by decide) (by decide)
  case _ =>
    rw [reg_to_segment_abs _ rfl, segment_to_reg_abs _ rfl]
    exact decode_encode_base_abs _ _ (by decide) (by decide)
  case _ =>
    rw [reg_to_segment_abs _ rfl, segment_to_reg_abs _ rfl]
    exact decode_encode_base_abs _ _ (by decide) (by decide)
  case _ =>
    rw [reg_to_segment_abs _ rfl, segment_to_reg_abs _ rfl]
    exact decode_encode_base_abs _ _ (by decide) (by decide)
  case _ =>
    rw [reg_to_segment_abs _ rfl, segment_to_reg_abs _ rfl]
    exact decode_encode_base_abs _ _ (by decide) (by decide)
  case _ =>
    rw [reg_to_segment_abs _ rfl, segment_to_reg_abs _ rfl]
    exact decode_encode_base_abs _ _ (by decide) (by decide)
  case _ => exact decode_encode_base_off _ _ (by decide)
  case _ => exact decode_encode_base_off _ _ (by decide)
  case _ => exact decode_encode_base_off _ _ (by decide)

/-- The base-snapped re-encoding of a candidate with nonzero decoded size
is a register whose decoded segment intersects the flash window. -/
theorem snap_encode_good (c : AspeedSMCController) (hc : c ∈ controllers) (v : Nat)
    (hS0 : (reg_to_segment c v).size ≠ 0) :
    segGood c (segment_to_reg c ⟨c.flash_window_base, (reg_to_segment c v).size⟩) := by
  have hb := decode_encode_base c hc ((reg_to_segment c v).size)
  have hpos : 0 < (reg_to_segment c (segment_to_reg c
      ⟨c.flash_window_base, (reg_to_segment c v).size⟩)).size := by
    simp only [controllers, List.mem_cons, List.not_mem_nil, or_false] at hc
    rcases hc with rfl | rfl | rfl | rfl | rfl | rfl | rfl | rfl | rfl <;>
      [skip; skip; skip; skip; skip; skip;
       (rw [reg_to_segment_off _ rfl, segment_to_reg_off _ rfl]
        rw [reg_to_segment_off _ rfl] at hS0
        exact snap_good_off _ _ (by decide) hS0);
       (rw [reg_to_segment_off _ rfl, segment_to_reg_off _ rfl]
        rw [reg_to_segment_off _ rfl] at hS0
        exact snap_good_off _ _ (by decide) hS0);
       (rw [reg_to_segment_off _ rfl, segment_to_reg_off _ rfl]
        rw [reg_to_segment_off _ rfl] at hS0
        exact snap_good_off _ _ (by decide) hS0)] <;>
      (rw [reg_to_segment_abs _ rfl, segment_to_reg_abs _ rfl]
       rw [reg_to_segment_abs _ rfl] at hS0
       obtain ⟨q1, q2, q3⟩ := abs_decoded_size v
       exact snap_good_abs _ _ (by decide) (by decide) q1 q3 q2 hS0)
  unfold segGood
  rw [hb]
  exact ⟨Nat.le_add_right _ _, by omega⟩

/-- A segment-register write with `cs < max_slaves` either commits a
register whose decoded segment intersects the flash window, or leaves the
register unchanged. -/
theorem set_segment_good_or_same (st : AspeedSMCState) (cs v : Nat)
    (hc : st.ctrl ∈ controllers) (hcs : cs < st.ctrl.max_slaves) :
    segGood st.ctrl ((aspeed_smc_flash_set_segment st cs v).regs (R_SEG_ADDR0 + cs)) ∨
    (aspeed_smc_flash_set_segment st cs v).regs (R_SEG_ADDR0 + cs) =
      st.regs (R_SEG_ADDR0 + cs) := by
  have hcsne : ¬ cs = st.ctrl.max_slaves := by omega
  unfold aspeed_smc_flash_set_segment
  dsimp only
  by_cases hsnap : cs = 0 ∧ (reg_to_segment st.ctrl v).addr ≠ st.ctrl.flash_window_base
  · simp only [if_pos hsnap, if_and_mid_false hcsne]
    try dsimp only
    split
    · exact Or.inr rfl
    · rename_i hW
      left
      try dsimp only
      rw [upd_at]
      refine snap_encode_good st.ctrl hc v ?_
      intro h0
      exact hW (Or.inl (by omega))
  · simp only [if_neg hsnap, if_and_mid_false hcsne]
    split
    · exact Or.inr rfl
    · rename_i hW
      left
      try dsimp only
      rw [upd_at]
      unfold segGood
      exact ⟨by omega, by omega⟩

/-- One MMIO register write preserves the window invariant of every
segment register. -/
theorem smc_write_segInv (env : DMAEnv) (st : AspeedSMCState) (addr data : Nat)
    (st' : AspeedSMCState) (h : aspeed_smc_write env st addr data = some st')
    (hc : st.ctrl ∈ controllers) (hs : ctrlSane st.ctrl)
    (hnum : st.num_cs ≤ st.ctrl.max_slaves)
    (hinv : ∀ i, i < st.ctrl.max_slaves → segGood st.ctrl (st.regs (R_SEG_ADDR0 + i))) :
    ∀ i, i < st.ctrl.max_slaves → segGood st.ctrl (st'.regs (R_SEG_ADDR0 + i)) := by
  obtain ⟨s1, s2, s3, s4, s5, s6⟩ := hs
  have hseg : R_SEG_ADDR0 = 12 := rfl
  have hR : R_DMA_LEN = 35 := rfl
  have hD : R_DUMMY_DATA = 21 := rfl
  have hI : R_INTR_CTRL = 2 := rfl
  have hC : R_DMA_CTRL = 32 := rfl
  have hCK : R_DMA_CHECKSUM = 36 := rfl
  have hDA : R_DMA_DRAM_ADDR = 34 := rfl
  have hFA : R_DMA_FLASH_ADDR = 33 := rfl
  intro i hi
  unfold aspeed_smc_write at h
  simp only [] at h
  split at h
  · rename_i hcond
    cases h
    have hne : R_SEG_ADDR0 + i ≠ addr >>> 2 := by
      rcases hcond with h1 | h1 | h1 <;> omega
    dsimp only
    rw [upd_ne _ _ _ _ hne]
    exact hinv i hi
  split at h
  · rename_i hcond
    cases h
    obtain ⟨-, -, u3⟩ := update_cs_fields
      { st with regs := upd st.regs (addr >>> 2) (data % 2 ^ 32) }
      (addr >>> 2 - st.ctrl.r_ctrl0)
    rw [u3]
    dsimp only
    rw [upd_ne _ _ _ _ (by omega)]
    exact hinv i hi
  split at h
  · rename_i hcond
    split at h
    · cases h
      by_cases hic : i = addr >>> 2 - R_SEG_ADDR0
      · subst hic
        rcases set_segment_good_or_same st (addr >>> 2 - R_SEG_ADDR0) (data % 2 ^ 32)
            hc (by omega) with hg | hsame
        · exact hg
        · rw [hsame]
          exact hinv _ hi
      · obtain ⟨-, -, -, -, -, -, fregs⟩ :=
          set_segment_fields st (addr >>> 2 - R_SEG_ADDR0) (data % 2 ^ 32)
        rw [fregs _ (by omega)]
        exact hinv i hi
    · cases h
      exact hinv i hi
  split at h
  · rename_i hcond
    cases h
    dsimp only
    rw [upd_ne _ _ _ _ (by omega)]
    exact hinv i hi
  split at h
  · rename_i hcond
    cases h
    dsimp only
    rw [upd_ne _ _ _ _ (by omega)]
    exact hinv i hi
  split at h
  · rename_i hcond
    obtain ⟨d1, -, -, -, -, -, -, d9, -⟩ := dma_ctrl_fields env st (data % 2 ^ 32) st' h
    have e := d9 (R_SEG_ADDR0 + i) (by omega) (by omega) (by omega) (by omega)
      (by omega) (by omega) (by rcases s5 with h5 | h5 <;> omega) (by omega)
    rw [e]
    exact hinv i hi
  split at h
  · rename_i hcond
    cases h
    dsimp only
    rw [upd_ne _ _ _ _ (by omega)]
    exact hinv i hi
  split at h
  · rename_i hcond
    cases h
    dsimp only
    rw [upd_ne _ _ _ _ (by omega)]
    exact hinv i hi
  split at h
  · rename_i hcond
    cases h
    dsimp only
    rw [upd_ne _ _ _ _ (by omega)]
    exact hinv i hi
  · cases h
    exact hinv i hi

/-- For every controller whose default segment table has an entry per
chip-select, the defaults re-encode to registers whose decoded segments
intersect the flash window.  (The legacy "aspeed.smc-ast2400" descriptor
declares `max_slaves = 5` over a 1-entry table: its reset reads past the
table, which the embedding models as the empty segment.) -/
theorem controllers_defaults_good : ∀ c ∈ controllers,
    c.max_slaves ≤ (segTableEntries c.segments).length → ∀ i, i < c.max_slaves →
    segGood c (segment_to_reg c ((segTableEntries c.segments).getD i ⟨0, 0⟩)) := by
  decide

/-- In every reachable state, every segment register decodes to a segment
that intersects the flash window. -/
theorem smc_reachable_segInv (c : AspeedSMCController) (hc : c ∈ controllers)
    (htbl : c.max_slaves ≤ (segTableEntries c.segments).length)
    (st : AspeedSMCState) (h : SMCReachable c st) :
    ∀ i, i < c.max_slaves → segGood c (st.regs (R_SEG_ADDR0 + i)) := by
  have hcs : ctrlSane c := controllers_sane c hc
  induction h with
  | init num_cs inj sb =>
    intro i hi
    unfold smcInitialState
    rw [reset_regs_seg _ hcs i hi]
    exact controllers_defaults_good c hc htbl i hi
  | reset st hst ih =>
    obtain ⟨ic, inum, -⟩ := smc_reachable_lenInv c hcs st hst
    intro i hi
    rw [reset_regs_seg st (by rw [ic]; exact hcs) i (by rw [ic]; exact hi)]
    rw [ic]
    exact controllers_defaults_good c hc htbl i hi
  | write st env addr data st' hst hw ih =>
    obtain ⟨ic, inum, -⟩ := smc_reachable_lenInv c hcs st hst
    have hinv' : ∀ i, i < st.ctrl.max_slaves →
        segGood st.ctrl (st.regs (R_SEG_ADDR0 + i)) := by
      intro i hi
      rw [ic] at hi
      rw [ic]
      exact ih i hi
    have hres := smc_write_segInv env st addr data st' hw (by rw [ic]; exact hc)
      (by rw [ic]; exact hcs) (by rw [ic]; exact inum) hinv'
    intro i hi
    have hgi := hres i (by rw [ic]; exact hi)
    rw [ic] at hgi
    exact hgi
  | fwrite st id addr data size hst hid ih =>
    obtain ⟨ic, inum, -⟩ := smc_reachable_lenInv c hcs st hst
    obtain ⟨t1, t2, t3, t4, t5, t6⟩ := hcs
    have hseg : R_SEG_ADDR0 = 12 := rfl
    intro i hi
    obtain ⟨l, si, sd, regs, cl, heq, hregs⟩ := flash_write_shape st id addr data size
    rw [heq]
    dsimp only
    have hne : R_SEG_ADDR0 + i ≠ st.ctrl.r_ctrl0 + id := by
      rw [ic]
      omega
    rw [hregs _ hne]
    exact ih i hi

/-- C3 (amended): in every reachable state, every committed segment
**intersects** the flash window (its decoded base does not exceed the
window end and its decoded end lies strictly above the window base) — but
it need not lie entirely inside, for the check of
`aspeed_smc_flash_set_segment` only rejects candidates that are entirely
outside: such an entirely-outside candidate is indeed not committed (the
state is unchanged except one logged guest error).  The invariant needs the
default table to cover every chip-select, which excludes only the legacy
"aspeed.smc-ast2400" descriptor (5 slaves over a 1-entry table). -/
theorem C3_committed_segments (c : AspeedSMCController) (hc : c ∈ controllers)
    (htbl : c.max_slaves ≤ (segTableEntries c.segments).length)
    (st : AspeedSMCState) (h : SMCReachable c st) :
    (∀ i, i < c.max_slaves →
      (reg_to_segment c (st.regs (R_SEG_ADDR0 + i))).addr ≤
          c.flash_window_base + c.flash_window_size ∧
      c.flash_window_base <
          (reg_to_segment c (st.regs (R_SEG_ADDR0 + i))).addr +
            (reg_to_segment c (st.regs (R_SEG_ADDR0 + i))).size) ∧
    (∀ cs v, ¬(cs = 0 ∧ (reg_to_segment c v).addr ≠ c.flash_window_base) →
      ¬ cs = c.max_slaves →
      ((reg_to_segment c v).addr + (reg_to_segment c v).size ≤ c.flash_window_base ∨
        c.flash_window_base + c.flash_window_size < (reg_to_segment c v).addr) →
      aspeed_smc_flash_set_segment st cs v = { st with gerrors := st.gerrors + 1 }) := by
  have hic : st.ctrl = c := (smc_reachable_lenInv c (controllers_sane c hc) st h).1
  constructor
  · intro i hi
    exact smc_reachable_segInv c hc htbl st h i hi
  · intro cs v hns hne hout
    unfold aspeed_smc_flash_set_segment
    dsimp only
    rw [hic]
    simp only [if_neg hns, if_and_mid_false hne]
    have hcond : (reg_to_segment c v).addr + (reg_to_segment c v).size ≤
        c.flash_window_base ∨
        (reg_to_segment c v).addr > c.flash_window_base + c.flash_window_size := by
      rcases hout with ho | ho
      · exact Or.inl ho
      · exact Or.inr (by omega)
    rw [if_pos hcond]

/-- Witness for `C3_committed_segments`: the freshly realized AST2400 FMC
controller. -/
theorem C3_committed_segments_witness :
    (∀ i, i < ctrl_fmc2400.max_slaves →
      (reg_to_segment ctrl_fmc2400
          ((smcInitialState ctrl_fmc2400 5 false 0).regs (R_SEG_ADDR0 + i))).addr ≤
          ctrl_fmc2400.flash_window_base + ctrl_fmc2400.flash_window_size ∧
      ctrl_fmc2400.flash_window_base <
          (reg_to_segment ctrl_fmc2400
              ((smcInitialState ctrl_fmc2400 5 false 0).regs (R_SEG_ADDR0 + i))).addr +
            (reg_to_segment ctrl_fmc2400
              ((smcInitialState ctrl_fmc2400 5 false 0).regs (R_SEG_ADDR0 + i))).size) ∧
    (∀ cs v, ¬(cs = 0 ∧
        (reg_to_segment ctrl_fmc2400 v).addr ≠ ctrl_fmc2400.flash_window_base) →
      ¬ cs = ctrl_fmc2400.max_slaves →
      ((reg_to_segment ctrl_fmc2400 v).addr + (reg_to_segment ctrl_fmc2400 v).size ≤
          ctrl_fmc2400.flash_window_base ∨
        ctrl_fmc2400.flash_window_base + ctrl_fmc2400.flash_window_size <
          (reg_to_segment ctrl_fmc2400 v).addr) →
      aspeed_smc_flash_set_segment (smcInitialState ctrl_fmc2400 5 false 0) cs v =
        { smcInitialState ctrl_fmc2400 5 false 0 with
            gerrors := (smcInitialState ctrl_fmc2400 5 false 0).gerrors + 1 }) :=
  C3_committed_segments ctrl_fmc2400 (by decide) (by decide) _
    (SMCReachable.init 5 false 0)

/-- C3, counterexample: on the AST2400 FMC a write of 0x70500000 to
SEG_ADDR1 (byte offset 0x34) commits a segment [0x28000000, 0x38000000)
that extends 128 MiB beyond the flash window end 0x30000000: committed
segments are not always entirely inside the window. -/
theorem C3_counterexample :
    (aspeed_smc_write envNone stFmc2400 0x34 0x70500000).map
        (fun s => s.regs (R_SEG_ADDR0 + 1)) = some 0x70500000 ∧
    ctrl_fmc2400.flash_window_base + ctrl_fmc2400.flash_window_size <
      (reg_to_segment ctrl_fmc2400 0x70500000).addr +
        (reg_to_segment ctrl_fmc2400 0x70500000).size := by
  exact ⟨by decide, by decide⟩

/-- C5 (amended): a write to SEG_ADDR0 of a value whose decoded base
differs from `flash_window_base` logs a guest error and snaps the base
back: **if** the candidate's decoded size is nonzero, the stored register
is the re-encoding of the snapped segment, its decoded base is
`flash_window_base` again, and the CS0 sub-region moves to offset 0 with
the candidate's size; but if the decoded size is 0, the snapped candidate
ends at the window base, the lenient window check rejects it, and nothing
is stored at all (the claim's unconditional commitment is false, see the
counterexample). -/
theorem C5_cs0_base_snap (st : AspeedSMCState) (hc : st.ctrl ∈ controllers) (v : Nat)
    (hd : (reg_to_segment st.ctrl v).addr ≠ st.ctrl.flash_window_base)
    (hmax : 0 < st.ctrl.max_slaves) :
    st.gerrors < (aspeed_smc_flash_set_segment st 0 v).gerrors ∧
    ((reg_to_segment st.ctrl v).size = 0 →
      aspeed_smc_flash_set_segment st 0 v = { st with gerrors := st.gerrors + 2 }) ∧
    ((reg_to_segment st.ctrl v).size ≠ 0 →
      (aspeed_smc_flash_set_segment st 0 v).regs R_SEG_ADDR0 =
        segment_to_reg st.ctrl
          ⟨st.ctrl.flash_window_base, (reg_to_segment st.ctrl v).size⟩ ∧
      (reg_to_segment st.ctrl
          ((aspeed_smc_flash_set_segment st 0 v).regs R_SEG_ADDR0)).addr =
        st.ctrl.flash_window_base ∧
      ((aspeed_smc_flash_set_segment st 0 v).flashes 0).mmio_addr = 0 ∧
      ((aspeed_smc_flash_set_segment st 0 v).flashes 0).mmio_size =
        (reg_to_segment st.ctrl v).size) := by
  have hcsne : ¬ (0 : Nat) = st.ctrl.max_slaves := by omega
  have hsnap : (0 : Nat) = 0 ∧
      (reg_to_segment st.ctrl v).addr ≠ st.ctrl.flash_window_base := ⟨rfl, hd⟩
  have hmain : aspeed_smc_flash_set_segment st 0 v =
      if st.ctrl.flash_window_base + (reg_to_segment st.ctrl v).size ≤
          st.ctrl.flash_window_base ∨
        st.ctrl.flash_window_base >
          st.ctrl.flash_window_base + st.ctrl.flash_window_size then
        { st with gerrors := st.gerrors + 1 + 0 + 1 }
      else
        { st with
          flashes := updf st.flashes 0
            { mmio_addr := (st.ctrl.flash_window_base + 2 ^ 64 -
                st.ctrl.flash_window_base) % 2 ^ 64,
              mmio_size := (reg_to_segment st.ctrl v).size, enabled := true },
          regs := upd st.regs (R_SEG_ADDR0 + 0)
            (segment_to_reg st.ctrl
              ⟨st.ctrl.flash_window_base, (reg_to_segment st.ctrl v).size⟩),
          gerrors := st.gerrors + 1 + 0 +
            (if (reg_to_segment st.ctrl v).size ≠ 0 ∧
                st.ctrl.flash_window_base % (reg_to_segment st.ctrl v).size ≠ 0
              then 1 else 0) +
            (if aspeed_smc_flash_overlap st.ctrl st.regs
                ⟨st.ctrl.flash_window_base, (reg_to_segment st.ctrl v).size⟩ 0
              then 1 else 0) } := by
    unfold aspeed_smc_flash_set_segment
    dsimp only
    have hsnap2 : True ∧
        (reg_to_segment st.ctrl v).addr ≠ st.ctrl.flash_window_base := ⟨trivial, hd⟩
    simp only [if_pos hsnap, if_pos hsnap2, if_and_mid_false hcsne]
  by_cases h0 : (reg_to_segment st.ctrl v).size = 0
  · rw [hmain, if_pos (Or.inl (by omega))]
    refine ⟨by dsimp only; omega, fun _ => rfl, fun hne => absurd h0 hne⟩
  · rw [hmain, if_neg (by intro hh; rcases hh with hh | hh <;> omega)]
    refine ⟨by dsimp only; omega, fun h00 => absurd h00 h0, fun _ => ?_⟩
    refine ⟨?_, ?_, ?_, ?_⟩
    · dsimp only
      rw [show R_SEG_ADDR0 + 0 = R_SEG_ADDR0 from rfl, upd_at]
    · dsimp only
      rw [show R_SEG_ADDR0 + 0 = R_SEG_ADDR0 from rfl, upd_at]
      exact decode_encode_base st.ctrl hc _
    · dsimp only
      rw [updf_at]
      dsimp only
      omega
    · dsimp only
      rw [updf_at]

/-- Witness for `C5_cs0_base_snap`: a freshly realized AST2400 FMC
controller and the register value 0x41410000 (decoded base 0x20800000,
decoded size 0). -/
theorem C5_cs0_base_snap_witness :
    stFmc2400.gerrors < (aspeed_smc_flash_set_segment stFmc2400 0 0x41410000).gerrors ∧
    ((reg_to_segment stFmc2400.ctrl 0x41410000).size = 0 →
      aspeed_smc_flash_set_segment stFmc2400 0 0x41410000 =
        { stFmc2400 with gerrors := stFmc2400.gerrors + 2 }) ∧
    ((reg_to_segment stFmc2400.ctrl 0x41410000).size ≠ 0 →
      (aspeed_smc_flash_set_segment stFmc2400 0 0x41410000).regs R_SEG_ADDR0 =
        segment_to_reg stFmc2400.ctrl
          ⟨stFmc2400.ctrl.flash_window_base,
            (reg_to_segment stFmc2400.ctrl 0x41410000).size⟩ ∧
      (reg_to_segment stFmc2400.ctrl
          ((aspeed_smc_flash_set_segment stFmc2400 0 0x41410000).regs R_SEG_ADDR0)).addr =
        stFmc2400.ctrl.flash_window_base ∧
      ((aspeed_smc_flash_set_segment stFmc2400 0 0x41410000).flashes 0).mmio_addr = 0 ∧
      ((aspeed_smc_flash_set_segment stFmc2400 0 0x41410000).flashes 0).mmio_size =
        (reg_to_segment stFmc2400.ctrl 0x41410000).size) :=
  C5_cs0_base_snap stFmc2400 (by decide) 0x41410000 (by decide) (by decide)

/-- C5, counterexample: writing 0x41410000 to SEG_ADDR0 (byte offset 0x30)
of the AST2400 FMC snaps the base from 0x20800000 to the window base
0x20000000, but the snapped candidate has size 0, is rejected by the
window check, and the register keeps its reset value 0x48400000 instead of
the claimed re-encoding 0x40400000 of the snapped segment. -/
theorem C5_counterexample :
    (reg_to_segment ctrl_fmc2400 0x41410000).addr ≠ ctrl_fmc2400.flash_window_base ∧
    segment_to_reg ctrl_fmc2400 ⟨ctrl_fmc2400.flash_window_base,
      (reg_to_segment ctrl_fmc2400 0x41410000).size⟩ = 0x40400000 ∧
    (aspeed_smc_write envNone stFmc2400 0x30 0x41410000).map
      (fun s => s.regs R_SEG_ADDR0) = some 0x48400000 ∧
    (0x48400000 : Nat) ≠ 0x40400000 :=
  ⟨by decide, by decide, by decide, by decide⟩

/-- C6: the AST2500 SPI end-snap guard is dead code.  On
"aspeed.spi1-ast2500" a write of 0x68640000 to the last segment register
(SEG_ADDR1, byte offset 0x34) commits that raw value although its decoded
end 0x34000000 differs from the default segment's end 0x38000000 — the
guard compares `cs` with `max_slaves` (2), but `set_segment` is only ever
reached with `cs < max_slaves`, so the comparison never holds and the end
is never snapped. -/
theorem C6_end_snap_dead :
    ((segTableEntries SegTable.ast2500_spi1).getD 1 ⟨0, 0⟩).addr +
        ((segTableEntries SegTable.ast2500_spi1).getD 1 ⟨0, 0⟩).size = 0x38000000 ∧
    (reg_to_segment ctrl_spi1_2500 0x68640000).addr +
        (reg_to_segment ctrl_spi1_2500 0x68640000).size = 0x34000000 ∧
    (aspeed_smc_write envNone st2500spi1 0x34 0x68640000).map
        (fun s => s.regs (R_SEG_ADDR0 + 1)) = some 0x68640000 ∧
    (0x34000000 : Nat) ≠ 0x38000000 :=
  ⟨by decide, by decide, by decide, by decide⟩

/-- With snooping off, a single-byte user-mode guest write passes the byte
through to the SPI bus unchanged. -/
theorem flash_write_off_passthrough (st : AspeedSMCState) (id addr data : Nat)
    (hoff : st.snoop_index = SNOOP_OFF)
    (hw : aspeed_smc_is_writable st id = true)
    (hm : aspeed_smc_flash_mode st id = CTRL_USERMODE) :
    (aspeed_smc_flash_write st id addr data 1).spiLog = st.spiLog ++ [data &&& 0xff] ∧
    (aspeed_smc_flash_write st id addr data 1).snoop_index = SNOOP_OFF := by
  have hsn : aspeed_smc_do_snoop st id data 1 = (st, false) := by
    unfold aspeed_smc_do_snoop
    dsimp only
    rw [if_pos hoff]
  unfold aspeed_smc_flash_write
  rw [if_neg (not_not_intro hw), if_pos hm, hsn]
  dsimp only
  simp only [pushBytes, pushBytesAux, Nat.mul_zero, Nat.shiftRight_zero, ssi_transfer]
  exact ⟨trivial, hoff⟩

/-- C7 (amended): in User Mode with the snoop tracker at SNOOP_START,
DUMMY_DATA = 0x5A and 3-byte addressing, the FAST_READ opcode 0x0B and the
3 address bytes are transferred as written; the next guest write triggers
the dummy-cycle faking, which transfers **eight** bytes of 0x5A (the
snooper counts `ndummies * 8` transfers for one dummy byte) while the
guest byte itself is dropped; every subsequent single-byte guest write is
passed through unchanged (snooping is off). -/
theorem C7_snoop_fast_read :
    (writeBytes stSnoopUser [0x0B, 0x12, 0x34, 0x56]).spiLog =
      [0x0B, 0x12, 0x34, 0x56] ∧
    (writeBytes stSnoopUser [0x0B, 0x12, 0x34, 0x56, 0x99]).spiLog =
      [0x0B, 0x12, 0x34, 0x56] ++ List.replicate 8 0x5A ∧
    (writeBytes stSnoopUser [0x0B, 0x12, 0x34, 0x56, 0x99]).snoop_index = SNOOP_OFF ∧
    (∀ st id addr data, st.snoop_index = SNOOP_OFF →
      aspeed_smc_is_writable st id = true →
      aspeed_smc_flash_mode st id = CTRL_USERMODE →
      (aspeed_smc_flash_write st id addr data 1).spiLog =
        st.spiLog ++ [data &&& 0xff]) :=
  ⟨by decide, by decide, by decide,
    fun st id addr data hoff hw hm =>
      (flash_write_off_passthrough st id addr data hoff hw hm).1⟩

/-- C7, counterexample: after opcode 0x0B and three address bytes, the
next guest write does **not** cause exactly one SPI transfer of 0x5A — the
drain loop emits eight of them. -/
theorem C7_counterexample :
    (writeBytes stSnoopUser [0x0B, 0x12, 0x34, 0x56, 0x99]).spiLog ≠
      [0x0B, 0x12, 0x34, 0x56, 0x5A] := by
  decide

/-- Or-ing in a mask makes the conjunction with that mask nonzero. -/
theorem or_and_self (x m : Nat) : (x ||| m) &&& m = m := by
  apply Nat.eq_of_testBit_eq
  intro j
  simp only [Nat.testBit_and, Nat.testBit_or]
  cases hm : m.testBit j <;> simp [hm]

/-- Or-ing in bits disjoint from a mask does not change the masked value. -/
theorem or_and_of_disjoint (x a b : Nat) (h : a &&& b = 0) :
    (x ||| a) &&& b = x &&& b := by
  apply Nat.eq_of_testBit_eq
  intro j
  have hj : (a.testBit j && b.testBit j) = false := by
    rw [← Nat.testBit_and, h, Nat.zero_testBit]
  simp only [Nat.testBit_and, Nat.testBit_or]
  cases ha : a.testBit j <;> cases hb : b.testBit j <;>
    first
      | (rw [ha, hb] at hj
         exact absurd hj (by decide))
      | simp [ha, hb]

/-- A write to byte offset 0x80 on a DMA-capable controller routes to
`aspeed_smc_dma_ctrl`. -/
theorem smc_write_dma_route (env : DMAEnv) (st : AspeedSMCState) (data : Nat)
    (hs : ctrlSane st.ctrl) (hnum : st.num_cs ≤ st.ctrl.max_slaves)
    (hdma : st.ctrl.has_dma = true) :
    aspeed_smc_write env st 0x80 data = aspeed_smc_dma_ctrl env st (data % 2 ^ 32) := by
  obtain ⟨s1, s2, s3, s4, s5, s6⟩ := hs
  have hx : (0x80 >>> 2 : Nat) = 32 := by decide
  have hseg : R_SEG_ADDR0 = 12 := rfl
  have h1 : ¬(0x80 >>> 2 = st.ctrl.r_conf ∨ 0x80 >>> 2 = st.ctrl.r_timings ∨
      0x80 >>> 2 = st.ctrl.r_ce_ctrl) := by
    intro hh
    rcases hh with hh | hh | hh <;> omega
  have h2 : ¬(st.ctrl.r_ctrl0 ≤ 0x80 >>> 2 ∧
      0x80 >>> 2 < st.ctrl.r_ctrl0 + st.num_cs) := by
    intro hh
    omega
  have h3 : ¬(R_SEG_ADDR0 ≤ 0x80 >>> 2 ∧
      0x80 >>> 2 < R_SEG_ADDR0 + st.ctrl.max_slaves) := by
    intro hh
    omega
  have h4 : ¬(0x80 >>> 2 = R_DUMMY_DATA) := by decide
  have h5 : ¬(0x80 >>> 2 = R_INTR_CTRL) := by decide
  have h6 : st.ctrl.has_dma = true ∧ (0x80 >>> 2 : Nat) = R_DMA_CTRL :=
    ⟨hdma, by decide⟩
  unfold aspeed_smc_write
  dsimp only
  rw [if_neg h1, if_neg h2, if_neg h3, if_neg h4, if_neg h5, if_pos h6]

/-- Run of the checksum loop: with `DMA_LEN = 4n`, enough fuel and `n`
successful flash reads, the loop accumulates the word sum into
`DMA_CHECKSUM`, advances `DMA_FLASH_ADDR` by `4n` and counts `DMA_LEN`
down to 0, touching nothing else. -/
theorem dmaChecksumLoop_run (env : DMAEnv) :
    ∀ (n : Nat) (F : Nat → Nat) (fuel : Nat) (st : AspeedSMCState), n ≤ fuel →
    st.regs R_DMA_LEN = 4 * n → 4 * n < 2 ^ 32 →
    st.regs R_DMA_FLASH_ADDR < 2 ^ 32 →
    st.regs R_DMA_CHECKSUM < 2 ^ 32 →
    (∀ i, i < n →
      env.flashRead ((st.regs R_DMA_FLASH_ADDR + 4 * i) % 2 ^ 32) = some (F i)) →
    (∀ i, i < n → F i < 2 ^ 32) →
    ∃ st', dmaChecksumLoop env fuel st = some (st', false) ∧
      st'.regs R_DMA_CHECKSUM = (st.regs R_DMA_CHECKSUM + sumWords F n) % 2 ^ 32 ∧
      st'.regs R_DMA_FLASH_ADDR = (st.regs R_DMA_FLASH_ADDR + 4 * n) % 2 ^ 32 ∧
      st'.regs R_DMA_LEN = 0 ∧
      (∀ j, j ≠ R_DMA_CHECKSUM → j ≠ R_DMA_FLASH_ADDR → j ≠ R_DMA_LEN →
        st'.regs j = st.regs j) ∧
      st'.ctrl = st.ctrl ∧ st'.irq = st.irq ∧
      st'.inject_failure = st.inject_failure ∧ st'.snoop_index = st.snoop_index
  | 0, F, fuel, st => by
    intro hf hlen hbound hA hC hreads hF
    refine ⟨st, ?_, ?_, ?_, ?_, fun _ _ _ _ => rfl, rfl, rfl, rfl, rfl⟩
    · cases fuel with
      | zero =>
        unfold dmaChecksumLoop
        rw [if_pos (by omega)]
      | succ fl =>
        rw [dmaChecksumLoop]
        rw [if_pos (by omega)]
    · simp only [sumWords]
      omega
    · omega
    · omega
  | n + 1, F, fuel, st => by
    intro hf hlen hbound hA hC hreads hF
    cases fuel with
    | zero => exact absurd hf (by omega)
    | succ fl =>
      rw [dmaChecksumLoop]
      rw [if_neg (by omega)]
      have h0 := hreads 0 (Nat.succ_pos n)
      have e0 : (st.regs R_DMA_FLASH_ADDR + 4 * 0) % 2 ^ 32 =
          st.regs R_DMA_FLASH_ADDR := by omega
      rw [e0] at h0
      rw [h0]
      have nLC : R_DMA_LEN ≠ R_DMA_CHECKSUM := by decide
      have nLF : R_DMA_LEN ≠ R_DMA_FLASH_ADDR := by decide
      have nFC : R_DMA_FLASH_ADDR ≠ R_DMA_CHECKSUM := by decide
      obtain ⟨st', hrun, e1, e2, e3, e4, e5, e6, e7, e8⟩ :=
        dmaChecksumLoop_run env n (fun i => F (i + 1)) fl
          { st with regs := upd (upd (upd st.regs R_DMA_CHECKSUM ((st.regs R_DMA_CHECKSUM + F 0 % 2 ^ 32) % 2 ^ 32)) R_DMA_FLASH_ADDR ((st.regs R_DMA_FLASH_ADDR + 4) % 2 ^ 32)) R_DMA_LEN ((st.regs R_DMA_LEN + 2 ^ 32 - 4) % 2 ^ 32) }
          (by omega)
          (by dsimp only; rw [upd_at]; omega)
          (by omega)
          (by dsimp only
              rw [upd_ne _ _ _ _ nLF.symm, upd_at]
              omega)
          (by dsimp only
              rw [upd_ne _ _ _ _ nLC.symm, upd_ne _ _ _ _ nFC.symm, upd_at]
              omega)
          (by intro i hi
              dsimp only
              rw [upd_ne _ _ _ _ nLF.symm, upd_at]
              have hr := hreads (i + 1) (by omega)
              have e : ((st.regs R_DMA_FLASH_ADDR + 4) % 2 ^ 32 + 4 * i) % 2 ^ 32 =
                  (st.regs R_DMA_FLASH_ADDR + 4 * (i + 1)) % 2 ^ 32 := by omega
              rw [e]
              exact hr)
          (fun i hi => hF (i + 1) (by omega))
      refine ⟨st', hrun, ?_, ?_, e3, ?_, e5, e6, e7, e8⟩
      · rw [e1]
        dsimp only
        rw [upd_ne _ _ _ _ nLC.symm, upd_ne _ _ _ _ nFC.symm, upd_at]
        have hsum : sumWords F (n + 1) = F 0 + sumWords (fun i => F (i + 1)) n := rfl
        rw [hsum]
        omega
      · rw [e2]
        dsimp only
        rw [upd_ne _ _ _ _ nLF.symm, upd_at]
        omega
      · intro j j1 j2 j3
        rw [e4 j j1 j2 j3]
        dsimp only
        rw [upd_ne _ _ _ _ j3, upd_ne _ _ _ _ j2, upd_ne _ _ _ _ j1]

/-- C1 (amended): on a DMA-capable variant, a DMA_CTRL write with ENABLE
and CKSUM set, WRITE and CALIB clear, performs the checksum operation —
**provided** no DMA operation is already in progress (otherwise the write
is ignored) — leaving `DMA_CHECKSUM = (Σ F[i]) mod 2^32`,
`DMA_FLASH_ADDR` advanced by `4n` (mod 2^32), `DMA_LEN = 0` and the
DMA_STATUS bit of INTR_CTRL set; **starting from a lowered IRQ**, the IRQ
is raised iff the DMA_EN bit of INTR_CTRL was set. -/
theorem C1_dma_checksum_write (c : AspeedSMCController) (hc : c ∈ controllers)
    (st : AspeedSMCState) (env : DMAEnv) (F : Nat → Nat) (n value : Nat)
    (hctrl : st.ctrl = c) (hdma : c.has_dma = true)
    (hnum : st.num_cs ≤ c.max_slaves)
    (hprog : aspeed_smc_dma_in_progress st = false)
    (hirq : st.irq = false)
    (hinj : st.inject_failure = false)
    (hck0 : st.regs R_DMA_CHECKSUM = 0)
    (hlen : st.regs R_DMA_LEN = 4 * n) (hn : 4 * n < 2 ^ 32)
    (hA : st.regs R_DMA_FLASH_ADDR < 2 ^ 32)
    (hvlt : value < 2 ^ 32)
    (hvE : value &&& DMA_CTRL_ENABLE ≠ 0)
    (hvK : value &&& DMA_CTRL_CKSUM ≠ 0)
    (hvW : value &&& DMA_CTRL_WRITE = 0)
    (hvB : value &&& DMA_CTRL_CALIB = 0)
    (hreads : ∀ i, i < n →
      env.flashRead ((st.regs R_DMA_FLASH_ADDR + 4 * i) % 2 ^ 32) = some (F i))
    (hF : ∀ i, i < n → F i < 2 ^ 32) :
    ∃ st', aspeed_smc_write env st 0x80 value = some st' ∧
      st'.regs R_DMA_CHECKSUM = sumWords F n % 2 ^ 32 ∧
      st'.regs R_DMA_FLASH_ADDR = (st.regs R_DMA_FLASH_ADDR + 4 * n) % 2 ^ 32 ∧
      st'.regs R_DMA_LEN = 0 ∧
      st'.regs R_INTR_CTRL &&& INTR_CTRL_DMA_STATUS ≠ 0 ∧
      (st'.irq = true ↔ st.regs R_INTR_CTRL &&& INTR_CTRL_DMA_EN ≠ 0) := by
  have hs : ctrlSane st.ctrl := by
    rw [hctrl]
    exact controllers_sane c hc
  have hnum' : st.num_cs ≤ st.ctrl.max_slaves := by
    rw [hctrl]
    exact hnum
  have hv : value % 2 ^ 32 = value := Nat.mod_eq_of_lt hvlt
  have nLC : R_DMA_LEN ≠ R_DMA_CHECKSUM := by decide
  have nLF : R_DMA_LEN ≠ R_DMA_FLASH_ADDR := by decide
  have nFC : R_DMA_FLASH_ADDR ≠ R_DMA_CHECKSUM := by decide
  have nTC : R_DMA_CTRL ≠ R_DMA_CHECKSUM := by decide
  have nTF : R_DMA_CTRL ≠ R_DMA_FLASH_ADDR := by decide
  have nTL : R_DMA_CTRL ≠ R_DMA_LEN := by decide
  have nIC : R_INTR_CTRL ≠ R_DMA_CHECKSUM := by decide
  have nIF : R_INTR_CTRL ≠ R_DMA_FLASH_ADDR := by decide
  have nIL : R_INTR_CTRL ≠ R_DMA_LEN := by decide
  have nIT : R_INTR_CTRL ≠ R_DMA_CTRL := by decide
  rw [smc_write_dma_route env st value hs hnum' (hctrl ▸ hdma), hv]
  unfold aspeed_smc_dma_ctrl
  rw [if_neg hvE, if_neg (by rw [hprog]; exact Bool.false_ne_true)]
  dsimp only
  rw [if_pos (show upd st.regs R_DMA_CTRL value R_DMA_CTRL &&& DMA_CTRL_CKSUM ≠ 0 by
    rw [upd_at]; exact hvK)]
  obtain ⟨st2, hloop, e1, e2, e3, e4, e5, e6, e7, e8⟩ :=
    dmaChecksumLoop_run env n F
      (upd st.regs R_DMA_CTRL value R_DMA_LEN)
      { st with regs := upd st.regs R_DMA_CTRL value }
      (by rw [upd_ne _ _ _ _ (Ne.symm nTL), hlen]; omega)
      (by dsimp only; rw [upd_ne _ _ _ _ (Ne.symm nTL)]; exact hlen)
      hn
      (by dsimp only; rw [upd_ne _ _ _ _ (Ne.symm nTF)]; exact hA)
      (by dsimp only; rw [upd_ne _ _ _ _ (Ne.symm nTC)]; omega)
      (by intro i hi
          dsimp only
          rw [upd_ne _ _ _ _ (Ne.symm nTF)]
          exact hreads i hi)
      hF
  have hchk : aspeed_smc_dma_checksum env
      { st with regs := upd st.regs R_DMA_CTRL value } = some st2 := by
    unfold aspeed_smc_dma_checksum
    dsimp only
    rw [upd_at]
    rw [if_neg (fun hh => hh hvW), if_neg (fun hh => hh hvB), hloop]
    dsimp only
    rw [if_neg Bool.false_ne_true]
    rw [if_neg (show ¬ (st2.inject_failure = true ∧
        aspeed_smc_inject_read_failure st2 = true) by
      intro hh
      have hif : st2.inject_failure = false := by
        rw [e7]
        exact hinj
      rw [hif] at hh
      exact Bool.false_ne_true hh.1)]
  rw [hchk]
  obtain ⟨bdone, hdone⟩ := dma_done_shape st2
  have hINTR : st2.regs R_INTR_CTRL = st.regs R_INTR_CTRL := by
    rw [e4 R_INTR_CTRL nIC nIF nIL]
    dsimp only
    rw [upd_ne _ _ _ _ nIT]
  have hirq2 : st2.irq = false := by
    rw [e6]
    exact hirq
  have hdis : INTR_CTRL_DMA_STATUS &&& INTR_CTRL_DMA_EN = 0 := by decide
  have hdone_irq : (aspeed_smc_dma_done st2).irq = true ↔
      st.regs R_INTR_CTRL &&& INTR_CTRL_DMA_EN ≠ 0 := by
    unfold aspeed_smc_dma_done
    dsimp only
    split
    · rename_i hcnd
      rw [upd_at, hINTR, or_and_of_disjoint _ _ _ hdis] at hcnd
      exact ⟨fun _ => hcnd, fun _ => rfl⟩
    · rename_i hcnd
      rw [upd_at, hINTR, or_and_of_disjoint _ _ _ hdis] at hcnd
      constructor
      · intro hh
        rw [hirq2] at hh
        exact absurd hh Bool.false_ne_true
      · intro hh
        exact absurd hh hcnd
  refine ⟨aspeed_smc_dma_done st2, rfl, ?_, ?_, ?_, ?_, hdone_irq⟩
  · rw [hdone]
    dsimp only
    rw [upd_ne _ _ _ _ (Ne.symm nIC), e1]
    dsimp only
    rw [upd_ne _ _ _ _ (Ne.symm nTC), hck0]
    omega
  · rw [hdone]
    dsimp only
    rw [upd_ne _ _ _ _ (Ne.symm nIF), e2]
    dsimp only
    rw [upd_ne _ _ _ _ (Ne.symm nTF)]
  · rw [hdone]
    dsimp only
    rw [upd_ne _ _ _ _ (Ne.symm nIL), e3]
  · rw [hdone]
    dsimp only
    rw [upd_at, or_and_self]
    decide

/-- Witness for `C1_dma_checksum_write`: the fresh AST2400 FMC with
`DMA_LEN = 8`, an oracle whose flash reads return 7, and a DMA_CTRL write
of ENABLE|CKSUM. -/
theorem C1_dma_checksum_write_witness :
    ∃ st', aspeed_smc_write env7 stDma 0x80 5 = some st' ∧
      st'.regs R_DMA_CHECKSUM = sumWords (fun _ => 7) 2 % 2 ^ 32 ∧
      st'.regs R_DMA_FLASH_ADDR = (stDma.regs R_DMA_FLASH_ADDR + 4 * 2) % 2 ^ 32 ∧
      st'.regs R_DMA_LEN = 0 ∧
      st'.regs R_INTR_CTRL &&& INTR_CTRL_DMA_STATUS ≠ 0 ∧
      (st'.irq = true ↔ stDma.regs R_INTR_CTRL &&& INTR_CTRL_DMA_EN ≠ 0) :=
  C1_dma_checksum_write ctrl_fmc2400 (by decide) stDma env7 (fun _ => 7) 2 5
    (by decide) (by decide) (by decide) (by decide) (by decide) (by decide)
    (by decide) (by decide) (by decide) (by decide) (by decide) (by decide)
    (by decide) (by decide) (by decide) (fun i _ => rfl)
    (fun _ _ => (by decide : (7 : Nat) < 2 ^ 32))

/-- C1, counterexample: with a DMA checksum operation already in progress
(ENABLE set in DMA_CTRL, DMA_STATUS still clear in INTR_CTRL), the very
same DMA_CTRL write is ignored: the state is returned unchanged and no
checksum is computed. -/
theorem C1_counterexample :
    aspeed_smc_dma_in_progress stProg = true ∧
    (aspeed_smc_write env7 stProg 0x80 5).map (fun s => s.regs R_DMA_CHECKSUM) =
      some 0 ∧
    (aspeed_smc_write env7 stProg 0x80 5).map (fun s => s.regs R_DMA_LEN) =
      some 8 ∧
    (aspeed_smc_write env7 stProg 0x80 5).map (fun s => s.regs R_DMA_CTRL) =
      some 1 :=
  ⟨by decide, by decide, by decide, by decide⟩

/-! ### I2C interrupt-aggregation machinery -/

theorem or_and_distrib (x y c : Nat) : (x ||| y) &&& c = (x &&& c) ||| (y &&& c) := by
  apply Nat.eq_of_testBit_eq
  intro j
  simp only [Nat.testBit_and, Nat.testBit_or]
  cases hx : x.testBit j <;> cases hy : y.testBit j <;> cases hc : c.testBit j <;> rfl

theorem and_mask_idem (x c : Nat) : (x &&& c) &&& c = x &&& c := by
  rw [Nat.and_assoc, Nat.and_self]

theorem and_clear_subset (x M c : Nat) (h : x &&& c = x) :
    (x &&& M) &&& c = x &&& M := by
  rw [Nat.and_assoc, Nat.and_comm M c, ← Nat.and_assoc, h]

theorem lor_eq_zero {x y : Nat} (h : x ||| y = 0) : x = 0 ∧ y = 0 := by
  constructor <;>
    (apply Nat.eq_of_testBit_eq
     intro k
     have hk := congrArg (fun t => Nat.testBit t k) h
     simp only [Nat.testBit_or, Nat.zero_testBit] at hk
     rcases Bool.or_eq_false_iff.mp hk with ⟨h1, h2⟩
     simp [h1, h2, Nat.zero_testBit])

theorem testBit_or_pow (x i : Nat) : (x ||| 1 <<< i).testBit i = true := by
  rw [Nat.testBit_or]
  have h : (1 <<< i).testBit i = true := by
    rw [Nat.shiftLeft_eq, one_mul]
    exact Nat.testBit_two_pow_self
  rw [h, Bool.or_true]

theorem testBit_or_pow_ne (x i j : Nat) (h : j ≠ i) :
    (x ||| 1 <<< i).testBit j = x.testBit j := by
  rw [Nat.testBit_or]
  have h2 : (1 <<< i).testBit j = false := by
    rw [Nat.shiftLeft_eq, one_mul]
    exact Nat.testBit_two_pow_of_ne (Ne.symm h)
  rw [h2, Bool.or_false]

theorem testBit_ff32 (i : Nat) (hi : i < 32) : (0xffffffff : Nat).testBit i = true := by
  have h : (0xffffffff : Nat) = 2 ^ 32 - 1 := by norm_num
  rw [h, Nat.testBit_two_pow_sub_one]
  simp [hi]

theorem testBit_clear_self (x i : Nat) (hi : i < 32) :
    (x &&& (0xffffffff ^^^ 1 <<< i)).testBit i = false := by
  rw [Nat.testBit_and, Nat.testBit_xor, testBit_ff32 i hi]
  have h2 : (1 <<< i).testBit i = true := by
    rw [Nat.shiftLeft_eq, one_mul]
    exact Nat.testBit_two_pow_self
  rw [h2]
  simp

theorem testBit_clear_ne (x i j : Nat) (hj : j < 32) (h : j ≠ i) :
    (x &&& (0xffffffff ^^^ 1 <<< i)).testBit j = x.testBit j := by
  rw [Nat.testBit_and, Nat.testBit_xor, testBit_ff32 j hj]
  have h2 : (1 <<< i).testBit j = false := by
    rw [Nat.shiftLeft_eq, one_mul]
    exact Nat.testBit_two_pow_of_ne (Ne.symm h)
  rw [h2]
  simp

theorem localMono_refl (s : AspeedI2CState) (i : Nat) : LocalMono s s i :=
  ⟨rfl, rfl, fun _ _ => rfl, rfl, 0, (Nat.or_zero _).symm⟩

theorem localMono_trans {s1 s2 s3 : AspeedI2CState} {i : Nat}
    (h12 : LocalMono s1 s2 i) (h23 : LocalMono s2 s3 i) : LocalMono s1 s3 i := by
  obtain ⟨a1, a2, a3, a4, m1, a5⟩ := h12
  obtain ⟨b1, b2, b3, b4, m2, b5⟩ := h23
  refine ⟨b1.trans a1, b2.trans a2, fun j hj => (b3 j hj).trans (a3 j hj),
    b4.trans a4, m1 ||| m2, ?_⟩
  rw [b5, a5, Nat.or_assoc]

theorem localMono_updBus (s : AspeedI2CState) (i : Nat) (b : AspeedI2CBusState)
    (hc : b.intr_ctrl = (s.busses i).intr_ctrl)
    (hs : ∃ m, b.intr_status = (s.busses i).intr_status ||| m) :
    LocalMono s { s with busses := updf s.busses i b } i := by
  obtain ⟨m, hm⟩ := hs
  refine ⟨rfl, rfl, fun j hj => updf_ne _ _ _ _ hj, ?_, m, ?_⟩
  · show (updf s.busses i b i).intr_ctrl = _
    rw [updf_at, hc]
  · show (updf s.busses i b i).intr_status = _
    rw [updf_at, hm]

theorem localMono_setBusState (s : AspeedI2CState) (i v : Nat) :
    LocalMono s (setBusState s i v) i := by
  unfold setBusState
  exact localMono_updBus s i _ rfl ⟨0, (Nat.or_zero _).symm⟩

theorem localMono_orStatus (s : AspeedI2CState) (i m : Nat) :
    LocalMono s (orStatus s i m) i := by
  unfold orStatus
  exact localMono_updBus s i _ rfl ⟨m, rfl⟩

theorem localMono_clearCmdBits (s : AspeedI2CState) (i m : Nat) :
    LocalMono s (clearCmdBits s i m) i := by
  unfold clearCmdBits
  exact localMono_updBus s i _ rfl ⟨0, (Nat.or_zero _).symm⟩

theorem localMono_i2c_send (env : I2CSlaveEnv) (s : AspeedI2CState) (i b : Nat) :
    LocalMono s (i2c_send env s i b).1 i :=
  ⟨rfl, rfl, fun _ _ => rfl, rfl, 0, (Nat.or_zero _).symm⟩

theorem localMono_i2c_recv (env : I2CSlaveEnv) (s : AspeedI2CState) (i : Nat) :
    LocalMono s (i2c_recv env s i).1 i :=
  ⟨rfl, rfl, fun _ _ => rfl, rfl, 0, (Nat.or_zero _).symm⟩

theorem localMono_end_transfer (s : AspeedI2CState) (i : Nat) :
    LocalMono s (i2c_end_transfer s i) i :=
  ⟨rfl, rfl, fun _ _ => rfl, rfl, 0, (Nat.or_zero _).symm⟩

theorem localMono_start_transfer (env : I2CSlaveEnv) (s : AspeedI2CState)
    (i addr : Nat) (r : Bool) :
    LocalMono s (i2c_start_transfer env s i addr r).1 i := by
  unfold i2c_start_transfer
  split
  · exact ⟨rfl, rfl, fun _ _ => rfl, rfl, 0, (Nat.or_zero _).symm⟩
  · exact localMono_refl s i

theorem localMono_sendPoolAux (env : I2CSlaveEnv) (i base : Nat) :
    ∀ (k n : Nat) (s : AspeedI2CState), LocalMono s (sendPoolAux env i base k n s).1 i
  | _, 0, s => localMono_refl s i
  | k, n + 1, s => by
    have h1 := localMono_i2c_send env s i (s.pool (base + k))
    unfold sendPoolAux
    cases hr : i2c_send env s i (s.pool (base + k)) with
    | mk s1 b =>
      rw [hr] at h1
      cases b
      · exact localMono_trans h1 (localMono_sendPoolAux env i base (k + 1) n s1)
      · exact h1

theorem localMono_recvPoolAux (env : I2CSlaveEnv) (i base : Nat) :
    ∀ (k n : Nat) (s : AspeedI2CState), LocalMono s (recvPoolAux env i base k n s) i
  | _, 0, s => localMono_refl s i
  | k, n + 1, s => by
    unfold recvPoolAux
    refine localMono_trans ?_ (localMono_recvPoolAux env i base (k + 1) n _)
    exact ⟨rfl, rfl, fun _ _ => rfl, rfl, 0, (Nat.or_zero _).symm⟩

theorem localMono_bus_send (aic : AspeedI2CClassDesc) (env : I2CSlaveEnv)
    (s : AspeedI2CState) (i : Nat) :
    LocalMono s (aspeed_i2c_bus_send aic env s i).1 i := by
  unfold aspeed_i2c_bus_send
  dsimp only
  split
  · exact localMono_trans (localMono_sendPoolAux env i _ 0 _ s)
      (localMono_clearCmdBits _ i _)
  · exact localMono_i2c_send env s i _

theorem localMono_bus_recv (aic : AspeedI2CClassDesc) (env : I2CSlaveEnv)
    (s : AspeedI2CState) (i : Nat) :
    LocalMono s (aspeed_i2c_bus_recv aic env s i) i := by
  unfold aspeed_i2c_bus_recv
  dsimp only
  split
  · exact localMono_trans
      (localMono_recvPoolAux env i (bus_pool_base aic (s.busses i) i) 0
        (((s.busses i).pool_ctrl >>> 16 &&& 0xff) + 1) s)
      (localMono_updBus _ i _ rfl ⟨0, (Nat.or_zero _).symm⟩)
  · exact localMono_trans (localMono_i2c_recv env s i)
      (localMono_updBus _ i _ rfl ⟨0, (Nat.or_zero _).symm⟩)

theorem localMono_handle_rx (aic : AspeedI2CClassDesc) (env : I2CSlaveEnv)
    (s : AspeedI2CState) (i : Nat) :
    LocalMono s (aspeed_i2c_handle_rx_cmd aic env s i) i := by
  unfold aspeed_i2c_handle_rx_cmd
  exact localMono_trans (localMono_setBusState s i _)
    (localMono_trans (localMono_bus_recv aic env _ i)
      (localMono_trans (localMono_orStatus _ i _)
        (localMono_trans (localMono_clearCmdBits _ i _)
          (localMono_setBusState _ i _))))

theorem localMono_ite (s : AspeedI2CState) (i : Nat) (c : Prop) [Decidable c]
    (a b : AspeedI2CState) (ha : LocalMono s a i) (hb : LocalMono s b i) :
    LocalMono s (if c then a else b) i := by
  split
  · exact ha
  · exact hb

theorem localMono_txPhase (aic : AspeedI2CClassDesc) (env : I2CSlaveEnv)
    (s : AspeedI2CState) (i : Nat) :
    LocalMono s (i2cTxPhase aic env s i) i := by
  unfold i2cTxPhase
  dsimp only
  exact localMono_ite s i _ _ _
    (localMono_trans (localMono_setBusState s i _)
      (localMono_trans (localMono_bus_send aic env _ i)
        (localMono_trans
          (localMono_ite _ i _ _ _
            (localMono_trans (localMono_orStatus _ i _) (localMono_end_transfer _ i))
            (localMono_orStatus _ i _))
          (localMono_trans (localMono_clearCmdBits _ i _) (localMono_setBusState _ i _)))))
    (localMono_refl s i)

theorem localMono_rxPhase (aic : AspeedI2CClassDesc) (env : I2CSlaveEnv)
    (s : AspeedI2CState) (i : Nat) :
    LocalMono s (i2cRxPhase aic env s i) i := by
  unfold i2cRxPhase
  exact localMono_ite s i _ _ _ (localMono_handle_rx aic env s i) (localMono_refl s i)

theorem localMono_stopPhase (s : AspeedI2CState) (i : Nat) :
    LocalMono s (i2cStopPhase s i) i := by
  unfold i2cStopPhase
  dsimp only
  exact localMono_ite s i _ _ _
    (localMono_trans
      (localMono_ite s i _ _ _
        (localMono_orStatus s i _)
        (localMono_trans (localMono_setBusState s i _)
          (localMono_trans (localMono_end_transfer _ i) (localMono_orStatus _ i _))))
      (localMono_trans (localMono_clearCmdBits _ i _) (localMono_setBusState _ i _)))
    (localMono_refl s i)

theorem localMono_phases (aic : AspeedI2CClassDesc) (env : I2CSlaveEnv)
    (s : AspeedI2CState) (i : Nat) :
    LocalMono s (i2cCmdPhases aic env s i) i := by
  unfold i2cCmdPhases
  exact localMono_trans (localMono_txPhase aic env s i)
    (localMono_trans (localMono_rxPhase aic env _ i) (localMono_stopPhase _ i))

theorem localMono_handle_cmd (aic : AspeedI2CClassDesc) (env : I2CSlaveEnv)
    (s : AspeedI2CState) (i value : Nat) :
    LocalMono s (aspeed_i2c_bus_handle_cmd aic env s i value) i := by
  unfold aspeed_i2c_bus_handle_cmd
  dsimp only
  have h0 : ∀ c : Nat, LocalMono s
      { s with busses := updf s.busses i { s.busses i with cmd := c } } i :=
    fun _ => localMono_updBus s i _ rfl ⟨0, (Nat.or_zero _).symm⟩
  exact localMono_ite s i _ _ _
    (localMono_trans (h0 _)
      (localMono_trans (localMono_setBusState _ i _)
        (localMono_trans (localMono_start_transfer env _ i _ _)
          (localMono_trans
            (localMono_ite _ i _ _ _ (localMono_orStatus _ i _) (localMono_orStatus _ i _))
            (localMono_trans (localMono_clearCmdBits _ i _)
              (localMono_ite _ i _ _ _ (localMono_refl _ i)
                (localMono_trans (localMono_setBusState _ i _)
                  (localMono_phases aic env _ i))))))))
    (localMono_trans (h0 _) (localMono_phases aic env _ i))

theorem and_ne_zero_left {x M : Nat} (h : x &&& M ≠ 0) : x ≠ 0 := by
  intro h0
  rw [h0, Nat.zero_and] at h
  exact h rfl

theorem inv_updBus (aic : AspeedI2CClassDesc) (s : AspeedI2CState) (i : Nat)
    (b : AspeedI2CBusState)
    (hcs : b.intr_ctrl = (s.busses i).intr_ctrl)
    (hss : b.intr_status = (s.busses i).intr_status)
    (hinv : I2CInv aic s) :
    I2CInv aic { s with busses := updf s.busses i b } := by
  intro j hj
  dsimp only
  by_cases hji : j = i
  · subst hji
    rw [updf_at, hcs, hss]
    exact hinv j hj
  · rw [updf_ne _ _ _ _ hji]
    exact hinv j hj

/-- `aspeed_i2c_bus_raise_interrupt` restores the aggregation invariant
after any bus-local operation on bus `i` (the mask-and-raise at the end of
every command path is what keeps the controller status consistent). -/
theorem raise_restores (aic : AspeedI2CClassDesc) (s s' : AspeedI2CState) (i : Nat)
    (hi : i < aic.num_busses)
    (hinv : I2CInv aic s) (hm : LocalMono s s' i) :
    I2CInv aic (aspeed_i2c_bus_raise_interrupt aic s' i) := by
  obtain ⟨c1, c2, c3, c4, m, c5⟩ := hm
  have emask : (s'.busses i).intr_status &&& (s'.busses i).intr_ctrl
      = (s.busses i).intr_status ||| (m &&& (s.busses i).intr_ctrl) := by
    rw [c5, c4, or_and_distrib, (hinv i hi).2]
  unfold aspeed_i2c_bus_raise_interrupt
  dsimp only
  by_cases hz : (s'.busses i).intr_status &&& (s'.busses i).intr_ctrl = 0
  · rw [if_neg (fun hh => hh hz)]
    intro j hj
    dsimp only
    by_cases hji : j = i
    · subst hji
      rw [updf_at]
      dsimp only
      have hs0 : (s.busses j).intr_status = 0 := by
        rw [emask] at hz
        exact (lor_eq_zero hz).1
      refine ⟨?_, and_mask_idem _ _⟩
      rw [c1]
      constructor
      · intro hb
        exact absurd hs0 ((hinv j hj).1.mp hb)
      · intro hne
        exact absurd hz hne
    · rw [updf_ne _ _ _ _ hji, c3 j hji, c1]
      exact hinv j hj
  · rw [if_pos hz]
    intro j hj
    dsimp only
    by_cases hji : j = i
    · subst hji
      rw [updf_at]
      dsimp only
      refine ⟨?_, and_mask_idem _ _⟩
      constructor
      · intro _
        exact hz
      · intro _
        exact testBit_or_pow _ _
    · rw [updf_ne _ _ _ _ hji, c3 j hji, testBit_or_pow_ne _ _ _ hji, c1]
      exact hinv j hj

theorem inv_clearBit (aic : AspeedI2CClassDesc) (s : AspeedI2CState) (i M : Nat)
    (hn : aic.num_busses ≤ 32) (hi : i < aic.num_busses)
    (hinv : I2CInv aic s)
    (hb0 : (s.busses i).intr_status &&& M = 0) :
    I2CInv aic
      { s with
        busses := updf s.busses i
          { s.busses i with intr_status := (s.busses i).intr_status &&& M },
        intr_status := s.intr_status &&& (0xffffffff ^^^ (1 <<< i)),
        irqLines := updf s.irqLines (busIrqIndex aic i) false } := by
  intro j hj
  dsimp only
  by_cases hji : j = i
  · subst hji
    rw [updf_at]
    dsimp only
    refine ⟨?_, and_clear_subset _ _ _ (hinv j hj).2⟩
    constructor
    · intro hb
      rw [testBit_clear_self _ _ (Nat.lt_of_lt_of_le hj hn)] at hb
      exact absurd hb Bool.false_ne_true
    · intro hne
      exact absurd hb0 hne
  · rw [updf_ne _ _ _ _ hji, testBit_clear_ne _ i j (Nat.lt_of_lt_of_le hj hn) hji]
    exact hinv j hj

theorem inv_maskStatus (aic : AspeedI2CClassDesc) (s : AspeedI2CState) (i M : Nat)
    (hinv : I2CInv aic s)
    (hne : (s.busses i).intr_status &&& M ≠ 0) :
    I2CInv aic
      { s with
        busses := updf s.busses i
          { s.busses i with intr_status := (s.busses i).intr_status &&& M } } := by
  intro j hj
  dsimp only
  by_cases hji : j = i
  · subst hji
    rw [updf_at]
    dsimp only
    refine ⟨?_, and_clear_subset _ _ _ (hinv j hj).2⟩
    constructor
    · intro _
      exact hne
    · intro _
      exact (hinv j hj).1.mpr (and_ne_zero_left hne)
  · rw [updf_ne _ _ _ _ hji]
    exact hinv j hj

/-- C4 (corrected): every per-bus MMIO write preserves the aggregation
invariant `I2CInv`, PROVIDED a write to INTR_CTRL only happens while the
bus has no pending status bits; under the invariant, bit `j` of the
controller-level status equals `(bus[j].intr_status & bus[j].intr_ctrl) != 0`
for every bus `j`.  (Without the proviso the claim is false: an INTR_CTRL
write never updates the controller-level status, see `C4_counterexample`.) -/
theorem C4_intr_aggregation (aic : AspeedI2CClassDesc) (env : I2CSlaveEnv)
    (s : AspeedI2CState) (i offset value : Nat)
    (hn : aic.num_busses ≤ 32) (hi : i < aic.num_busses)
    (hinv : I2CInv aic s)
    (hd : offset = I2CD_INTR_CTRL_REG → (s.busses i).intr_status = 0) :
    I2CInv aic (aspeed_i2c_bus_write aic env s i offset value) ∧
    ∀ j, j < aic.num_busses →
      (Nat.testBit (aspeed_i2c_bus_write aic env s i offset value).intr_status j = true ↔
        ((aspeed_i2c_bus_write aic env s i offset value).busses j).intr_status &&&
        ((aspeed_i2c_bus_write aic env s i offset value).busses j).intr_ctrl ≠ 0) := by
  have hpres : I2CInv aic (aspeed_i2c_bus_write aic env s i offset value) := by
    unfold aspeed_i2c_bus_write
    by_cases h1 : offset = I2CD_FUN_CTRL_REG
    · rw [if_pos h1]
      dsimp only
      split
      · exact hinv
      · exact inv_updBus aic s i _ rfl rfl hinv
    · rw [if_neg h1]
      by_cases h2 : offset = I2CD_AC_TIMING_REG1
      · rw [if_pos h2]
        exact inv_updBus aic s i _ rfl rfl hinv
      · rw [if_neg h2]
        by_cases h3 : offset = I2CD_AC_TIMING_REG2
        · rw [if_pos h3]
          exact inv_updBus aic s i _ rfl rfl hinv
        · rw [if_neg h3]
          by_cases h4 : offset = I2CD_INTR_CTRL_REG
          · rw [if_pos h4]
            have h0 := hd h4
            intro j hj
            dsimp only
            by_cases hji : j = i
            · subst hji
              rw [updf_at]
              dsimp only
              refine ⟨(hinv j hj).1, ?_⟩
              rw [h0, Nat.zero_and]
            · rw [updf_ne _ _ _ _ hji]
              exact hinv j hj
          · rw [if_neg h4]
            by_cases h5 : offset = I2CD_INTR_STS_REG
            · rw [if_pos h5]
              dsimp only
              by_cases hb0 : (s.busses i).intr_status &&&
                  (0xffffffff ^^^ (value &&& 0x7FFF)) = 0
              · rw [if_pos hb0]
                split
                · exact raise_restores aic _ _ i hi
                    (inv_clearBit aic s i _ hn hi hinv hb0)
                    (localMono_handle_rx aic env _ i)
                · exact inv_clearBit aic s i _ hn hi hinv hb0
              · rw [if_neg hb0]
                split
                · exact raise_restores aic _ _ i hi
                    (inv_maskStatus aic s i _ hinv hb0)
                    (localMono_handle_rx aic env _ i)
                · exact inv_maskStatus aic s i _ hinv hb0
            · rw [if_neg h5]
              by_cases h6 : offset = I2CD_DEV_ADDR_REG
              · rw [if_pos h6]
                exact hinv
              · rw [if_neg h6]
                by_cases h7 : offset = I2CD_POOL_CTRL_REG
                · rw [if_pos h7]
                  exact inv_updBus aic s i _ rfl rfl hinv
                · rw [if_neg h7]
                  by_cases h8 : offset = I2CD_BYTE_BUF_REG
                  · rw [if_pos h8]
                    exact inv_updBus aic s i _ rfl rfl hinv
                  · rw [if_neg h8]
                    by_cases h9 : offset = I2CD_CMD_REG
                    · rw [if_pos h9]
                      split
                      · exact hinv
                      · split
                        · exact hinv
                        · exact raise_restores aic s _ i hi hinv
                            (localMono_handle_cmd aic env s i value)
                    · rw [if_neg h9]
                      exact hinv
  refine ⟨hpres, fun j hj => ?_⟩
  obtain ⟨ha, hb⟩ := hpres j hj
  rw [hb]
  exact ha

/-- Witness for `C4_intr_aggregation`: a CMD write on bus 0 of a fresh
AST2400 controller. -/
theorem C4_intr_aggregation_witness :
    I2CInv aic2400 (aspeed_i2c_bus_write aic2400 env9 (i2cInitialState aic2400) 0
      I2CD_CMD_REG 9) ∧
    ∀ j, j < aic2400.num_busses →
      (Nat.testBit (aspeed_i2c_bus_write aic2400 env9 (i2cInitialState aic2400) 0
          I2CD_CMD_REG 9).intr_status j = true ↔
        ((aspeed_i2c_bus_write aic2400 env9 (i2cInitialState aic2400) 0
          I2CD_CMD_REG 9).busses j).intr_status &&&
        ((aspeed_i2c_bus_write aic2400 env9 (i2cInitialState aic2400) 0
          I2CD_CMD_REG 9).busses j).intr_ctrl ≠ 0) :=
  C4_intr_aggregation aic2400 env9 (i2cInitialState aic2400) 0 I2CD_CMD_REG 9
    (by decide) (by decide) (by decide) (by decide)

/-- C4's unqualified claim is false: after the scenario-1 prefix (bus 0 has
pending status 0x5 and controller bit 0 set), a guest write of 0 to
INTR_CTRL leaves bit 0 of the controller-level status set even though
`bus[0].intr_status & bus[0].intr_ctrl` is now 0. -/
theorem C4_counterexample :
    Nat.testBit (aspeed_i2c_bus_write aic2400 env9 i2cScenario1 0
      I2CD_INTR_CTRL_REG 0).intr_status 0 = true ∧
    ((aspeed_i2c_bus_write aic2400 env9 i2cScenario1 0
      I2CD_INTR_CTRL_REG 0).busses 0).intr_status &&&
    ((aspeed_i2c_bus_write aic2400 env9 i2cScenario1 0
      I2CD_INTR_CTRL_REG 0).busses 0).intr_ctrl = 0 := by
  constructor
  · decide
  · decide

theorem setBusState_busAt (s : AspeedI2CState) (i v : Nat) :
    (setBusState s i v).busses i = aspeed_i2c_set_state (s.busses i) v := by
  unfold setBusState
  dsimp only
  exact updf_at _ _ _

theorem orStatus_busAt (s : AspeedI2CState) (i m : Nat) :
    (orStatus s i m).busses i
      = { s.busses i with intr_status := (s.busses i).intr_status ||| m } := by
  unfold orStatus
  dsimp only
  exact updf_at _ _ _

theorem clearCmdBits_busAt (s : AspeedI2CState) (i m : Nat) :
    (clearCmdBits s i m).busses i
      = { s.busses i with cmd := (s.busses i).cmd &&& (0xffffffff ^^^ m) } := by
  unfold clearCmdBits
  dsimp only
  exact updf_at _ _ _

theorem setBusState_recvCount (s : AspeedI2CState) (i v : Nat) :
    (setBusState s i v).recvCount = s.recvCount := rfl

theorem orStatus_recvCount (s : AspeedI2CState) (i m : Nat) :
    (orStatus s i m).recvCount = s.recvCount := rfl

theorem clearCmdBits_recvCount (s : AspeedI2CState) (i m : Nat) :
    (clearCmdBits s i m).recvCount = s.recvCount := rfl

/-- In byte-buffer mode, `aspeed_i2c_bus_recv` latches the oracle's next
byte into the high byte of BYTE_BUF and bumps the receive counter. -/
theorem busRecv_byteAt (aic : AspeedI2CClassDesc) (env : I2CSlaveEnv)
    (s : AspeedI2CState) (i : Nat)
    (hB : (s.busses i).cmd &&& I2CD_RX_BUFF_ENABLE = 0) :
    (aspeed_i2c_bus_recv aic env s i).busses i
      = { s.busses i with
          buf := ((env.recvByte (s.recvCount i) &&& 0xff) &&& 0xff) <<< 8 } ∧
    (aspeed_i2c_bus_recv aic env s i).recvCount
      = updf s.recvCount i (s.recvCount i + 1) := by
  unfold aspeed_i2c_bus_recv
  dsimp only
  rw [if_neg (fun hh => hh hB)]
  dsimp only
  exact ⟨updf_at _ _ _, rfl⟩

theorem raise_busAt (aic : AspeedI2CClassDesc) (s : AspeedI2CState) (i : Nat) :
    (aspeed_i2c_bus_raise_interrupt aic s i).busses i
      = { s.busses i with
          intr_status := (s.busses i).intr_status &&& (s.busses i).intr_ctrl } := by
  unfold aspeed_i2c_bus_raise_interrupt
  dsimp only
  split
  · exact updf_at _ _ _
  · exact updf_at _ _ _

theorem raise_recvCount (aic : AspeedI2CClassDesc) (s : AspeedI2CState) (i : Nat) :
    (aspeed_i2c_bus_raise_interrupt aic s i).recvCount = s.recvCount := by
  unfold aspeed_i2c_bus_raise_interrupt
  dsimp only
  split
  · rfl
  · rfl

/-- `aspeed_i2c_handle_rx_cmd` in byte-buffer mode: one receive, BYTE_BUF
latched, INTR_RX_DONE ORed into the bus status, enable mask untouched. -/
theorem handle_rx_busAt (aic : AspeedI2CClassDesc) (env : I2CSlaveEnv)
    (t : AspeedI2CState) (i : Nat)
    (hB : (t.busses i).cmd &&& I2CD_RX_BUFF_ENABLE = 0) :
    ((aspeed_i2c_handle_rx_cmd aic env t i).busses i).buf
      = ((env.recvByte (t.recvCount i) &&& 0xff) &&& 0xff) <<< 8 ∧
    ((aspeed_i2c_handle_rx_cmd aic env t i).busses i).intr_status
      = (t.busses i).intr_status ||| I2CD_INTR_RX_DONE ∧
    ((aspeed_i2c_handle_rx_cmd aic env t i).busses i).intr_ctrl
      = (t.busses i).intr_ctrl ∧
    (aspeed_i2c_handle_rx_cmd aic env t i).recvCount i = t.recvCount i + 1 := by
  have hB1 : ((setBusState t i I2CD_MRXD).busses i).cmd &&& I2CD_RX_BUFF_ENABLE = 0 := by
    rw [setBusState_busAt]
    unfold aspeed_i2c_set_state
    dsimp only
    rw [or_and_distrib, Nat.and_assoc,
      (by decide : (0xffffffff ^^^ (I2CD_TX_STATE_MASK <<< I2CD_TX_STATE_SHIFT))
        &&& I2CD_RX_BUFF_ENABLE = I2CD_RX_BUFF_ENABLE),
      (by decide : ((I2CD_MRXD &&& I2CD_TX_STATE_MASK) <<< I2CD_TX_STATE_SHIFT)
        &&& I2CD_RX_BUFF_ENABLE = 0),
      hB, Nat.or_zero]
  obtain ⟨hrb, hrc⟩ := busRecv_byteAt aic env (setBusState t i I2CD_MRXD) i hB1
  unfold aspeed_i2c_handle_rx_cmd
  refine ⟨?_, ?_, ?_, ?_⟩
  · simp only [setBusState_busAt, clearCmdBits_busAt, orStatus_busAt, hrb,
      setBusState_recvCount, aspeed_i2c_set_state]
  · simp only [setBusState_busAt, clearCmdBits_busAt, orStatus_busAt, hrb,
      setBusState_recvCount, aspeed_i2c_set_state]
  · simp only [setBusState_busAt, clearCmdBits_busAt, orStatus_busAt, hrb,
      setBusState_recvCount, aspeed_i2c_set_state]
  · simp only [setBusState_recvCount, clearCmdBits_recvCount, orStatus_recvCount,
      hrc, updf_at]

theorem and_four (x : Nat) : x &&& 4 = 0 ∨ x &&& 4 = 4 := by
  have h : x &&& 4 = (x.testBit 2).toNat * 4 := by
    have h2 : (4 : Nat) = 2 ^ 2 := by norm_num
    rw [h2, Nat.and_two_pow]
  cases hx : x.testBit 2
  · left
    rw [h, hx]
    rfl
  · right
    rw [h, hx]
    rfl

theorem rx_done_bit (x c : Nat) (hc : c &&& 4 ≠ 0) : ((x ||| 4) &&& c) &&& 4 ≠ 0 := by
  have h4 : c &&& 4 = 4 := by
    rcases and_four c with h | h
    · exact absurd h hc
    · exact h
  rw [Nat.and_assoc, h4, or_and_distrib]
  intro h0
  exact absurd (lor_eq_zero h0).2 (by decide)

/-- Raising the interrupt after `aspeed_i2c_handle_rx_cmd`: the received
byte is latched, the receive counter advances, and INTR_RX_DONE survives
the `status &= ctrl` mask whenever the bus enables it. -/
theorem retrigger_core (aic : AspeedI2CClassDesc) (env : I2CSlaveEnv)
    (t : AspeedI2CState) (i : Nat)
    (hB : (t.busses i).cmd &&& I2CD_RX_BUFF_ENABLE = 0)
    (hE : (t.busses i).intr_ctrl &&& I2CD_INTR_RX_DONE ≠ 0) :
    ((aspeed_i2c_bus_raise_interrupt aic (aspeed_i2c_handle_rx_cmd aic env t i) i).busses i).buf
      = ((env.recvByte (t.recvCount i) &&& 0xff) &&& 0xff) <<< 8 ∧
    ((aspeed_i2c_bus_raise_interrupt aic (aspeed_i2c_handle_rx_cmd aic env t i) i).busses i).intr_status
      &&& I2CD_INTR_RX_DONE ≠ 0 ∧
    (aspeed_i2c_bus_raise_interrupt aic (aspeed_i2c_handle_rx_cmd aic env t i) i).recvCount i
      = t.recvCount i + 1 := by
  obtain ⟨f1, f2, f3, f4⟩ := handle_rx_busAt aic env t i hB
  refine ⟨?_, ?_, ?_⟩
  · rw [raise_busAt]
    dsimp only
    exact f1
  · rw [raise_busAt]
    dsimp only
    rw [f2, f3]
    exact rx_done_bit _ _ hE
  · rw [raise_recvCount]
    exact f4

/-- C9 (corrected): a W1C of INTR_STS that clears a pending INTR_RX_DONE
while an RX command bit is still pending in `cmd` immediately performs
another receive: BYTE_BUF.RX is loaded with the next byte, the receive
counter advances, and INTR_RX_DONE is re-asserted (provided the bus's
INTR_CTRL enables it - the raise path masks the status by intr_ctrl).
The claim's "in particular" scenario is wrong: directly after the
M_START_CMD|M_RX_CMD command the RX command bits have already been
consumed by `aspeed_i2c_handle_rx_cmd`, so a bare W1C does NOT re-trigger
(`C9_counterexample`); re-arming CMD with M_RX_CMD first makes the W1C
re-trigger deliver the next byte 0xAD (witness). -/
theorem C9_w1c_retrigger (aic : AspeedI2CClassDesc) (env : I2CSlaveEnv)
    (s : AspeedI2CState) (i value : Nat)
    (hP : (s.busses i).intr_status &&& I2CD_INTR_RX_DONE ≠ 0)
    (hV : value &&& I2CD_INTR_RX_DONE ≠ 0)
    (hC : (s.busses i).cmd &&& (I2CD_M_RX_CMD ||| I2CD_M_S_RX_CMD_LAST) ≠ 0)
    (hB : (s.busses i).cmd &&& I2CD_RX_BUFF_ENABLE = 0)
    (hE : (s.busses i).intr_ctrl &&& I2CD_INTR_RX_DONE ≠ 0) :
    ((aspeed_i2c_bus_write aic env s i I2CD_INTR_STS_REG value).busses i).buf
      = ((env.recvByte (s.recvCount i) &&& 0xff) &&& 0xff) <<< 8 ∧
    ((aspeed_i2c_bus_write aic env s i I2CD_INTR_STS_REG value).busses i).intr_status
      &&& I2CD_INTR_RX_DONE ≠ 0 ∧
    (aspeed_i2c_bus_write aic env s i I2CD_INTR_STS_REG value).recvCount i
      = s.recvCount i + 1 := by
  unfold aspeed_i2c_bus_write
  rw [if_neg (by decide : ¬(I2CD_INTR_STS_REG = I2CD_FUN_CTRL_REG)),
    if_neg (by decide : ¬(I2CD_INTR_STS_REG = I2CD_AC_TIMING_REG1)),
    if_neg (by decide : ¬(I2CD_INTR_STS_REG = I2CD_AC_TIMING_REG2)),
    if_neg (by decide : ¬(I2CD_INTR_STS_REG = I2CD_INTR_CTRL_REG)),
    if_pos (rfl : I2CD_INTR_STS_REG = I2CD_INTR_STS_REG)]
  dsimp only
  have hcm : (updf s.busses i
      { s.busses i with intr_status := (s.busses i).intr_status
          &&& (0xffffffff ^^^ (value &&& 0x7FFF)) } i).cmd
      &&& (I2CD_M_RX_CMD ||| I2CD_M_S_RX_CMD_LAST) ≠ 0 := by
    rw [updf_at]
    exact hC
  have hcond : ((s.busses i).intr_status &&& I2CD_INTR_RX_DONE ≠ 0 ∧
      value &&& I2CD_INTR_RX_DONE ≠ 0) ∧
      (updf s.busses i
        { s.busses i with intr_status := (s.busses i).intr_status
            &&& (0xffffffff ^^^ (value &&& 0x7FFF)) } i).cmd
        &&& (I2CD_M_RX_CMD ||| I2CD_M_S_RX_CMD_LAST) ≠ 0 := ⟨⟨hP, hV⟩, hcm⟩
  by_cases hb0 : (s.busses i).intr_status &&& (0xffffffff ^^^ (value &&& 0x7FFF)) = 0
  · rw [if_pos hb0]
    dsimp only
    rw [if_pos hcond]
    refine retrigger_core aic env _ i ?_ ?_
    · dsimp only
      rw [updf_at]
      exact hB
    · dsimp only
      rw [updf_at]
      exact hE
  · rw [if_neg hb0]
    dsimp only
    rw [if_pos hcond]
    refine retrigger_core aic env _ i ?_ ?_
    · dsimp only
      rw [updf_at]
      exact hB
    · dsimp only
      rw [updf_at]
      exact hE

/-- Witness for `C9_w1c_retrigger`: on the re-armed scenario state the W1C
of INTR_RX_DONE delivers the next oracle byte (0xAD). -/
theorem C9_w1c_retrigger_witness :
    ((aspeed_i2c_bus_write aic2400 env9 i2cScenario2 0 I2CD_INTR_STS_REG
        I2CD_INTR_RX_DONE).busses 0).buf
      = ((env9.recvByte (i2cScenario2.recvCount 0) &&& 0xff) &&& 0xff) <<< 8 ∧
    ((aspeed_i2c_bus_write aic2400 env9 i2cScenario2 0 I2CD_INTR_STS_REG
        I2CD_INTR_RX_DONE).busses 0).intr_status &&& I2CD_INTR_RX_DONE ≠ 0 ∧
    (aspeed_i2c_bus_write aic2400 env9 i2cScenario2 0 I2CD_INTR_STS_REG
        I2CD_INTR_RX_DONE).recvCount 0 = i2cScenario2.recvCount 0 + 1 :=
  C9_w1c_retrigger aic2400 env9 i2cScenario2 0 I2CD_INTR_RX_DONE
    (by decide) (by decide) (by decide) (by decide) (by decide)

/-- The claim's "in particular" scenario is false: directly after the
M_START_CMD|M_RX_CMD command (scenario 1), the RX command bits were already
consumed, so a bare W1C of INTR_RX_DONE does NOT receive a next byte -
BYTE_BUF still holds the first byte 0xDE, INTR_RX_DONE stays clear and the
receive counter stays at 1. -/
theorem C9_counterexample :
    ((aspeed_i2c_bus_write aic2400 env9 i2cScenario1 0 I2CD_INTR_STS_REG
        I2CD_INTR_RX_DONE).busses 0).buf = 0xDE00 ∧
    ((aspeed_i2c_bus_write aic2400 env9 i2cScenario1 0 I2CD_INTR_STS_REG
        I2CD_INTR_RX_DONE).busses 0).intr_status &&& I2CD_INTR_RX_DONE = 0 ∧
    (aspeed_i2c_bus_write aic2400 env9 i2cScenario1 0 I2CD_INTR_STS_REG
        I2CD_INTR_RX_DONE).recvCount 0 = 1 := by
  refine ⟨by decide, by decide, by decide⟩

/-- `setStopBits` ORs `CTRL_CE_STOP_ACTIVE` into each CTRL register. -/
theorem setStopBits_at : ∀ (n r0 : Nat) (regs : Nat → Nat) (i : Nat), i < n →
    setStopBits r0 n regs (r0 + i) = regs (r0 + i) ||| CTRL_CE_STOP_ACTIVE
  | 0, _, _, _, h => absurd h (Nat.not_lt_zero _)
  | n + 1, r0, regs, i, h => by
    unfold setStopBits
    dsimp only
    by_cases he : i = n
    · subst he
      rw [upd_at, setStopBits_ne i r0 regs (r0 + i) (fun k hk => by omega)]
    · rw [upd_ne _ _ _ _ (by omega : r0 + i ≠ r0 + n)]
      exact setStopBits_at n r0 regs i (by omega)

/-- After reset, each in-use CTRL register holds exactly
`CTRL_CE_STOP_ACTIVE` (the unselect loop) - not zero. -/
theorem reset_regs_ctrl (st : AspeedSMCState) (hs : ctrlSane st.ctrl)
    (hnum : st.num_cs ≤ st.ctrl.max_slaves)
    (hcc : st.ctrl.r_conf < st.ctrl.r_ctrl0)
    (i : Nat) (hi : i < st.num_cs) :
    (aspeed_smc_reset st).regs (st.ctrl.r_ctrl0 + i) = CTRL_CE_STOP_ACTIVE := by
  obtain ⟨s1, s2, s3, s4, s5, s6⟩ := hs
  have hseg : R_SEG_ADDR0 = 12 := rfl
  rw [reset_regs_eq st _ (by omega),
    setDefaultSegs_ne _ _ _ _ (fun k hk => by omega),
    setStopBits_at _ _ _ _ hi]
  show 0 ||| CTRL_CE_STOP_ACTIVE = CTRL_CE_STOP_ACTIVE
  exact Nat.zero_or _

theorem reset_snoop (st : AspeedSMCState) :
    (aspeed_smc_reset st).snoop_index = SNOOP_OFF ∧
    (aspeed_smc_reset st).snoop_dummies = 0 := by
  unfold aspeed_smc_reset
  dsimp only
  exact ⟨rfl, rfl⟩

theorem i2cResetBusses_ge : ∀ (n : Nat) (s : AspeedI2CState) (j : Nat), n ≤ j →
    (i2cResetBusses n s).busses j = s.busses j
  | 0, _, _, _ => rfl
  | n + 1, s, j, h => by
    unfold i2cResetBusses
    dsimp only
    rw [updf_ne _ _ _ _ (by omega : j ≠ n)]
    exact i2cResetBusses_ge n s j (by omega)

/-- The reset loop clears exactly intr_ctrl, intr_status, cmd and buf of
each bus; ctrl, the timing words and pool_ctrl are retained. -/
theorem i2cResetBusses_at : ∀ (n : Nat) (s : AspeedI2CState) (j : Nat), j < n →
    (i2cResetBusses n s).busses j =
      { s.busses j with intr_ctrl := 0, intr_status := 0, cmd := 0, buf := 0 }
  | 0, _, _, h => absurd h (Nat.not_lt_zero _)
  | n + 1, s, j, h => by
    unfold i2cResetBusses
    dsimp only
    by_cases he : j = n
    · subst he
      rw [updf_at, i2cResetBusses_ge j s j (Nat.le_refl j)]
    · rw [updf_ne _ _ _ _ he]
      exact i2cResetBusses_at n s j (by omega)

theorem i2cResetBusses_fields : ∀ (n : Nat) (s : AspeedI2CState),
    (i2cResetBusses n s).intr_status = s.intr_status ∧
    (i2cResetBusses n s).pool = s.pool
  | 0, _ => ⟨rfl, rfl⟩
  | n + 1, s => by
    unfold i2cResetBusses
    dsimp only
    exact i2cResetBusses_fields n s

/-- C8 (corrected): reset does NOT zero everything outside the segment
registers and straps.  For the SMC, the segment registers are repopulated
from the variant defaults and all registers outside the CONF/CTRL/SEG
footprint are zeroed, but each in-use CTRL register is left holding
CTRL_CE_STOP_ACTIVE (the unselect loop), and the snoop tracker is parked
at SNOOP_OFF, not 0.  For the I2C controller, reset clears the
controller-level status and each bus's intr_ctrl, intr_status, cmd and
buf, but RETAINS each bus's ctrl, timing words and pool_ctrl and the
shared pool buffer, contrary to the claim. -/
theorem C8_reset_characterization (st : AspeedSMCState) (hs : ctrlSane st.ctrl)
    (hnum : st.num_cs ≤ st.ctrl.max_slaves)
    (hcc : st.ctrl.r_conf < st.ctrl.r_ctrl0)
    (aic : AspeedI2CClassDesc) (t : AspeedI2CState) :
    (∀ i, i < st.ctrl.max_slaves →
      (aspeed_smc_reset st).regs (R_SEG_ADDR0 + i)
        = segment_to_reg st.ctrl ((segTableEntries st.ctrl.segments).getD i ⟨0, 0⟩)) ∧
    (∀ i, i < st.num_cs →
      (aspeed_smc_reset st).regs (st.ctrl.r_ctrl0 + i) = CTRL_CE_STOP_ACTIVE) ∧
    (∀ j, st.ctrl.r_conf ≠ j →
      (∀ i, i < st.num_cs → st.ctrl.r_ctrl0 + i ≠ j) →
      (∀ i, i < st.ctrl.max_slaves → R_SEG_ADDR0 + i ≠ j) →
      (aspeed_smc_reset st).regs j = 0) ∧
    (aspeed_smc_reset st).snoop_index = SNOOP_OFF ∧
    (aspeed_smc_reset st).snoop_dummies = 0 ∧
    (aspeed_i2c_reset aic t).intr_status = 0 ∧
    (∀ j, j < aic.num_busses →
      (aspeed_i2c_reset aic t).busses j =
        { t.busses j with intr_ctrl := 0, intr_status := 0, cmd := 0, buf := 0 }) ∧
    (aspeed_i2c_reset aic t).pool = t.pool := by
  refine ⟨fun i hi => reset_regs_seg st hs i hi,
    fun i hi => reset_regs_ctrl st hs hnum hcc i hi,
    fun j h1 h2 h3 => reset_regs_other st j h1 h2 h3,
    (reset_snoop st).1, (reset_snoop st).2, ?_, ?_, ?_⟩
  · exact (i2cResetBusses_fields aic.num_busses _).1
  · intro j hj
    exact i2cResetBusses_at aic.num_busses _ j hj
  · exact (i2cResetBusses_fields aic.num_busses _).2

/-- Witness for `C8_reset_characterization`: the AST2400 FMC controller
and the AST2400 I2C controller in its scenario-1 state. -/
theorem C8_reset_characterization_witness :
    (∀ i, i < stFmc2400.ctrl.max_slaves →
      (aspeed_smc_reset stFmc2400).regs (R_SEG_ADDR0 + i)
        = segment_to_reg stFmc2400.ctrl
            ((segTableEntries stFmc2400.ctrl.segments).getD i ⟨0, 0⟩)) ∧
    (∀ i, i < stFmc2400.num_cs →
      (aspeed_smc_reset stFmc2400).regs (stFmc2400.ctrl.r_ctrl0 + i)
        = CTRL_CE_STOP_ACTIVE) ∧
    (∀ j, stFmc2400.ctrl.r_conf ≠ j →
      (∀ i, i < stFmc2400.num_cs → stFmc2400.ctrl.r_ctrl0 + i ≠ j) →
      (∀ i, i < stFmc2400.ctrl.max_slaves → R_SEG_ADDR0 + i ≠ j) →
      (aspeed_smc_reset stFmc2400).regs j = 0) ∧
    (aspeed_smc_reset stFmc2400).snoop_index = SNOOP_OFF ∧
    (aspeed_smc_reset stFmc2400).snoop_dummies = 0 ∧
    (aspeed_i2c_reset aic2400 i2cScenario1).intr_status = 0 ∧
    (∀ j, j < aic2400.num_busses →
      (aspeed_i2c_reset aic2400 i2cScenario1).busses j =
        { i2cScenario1.busses j with
          intr_ctrl := 0, intr_status := 0, cmd := 0, buf := 0 }) ∧
    (aspeed_i2c_reset aic2400 i2cScenario1).pool = i2cScenario1.pool :=
  C8_reset_characterization stFmc2400 (by decide) (by decide) (by decide)
    aic2400 i2cScenario1

/-- The claim's "zeroes all device state" is false on both devices: after
resetting the scenario-1 I2C state, bus 0's FUN_CTRL still holds 1
(master enable retained), and the freshly reset AST2400 FMC controller
holds CTRL_CE_STOP_ACTIVE = 4, not 0, in its first CTRL register. -/
theorem C8_counterexample :
    ((aspeed_i2c_reset aic2400 i2cScenario1).busses 0).ctrl = 1 ∧
    stFmc2400.regs stFmc2400.ctrl.r_ctrl0 = CTRL_CE_STOP_ACTIVE ∧
    CTRL_CE_STOP_ACTIVE ≠ 0 := by
  refine ⟨by decide, by decide, by decide⟩

/-- Witness for `C2_segment_roundtrip` at a concrete input. -/
theorem C2_segment_roundtrip_witness :
    reg_to_segment ctrl_fmc2400 (segment_to_reg ctrl_fmc2400 ⟨0x20000000, 0x30000000⟩) =
      (⟨0x20000000, 0x30000000⟩ : AspeedSegments) :=
  C2_segment_roundtrip ctrl_fmc2400 (by decide) ⟨0x20000000, 0x30000000⟩
    (by decide) (by decide) (by decide) (by decide) (by decide) (by decide)

end AspeedVerify
